import Mathlib

/-!
# NMEA reader of `locosys_gps.c`: embedding and checked properties

Shallow embedding of `src/hardware/gps/locosys/locosys_gps.c`.

Conventions of the embedding

* A byte is a natural number (`0 .. 255`); a C string or buffer is a `List Nat`,
  and `readByte mem a` is `mem[a]` (zero outside the object).
* A pointer into an object is an offset; a `Token` carries the object it points
  into (`mem`) together with the two offsets `p` and `end`.
* C `int` values are `Int`; arithmetic that can leave the 32-bit range goes
  through `wrap32` (two's complement).
* `double`/`float` values are rationals with exact arithmetic; `strtod`,
  `mktime`, the clock and the narrowing to `float` come from the environment
  `Env`, they are libc or platform behaviour and not code of this repository.
-/

namespace LocosysGps

/-! ## Bytes and memory -/

/-- The bytes of a string literal, for stating examples readably. -/
def bytes (s : String) : List Nat := s.toList.map Char.toNat

/-- The byte `mem[a]`; a read outside the object yields `0`. -/
def readByte (mem : List Nat) (a : Nat) : Nat := mem.getD a 0

/-- The bytes `mem[p .. e)`, read one by one. -/
def readSpan (mem : List Nat) (p e : Nat) : List Nat :=
  (List.range (e - p)).map (fun i => readByte mem (p + i))

/-- Two's complement reduction of an integer to the range of a 32-bit `int`. -/
def wrap32 (x : Int) : Int := (x + 2147483648) % 4294967296 - 2147483648

def CH_NL : Nat := 10
def CH_CR : Nat := 13
def CH_DOLLAR : Nat := 36
def CH_STAR : Nat := 42
def CH_COMMA : Nat := 44
def CH_0 : Nat := 48

/-! ## Tokenizer (`nmea_tokenizer_init`, `nmea_tokenizer_get`) -/

/-- `typedef struct { const char* p; const char* end; } Token;` with the object
the two pointers point into. -/
structure Token where
  mem : List Nat
  p : Nat
  end_ : Nat
  deriving DecidableEq, Repr

def MAX_NMEA_TOKENS : Nat := 32

/-- `typedef struct { int count; Token tokens[MAX_NMEA_TOKENS]; } NmeaTokenizer;`
with `count = tokens.length`; each entry is the pair `(p, end)` of offsets into
`buf`. -/
structure NmeaTokenizer where
  buf : List Nat
  tokens : List (Nat × Nat)
  deriving DecidableEq, Repr

def NmeaTokenizer.count (t : NmeaTokenizer) : Nat := t.tokens.length

/-- `memchr(p, c, n)` over `mem`: the offset of the first byte equal to `c`
among `mem[p .. p+n)`, or `none` (`NULL`). -/
def memchr (mem : List Nat) (c : Nat) : Nat → Nat → Option Nat
  | _, 0 => none
  | p, n + 1 => if readByte mem p = c then some p else memchr mem c (p + 1) n

/-- The `while (p < end)` loop of `nmea_tokenizer_init`; `toks` are the tokens
stored so far (`count = toks.length`). Every iteration with `p < end` moves `p`
forward, so `end - p` iterations are enough (`fuel`). -/
def tokenizer_loop (buf : List Nat) (end_ : Nat) :
    Nat → Nat → List (Nat × Nat) → List (Nat × Nat)
  | 0, _, toks => toks
  | fuel + 1, p, toks =>
    if p < end_ then
      let q := match memchr buf CH_COMMA p (end_ - p) with
        | some q => q
        | none => end_
      let toks1 := if toks.length < MAX_NMEA_TOKENS then toks ++ [(p, q)] else toks
      let q1 := if q < end_ then q + 1 else q
      tokenizer_loop buf end_ fuel q1 toks1
    else toks

/-- The start pointer after `if (p < end && p[0] == '$') p += 1;`. -/
def strip_dollar (buf : List Nat) (p end_ : Nat) : Nat :=
  if p < end_ ∧ readByte buf p = CH_DOLLAR then p + 1 else p

/-- The end pointer after the removal of the trailing `"\n"` or `"\r\n"`. -/
def strip_newline (buf : List Nat) (p end_ : Nat) : Nat :=
  if end_ > p ∧ readByte buf (end_ - 1) = CH_NL then
    if end_ - 1 > p ∧ readByte buf (end_ - 2) = CH_CR then end_ - 2 else end_ - 1
  else end_

/-- The end pointer after `if (end >= p+3 && end[-3] == '*') end -= 3;`. -/
def strip_checksum (buf : List Nat) (p end_ : Nat) : Nat :=
  if end_ ≥ p + 3 ∧ readByte buf (end_ - 3) = CH_STAR then end_ - 3 else end_

/-- `nmea_tokenizer_init(t, p, end)` on the buffer `buf`. -/
def nmea_tokenizer_init (buf : List Nat) (p end_ : Nat) : NmeaTokenizer :=
  let p1 := strip_dollar buf p end_
  let e1 := strip_newline buf p1 end_
  let e2 := strip_checksum buf p1 e1
  { buf := buf, tokens := tokenizer_loop buf e2 (e2 - p1) p1 [] }

/-- The static string `""` that `nmea_tokenizer_get` points at for an index out
of range: one NUL byte, `p = end`. -/
def dummyToken : Token := { mem := [0], p := 0, end_ := 0 }

/-- `nmea_tokenizer_get(t, index)` (every call site passes `index >= 0`). -/
def nmea_tokenizer_get (t : NmeaTokenizer) (index : Nat) : Token :=
  match t.tokens.get? index with
  | some (p, e) => { mem := t.buf, p := p, end_ := e }
  | none => dummyToken

/-- The bytes a token spans, `tok.p .. tok.end`. -/
def Token.bytes (t : Token) : List Nat := readSpan t.mem t.p t.end_

/-- The byte `tok.p[i]`. -/
def Token.at (t : Token) (i : Nat) : Nat := readByte t.mem (t.p + i)

/-- The length `tok.end - tok.p` when `p <= end`. -/
def Token.len (t : Token) : Nat := t.end_ - t.p

/-! ## Field decoders (`str2int`, `str2float`) -/

/-- The `for ( ; len > 0; len--, p++ )` loop of `str2int`: `none` is the jump to
`Fail`. -/
def str2int_loop (mem : List Nat) (end_ : Nat) : Nat → Nat → Int → Option Int
  | 0, _, result => some result
  | len + 1, p, result =>
    if p ≥ end_ then none
    else
      let c : Int := (readByte mem p : Int) - 48
      if c < 0 ∨ c ≥ 10 then none
      else str2int_loop mem end_ len (p + 1) (wrap32 (result * 10 + c))

/-- `str2int(p, end)` over the object `mem`. `len = end - p` is an `int`: a
negative length skips the loop and returns `0`. -/
def str2int (mem : List Nat) (p end_ : Nat) : Int :=
  let len : Int := (end_ : Int) - (p : Int)
  if len = 0 then -1
  else
    match str2int_loop mem end_ len.toNat p 0 with
    | some r => r
    | none => -1

/-! ## Platform and libc behaviour -/

/-- What the code takes from libc and the platform: `strtod` on a C string,
the narrowing of a `double` to `float`, `mktime` on the fields
`tm_year tm_mon tm_mday tm_hour tm_min tm_sec` (with `tm_isdst = -1`), the value
`time_utc - time_local` that `nmea_reader_update_utc_diff` computes from the
clock at the time of the call, whether plain `char` is signed, and the `int`
that the conversion `(int) x` gives for a `double` whose truncation does not fit
an `int` (C leaves it undefined; the processor's conversion decides). -/
structure Env where
  strtod : List Nat → ℚ
  toFloat : ℚ → ℚ
  mktime : Int → Int → Int → Int → Int → Int → Int
  utc_diff : Int
  char_signed : Bool
  int_of_double : ℚ → Int

/-- The value of a `char` holding byte `b` once promoted to `int`. -/
def charToInt (env : Env) (b : Nat) : Int :=
  if env.char_signed ∧ b ≥ 128 then (b : Int) - 256 else (b : Int)

/-- The truncation of `x` toward zero. -/
def truncToInt (x : ℚ) : Int := if 0 ≤ x then ⌊x⌋ else ⌈x⌉

/-- `(int) x` for a `double`: the truncation toward zero when it fits a 32-bit
`int`, and what the platform gives otherwise. -/
def doubleToInt (env : Env) (x : ℚ) : Int :=
  if -2147483648 ≤ truncToInt x ∧ truncToInt x ≤ 2147483647 then truncToInt x
  else env.int_of_double x

/-- The C string held by a `char` array: the bytes before the first NUL. -/
def cstring (l : List Nat) : List Nat := l.takeWhile (fun b => b ≠ 0)

/-- `str2float(p, end)` over the object `mem`. Note `len = end - p + 1`: one byte
past `end` is copied too. (A negative `len` would be passed to `memcpy`; no call
site has `end < p - 1`.) -/
def str2float (env : Env) (mem : List Nat) (p end_ : Nat) : ℚ :=
  let len : Int := (end_ : Int) - (p : Int) + 1
  if len = 0 then -1
  else if len ≥ 32 then 0
  else env.strtod (cstring (readSpan mem p (p + len.toNat)))

/-! ## Reader state -/

/-- Modelled from the spec: the fixed maximum of the satellite list, the constant
`GPS_MAX_SVS` of `hardware/gps.h`, which is not under `src/`; that header
defines it as 32. -/
def GPS_MAX_SVS : Nat := 32

/-- Modelled from the spec: the position-valid bit of the fix's bit-field, the
constant `GPS_LOCATION_HAS_LAT_LONG` of `hardware/gps.h`, which is not under
`src/`. -/
def GPS_LOCATION_HAS_LAT_LONG : Nat := 1

/-- Modelled from the spec: the altitude-valid bit, from `hardware/gps.h`. -/
def GPS_LOCATION_HAS_ALTITUDE : Nat := 2

/-- Modelled from the spec: the speed-valid bit, from `hardware/gps.h`. -/
def GPS_LOCATION_HAS_SPEED : Nat := 4

/-- Modelled from the spec: the bearing-valid bit, from `hardware/gps.h`. -/
def GPS_LOCATION_HAS_BEARING : Nat := 8

/-- Modelled from the spec: the accuracy-valid bit, from `hardware/gps.h`. -/
def GPS_LOCATION_HAS_ACCURACY : Nat := 16

/-- Modelled from the spec: `GpsLocation` of `hardware/gps.h`, which is not under
`src/`: the fix with its bit-field `flags` of valid attributes. -/
structure GpsLocation where
  size : Nat
  flags : Nat
  latitude : ℚ
  longitude : ℚ
  altitude : ℚ
  speed : ℚ
  bearing : ℚ
  accuracy : ℚ
  timestamp : Int
  deriving DecidableEq, Repr

/-- Modelled from the spec: `GpsSvInfo` of `hardware/gps.h`, which is not under
`src/`: one satellite record. -/
structure GpsSvInfo where
  size : Nat
  prn : Int
  snr : ℚ
  elevation : ℚ
  azimuth : ℚ
  deriving DecidableEq, Repr

/-- Modelled from the spec: `GpsSvStatus` of `hardware/gps.h`, which is not under
`src/`: the satellite list `sv_list[GPS_MAX_SVS]`, its count and the masks. -/
structure GpsSvStatus where
  size : Nat
  num_svs : Int
  sv_list : List GpsSvInfo
  ephemeris_mask : Nat
  almanac_mask : Nat
  used_in_fix_mask : Nat
  deriving DecidableEq, Repr

/-- `LocosysTimemap_t`. -/
structure LocosysTimemap_t where
  valid : Int
  systime : ℚ
  timestamp : Int
  deriving DecidableEq, Repr

def NMEA_MAX_SIZE : Nat := 83

/-- `NmeaReader`; `inb` is the array `char in[NMEA_MAX_SIZE+1]`, `pos` the write
cursor into it (an `int` that the code never makes negative). -/
structure NmeaReader where
  pos : Nat
  overflow : Int
  utc_year : Int
  utc_mon : Int
  utc_day : Int
  utc_diff : Int
  fix : GpsLocation
  sv_status : GpsSvStatus
  sv_status_changed : Int
  inb : List Nat
  gsa_fixed : Int
  timemap : LocosysTimemap_t
  deriving DecidableEq, Repr

/-- `sizeof(r->fix)` (its value on a 32-bit ABI); only stored, never read by the
code. -/
def SIZEOF_FIX : Nat := 56

/-- `nmea_reader_init`: `memset` to zero, then the fields set one by one and
`nmea_reader_update_utc_diff`. -/
def nmea_reader_init (env : Env) : NmeaReader :=
  { pos := 0
    overflow := 0
    utc_year := -1
    utc_mon := -1
    utc_day := -1
    utc_diff := env.utc_diff
    fix := { size := SIZEOF_FIX, flags := 0, latitude := 0, longitude := 0, altitude := 0,
             speed := 0, bearing := 0, accuracy := 0, timestamp := 0 }
    sv_status := { size := 0, num_svs := 0,
                   sv_list := List.replicate GPS_MAX_SVS
                     { size := 0, prn := 0, snr := 0, elevation := 0, azimuth := 0 },
                   ephemeris_mask := 0, almanac_mask := 0, used_in_fix_mask := 0 }
    sv_status_changed := 0
    inb := List.replicate (NMEA_MAX_SIZE + 1) 0
    gsa_fixed := 0
    timemap := { valid := 0, systime := 0, timestamp := 0 } }

/-! ## Accumulator updates -/

/-- `nmea_reader_get_timestamp`: `none` is the return of `-1`; otherwise the
reader (with `utc_diff` refreshed) and `*timestamp`. -/
def nmea_reader_get_timestamp (env : Env) (r : NmeaReader) (tok : Token) :
    Option (NmeaReader × Int) :=
  if tok.p + 6 > tok.end_ then none
  else if r.utc_year < 0 then none
  else
    let hour := str2int tok.mem tok.p (tok.p + 2)
    let minute := str2int tok.mem (tok.p + 2) (tok.p + 4)
    let seconds := str2float env tok.mem (tok.p + 4) tok.end_
    let r1 := { r with utc_diff := env.utc_diff }
    let ttime := env.mktime (r.utc_year - 1900) (r.utc_mon - 1) r.utc_day
      hour minute (doubleToInt env seconds)
    some (r1, ttime - r1.utc_diff)

/-- `nmea_reader_update_time`: the return value and the reader. -/
def nmea_reader_update_time (env : Env) (r : NmeaReader) (tok : Token) : Int × NmeaReader :=
  match nmea_reader_get_timestamp env r tok with
  | some (r1, timestamp) => (0, { r1 with fix := { r1.fix with timestamp := timestamp * 1000 } })
  | none => (-1, r)

/-- `nmea_reader_update_cdate`; the year is read with
`str2int(tok_y.p, tok_y.end+4)`, as the source has it. -/
def nmea_reader_update_cdate (r : NmeaReader) (tok_d tok_m tok_y : Token) : Int × NmeaReader :=
  if tok_d.p + 2 > tok_d.end_ ∨ tok_m.p + 2 > tok_m.end_ ∨ tok_y.p + 4 > tok_y.end_ then (-1, r)
  else
    (0, { r with
            utc_day := str2int tok_d.mem tok_d.p (tok_d.p + 2)
            utc_mon := str2int tok_m.mem tok_m.p (tok_m.p + 2)
            utc_year := str2int tok_y.mem tok_y.p (tok_y.end_ + 4) })

/-- `nmea_reader_update_date`; the length test on the date only logs. -/
def nmea_reader_update_date (env : Env) (r : NmeaReader) (date mtime : Token) :
    Int × NmeaReader :=
  let day := str2int date.mem date.p (date.p + 2)
  let mon := str2int date.mem (date.p + 2) (date.p + 4)
  let year := wrap32 (str2int date.mem (date.p + 4) (date.p + 6) + 2000)
  if Int.lor (Int.lor day mon) year < 0 then (-1, r)
  else
    nmea_reader_update_time env { r with utc_year := year, utc_mon := mon, utc_day := day } mtime

/-- `convert_from_hhmm`; `degrees` is the `int` `(int)(floor(val) / 100)`. -/
def convert_from_hhmm (env : Env) (tok : Token) : ℚ :=
  let val := str2float env tok.mem tok.p tok.end_
  let degrees : Int := doubleToInt env ((⌊val⌋ : ℚ) / 100)
  let minutes : ℚ := val - (degrees : ℚ) * 100
  (degrees : ℚ) + minutes / 60

def CH_S : Nat := 83
def CH_W : Nat := 87

/-- `nmea_reader_update_latlong`. -/
def nmea_reader_update_latlong (env : Env) (r : NmeaReader) (latitude : Token)
    (latitudeHemi : Nat) (longitude : Token) (longitudeHemi : Nat) : Int × NmeaReader :=
  if latitude.p + 6 > latitude.end_ then (-1, r)
  else
    let lat0 := convert_from_hhmm env latitude
    let lat := if latitudeHemi = CH_S then -lat0 else lat0
    if longitude.p + 6 > longitude.end_ then (-1, r)
    else
      let lon0 := convert_from_hhmm env longitude
      let lon := if longitudeHemi = CH_W then -lon0 else lon0
      (0, { r with fix := { r.fix with
              flags := r.fix.flags ||| GPS_LOCATION_HAS_LAT_LONG
              latitude := lat
              longitude := lon } })

/-- `nmea_reader_update_altitude` (`units` is not used by the code). -/
def nmea_reader_update_altitude (env : Env) (r : NmeaReader) (altitude _units : Token) :
    Int × NmeaReader :=
  if altitude.p ≥ altitude.end_ then (-1, r)
  else
    (0, { r with fix := { r.fix with
            flags := r.fix.flags ||| GPS_LOCATION_HAS_ALTITUDE
            altitude := str2float env altitude.mem altitude.p altitude.end_ } })

/-- `nmea_reader_update_accuracy`; `99.99` is compared exactly. -/
def nmea_reader_update_accuracy (env : Env) (r : NmeaReader) (accuracy : Token) :
    Int × NmeaReader :=
  if accuracy.p ≥ accuracy.end_ then (-1, r)
  else
    let r1 := { r with fix := { r.fix with
      accuracy := env.toFloat (str2float env accuracy.mem accuracy.p accuracy.end_) } }
    if r1.fix.accuracy = 9999 / 100 then (0, r1)
    else (0, { r1 with fix := { r1.fix with
                 flags := r1.fix.flags ||| GPS_LOCATION_HAS_ACCURACY } })

/-- `nmea_reader_update_bearing`. -/
def nmea_reader_update_bearing (env : Env) (r : NmeaReader) (bearing : Token) :
    Int × NmeaReader :=
  if bearing.p ≥ bearing.end_ then (-1, r)
  else
    (0, { r with fix := { r.fix with
            flags := r.fix.flags ||| GPS_LOCATION_HAS_BEARING
            bearing := env.toFloat (str2float env bearing.mem bearing.p bearing.end_) } })

/-- `nmea_reader_update_speed`. -/
def nmea_reader_update_speed (env : Env) (r : NmeaReader) (speed : Token) :
    Int × NmeaReader :=
  if speed.p ≥ speed.end_ then (-1, r)
  else
    (0, { r with fix := { r.fix with
            flags := r.fix.flags ||| GPS_LOCATION_HAS_SPEED
            speed := env.toFloat (str2float env speed.mem speed.p speed.end_) } })

/-- `nmea_reader_update_timemap`. -/
def nmea_reader_update_timemap (env : Env) (r : NmeaReader) (systime_tok timestamp_tok : Token) :
    Int × NmeaReader :=
  if systime_tok.p ≥ systime_tok.end_ ∨ timestamp_tok.p ≥ timestamp_tok.end_ then
    (-1, { r with timemap := { r.timemap with valid := 0 } })
  else
    match nmea_reader_get_timestamp env r timestamp_tok with
    | none => (-1, { r with timemap := { r.timemap with valid := 0 } })
    | some (r1, timestamp) =>
      (0, { r1 with timemap :=
              { valid := 1
                systime := str2float env systime_tok.mem systime_tok.p systime_tok.end_
                timestamp := timestamp * 1000 } })

/-! ## Sentence parser (`nmea_reader_parse`) -/

/-- `!memcmp(tok.p + off, s, s.length)`. -/
def memcmp_eq (tok : Token) (off : Nat) (s : List Nat) : Bool :=
  decide (readSpan tok.mem (tok.p + off) (tok.p + off + s.length) = s)

/-- The body of the `for (i = 3; i <= 14; ++i)` loop of the GSA branch. -/
def gsa_prn_step (isBDMsg : Bool) (tzer : NmeaTokenizer) (r : NmeaReader) (i : Nat) :
    NmeaReader :=
  let tok_prn := nmea_tokenizer_get tzer i
  let prn := str2int tok_prn.mem tok_prn.p tok_prn.end_
  if prn > 0 ∧ prn < 33 then
    let r1 := { r with
      sv_status := { r.sv_status with
        used_in_fix_mask := r.sv_status.used_in_fix_mask ||| (1 <<< (prn - 1).toNat) }
      gsa_fixed := 1 }
    if isBDMsg then { r1 with sv_status_changed := 1 } else r1
  else r

/-- The GSA branch of `nmea_reader_parse`. -/
def parse_gsa (env : Env) (isBDMsg : Bool) (tzer : NmeaTokenizer) (r : NmeaReader) :
    NmeaReader :=
  let tok_fixStatus := nmea_tokenizer_get tzer 2
  if tok_fixStatus.at 0 ≠ 0 ∧ tok_fixStatus.at 0 ≠ 49 then
    let r1 := (nmea_reader_update_accuracy env r (nmea_tokenizer_get tzer 15)).2
    let r2 := if !isBDMsg then
        { r1 with sv_status := { r1.sv_status with used_in_fix_mask := 0 } }
      else r1
    (List.range' 3 12).foldl (gsa_prn_step isBDMsg tzer) r2
  else
    if isBDMsg then { r with sv_status_changed := 1 }
    else if r.gsa_fixed ≠ 0 then
      { r with sv_status := { r.sv_status with used_in_fix_mask := 0 }, gsa_fixed := 0 }
    else r

/-- The variables of the `while (i < 4 && ...)` loop of the GSV branch. `writes`
is not a variable of the code: it lists, in order, the indices `curr` at which a
record was stored. -/
structure GsvLoop where
  num_svs : Int
  curr : Int
  sv_list : List GpsSvInfo
  writes : List Int
  deriving DecidableEq, Repr

/-- The store `sv_list[curr].prn = ...; .elevation = ...; .azimuth = ...; .snr = ...`
into the array of `GPS_MAX_SVS` entries. The code also stores at index
`GPS_MAX_SVS` (the loop lets `curr` reach it): that store lands in the memory
after `sv_list`, and what it overwrites there (masks, `sv_status_changed`, the
line buffer) depends on the layout of the structures, which the embedding does
not have. Here such a store leaves the list as it is and is recorded in
`GsvLoop.writes`; what the embedding says about a reader after a store past the
end holds for `num_svs` and the fields in front of `sv_list` only. -/
def sv_store (sv_list : List GpsSvInfo) (curr : Int) (prn : Int) (elevation azimuth snr : ℚ) :
    List GpsSvInfo :=
  if 0 ≤ curr ∧ curr < (GPS_MAX_SVS : Int) then
    match sv_list.get? curr.toNat with
    | some old =>
      sv_list.set curr.toNat
        { old with prn := prn, elevation := elevation, azimuth := azimuth, snr := snr }
    | none => sv_list
  else sv_list

/-- The `while (i < 4 && r->sv_status.num_svs < noSatellites)` loop of the GSV
branch, `n = 4 - i` iterations left. -/
def gsv_loop (env : Env) (tzer : NmeaTokenizer) (noSatellites : Int) :
    Nat → Nat → GsvLoop → GsvLoop
  | 0, _, st => st
  | n + 1, i, st =>
    if st.num_svs < noSatellites then
      let tok_prn := nmea_tokenizer_get tzer (i * 4 + 4)
      let tok_elevation := nmea_tokenizer_get tzer (i * 4 + 5)
      let tok_azimuth := nmea_tokenizer_get tzer (i * 4 + 6)
      let tok_snr := nmea_tokenizer_get tzer (i * 4 + 7)
      let sv_list1 := sv_store st.sv_list st.curr
        (str2int tok_prn.mem tok_prn.p tok_prn.end_)
        (env.toFloat (str2float env tok_elevation.mem tok_elevation.p tok_elevation.end_))
        (env.toFloat (str2float env tok_azimuth.mem tok_azimuth.p tok_azimuth.end_))
        (env.toFloat (str2float env tok_snr.mem tok_snr.p tok_snr.end_))
      let n1 := wrap32 (st.num_svs + 1)
      let num_svs1 := if n1 > (GPS_MAX_SVS : Int) then (GPS_MAX_SVS : Int) else n1
      let c1 := wrap32 (st.curr + 1)
      let curr1 := if c1 > (GPS_MAX_SVS : Int) then (GPS_MAX_SVS : Int) else c1
      gsv_loop env tzer noSatellites n (i + 1)
        { num_svs := num_svs1, curr := curr1, sv_list := sv_list1,
          writes := st.writes ++ [st.curr] }
    else st

/-- The GSV branch of `nmea_reader_parse`, up to the end of the `while` loop:
the reader before the loop and the loop's final variables. -/
def parse_gsv_loop (env : Env) (isBDMsg : Bool) (tzer : NmeaTokenizer) (r : NmeaReader)
    (noSatellites0 sentence : Int) : NmeaReader × GsvLoop :=
  let r1 := if sentence = 1 ∧ !isBDMsg then
      { r with sv_status_changed := 0, sv_status := { r.sv_status with num_svs := 0 } }
    else r
  let noSatellites := if sentence = 1 ∧ isBDMsg then
      wrap32 (noSatellites0 + r1.sv_status.num_svs)
    else noSatellites0
  (r1, gsv_loop env tzer noSatellites 4 0
    { num_svs := r1.sv_status.num_svs, curr := r1.sv_status.num_svs,
      sv_list := r1.sv_status.sv_list, writes := [] })

/-- The GSV branch of `nmea_reader_parse`. -/
def parse_gsv (env : Env) (isBDMsg : Bool) (tzer : NmeaTokenizer) (r : NmeaReader) :
    NmeaReader :=
  let tok_noSatellites := nmea_tokenizer_get tzer 3
  let noSatellites0 := str2int tok_noSatellites.mem tok_noSatellites.p tok_noSatellites.end_
  if noSatellites0 > 0 then
    let tok_noSentences := nmea_tokenizer_get tzer 1
    let tok_sentence := nmea_tokenizer_get tzer 2
    let sentence := str2int tok_sentence.mem tok_sentence.p tok_sentence.end_
    let totalSentences := str2int tok_noSentences.mem tok_noSentences.p tok_noSentences.end_
    let (r1, st) := parse_gsv_loop env isBDMsg tzer r noSatellites0 sentence
    let r2 := { r1 with
      sv_status := { r1.sv_status with num_svs := st.num_svs, sv_list := st.sv_list } }
    if sentence = totalSentences ∧ isBDMsg then { r2 with sv_status_changed := 1 } else r2
  else r

/-- The GGA branch of `nmea_reader_parse`. -/
def parse_gga (env : Env) (tzer : NmeaTokenizer) (r : NmeaReader) : NmeaReader :=
  let tok_fixstaus := nmea_tokenizer_get tzer 6
  if charToInt env (tok_fixstaus.at 0) > 48 then
    let r1 := (nmea_reader_update_time env r (nmea_tokenizer_get tzer 1)).2
    let r2 := (nmea_reader_update_latlong env r1 (nmea_tokenizer_get tzer 2)
      ((nmea_tokenizer_get tzer 3).at 0) (nmea_tokenizer_get tzer 4)
      ((nmea_tokenizer_get tzer 5).at 0)).2
    (nmea_reader_update_altitude env r2 (nmea_tokenizer_get tzer 9)
      (nmea_tokenizer_get tzer 10)).2
  else r

/-- The GLL branch of `nmea_reader_parse`. -/
def parse_gll (env : Env) (tzer : NmeaTokenizer) (r : NmeaReader) : NmeaReader :=
  let tok_fixstaus := nmea_tokenizer_get tzer 6
  if tok_fixstaus.at 0 = 65 then
    let r1 := (nmea_reader_update_time env r (nmea_tokenizer_get tzer 5)).2
    (nmea_reader_update_latlong env r1 (nmea_tokenizer_get tzer 1)
      ((nmea_tokenizer_get tzer 2).at 0) (nmea_tokenizer_get tzer 3)
      ((nmea_tokenizer_get tzer 4).at 0)).2
  else r

/-- The RMC branch of `nmea_reader_parse`. -/
def parse_rmc (env : Env) (tzer : NmeaTokenizer) (r : NmeaReader) : NmeaReader :=
  let tok_fixStatus := nmea_tokenizer_get tzer 2
  if tok_fixStatus.at 0 = 65 then
    let r1 := (nmea_reader_update_date env r (nmea_tokenizer_get tzer 9)
      (nmea_tokenizer_get tzer 1)).2
    let r2 := (nmea_reader_update_latlong env r1 (nmea_tokenizer_get tzer 3)
      ((nmea_tokenizer_get tzer 4).at 0) (nmea_tokenizer_get tzer 5)
      ((nmea_tokenizer_get tzer 6).at 0)).2
    let r3 := (nmea_reader_update_bearing env r2 (nmea_tokenizer_get tzer 8)).2
    (nmea_reader_update_speed env r3 (nmea_tokenizer_get tzer 7)).2
  else r

/-- The VTG branch of `nmea_reader_parse`. -/
def parse_vtg (env : Env) (tzer : NmeaTokenizer) (r : NmeaReader) : NmeaReader :=
  let tok_fixStatus := nmea_tokenizer_get tzer 9
  if tok_fixStatus.at 0 ≠ 0 ∧ tok_fixStatus.at 0 ≠ 78 then
    let r1 := (nmea_reader_update_bearing env r (nmea_tokenizer_get tzer 1)).2
    (nmea_reader_update_speed env r1 (nmea_tokenizer_get tzer 5)).2
  else r

/-- The ZDA branch of `nmea_reader_parse`. -/
def parse_zda (env : Env) (tzer : NmeaTokenizer) (r : NmeaReader) : NmeaReader :=
  let tok_year := nmea_tokenizer_get tzer 4
  let r1 := if tok_year.at 0 ≠ 0 then
      (nmea_reader_update_cdate r (nmea_tokenizer_get tzer 2) (nmea_tokenizer_get tzer 3)
        tok_year).2
    else r
  let tok_time := nmea_tokenizer_get tzer 1
  if tok_time.at 0 ≠ 0 then (nmea_reader_update_time env r1 tok_time).2 else r1

/-- The tokenizer that `nmea_reader_parse` builds: `nmea_tokenizer_init(tzer,
r->in, r->in + r->pos)`. -/
def reader_tzer (r : NmeaReader) : NmeaTokenizer := nmea_tokenizer_init r.inb 0 r.pos

/-- `nmea_reader_parse`. The call of `nmea_cb` (when set) hands the raw line to
the host and does not touch the reader; the log lines are left out. -/
def nmea_reader_parse (env : Env) (r : NmeaReader) : NmeaReader :=
  if r.pos < 9 then r
  else
    let tzer := reader_tzer r
    let tok := nmea_tokenizer_get tzer 0
    if tok.p + 5 > tok.end_ then r
    else
      let isBDMsg := memcmp_eq tok 0 [66, 68]
      if memcmp_eq tok 2 [71, 71, 65] then parse_gga env tzer r
      else if memcmp_eq tok 2 [71, 76, 76] then parse_gll env tzer r
      else if memcmp_eq tok 2 [71, 83, 65] then parse_gsa env isBDMsg tzer r
      else if memcmp_eq tok 2 [71, 83, 86] then parse_gsv env isBDMsg tzer r
      else if memcmp_eq tok 2 [82, 77, 67] then parse_rmc env tzer r
      else if memcmp_eq tok 2 [86, 84, 71] then parse_vtg env tzer r
      else if memcmp_eq tok 2 [90, 68, 65] then parse_zda env tzer r
      else r

/-! ## Line assembler (`nmea_reader_addc`) -/

/-- `nmea_reader_addc(r, c)`: the reader afterwards and, when the call invoked
`nmea_reader_parse`, the line `in[0 .. pos)` that the parser was handed. -/
def nmea_reader_addc (env : Env) (r : NmeaReader) (c : Nat) : NmeaReader × Option (List Nat) :=
  if r.overflow ≠ 0 then ({ r with overflow := if c ≠ CH_NL then 1 else 0 }, none)
  else if r.pos ≥ (NMEA_MAX_SIZE + 1) - 1 then ({ r with overflow := 1, pos := 0 }, none)
  else
    let r1 := { r with inb := r.inb.set r.pos c, pos := r.pos + 1 }
    if c = CH_NL then
      ({ nmea_reader_parse env r1 with pos := 0 }, some (readSpan r1.inb 0 r1.pos))
    else (r1, none)

/-- The `for (nn = 0; nn < ret; nn++) nmea_reader_addc(reader, buf[nn]);` loop of
`gps_nmea_thread`: the reader afterwards and the lines handed to the parser, in
order. -/
def nmea_reader_feed (env : Env) : NmeaReader → List Nat → NmeaReader × List (List Nat)
  | r, [] => (r, [])
  | r, c :: cs =>
    let (r1, o) := nmea_reader_addc env r c
    let (r2, ls) := nmea_reader_feed env r1 cs
    (r2, o.toList ++ ls)

/-! ## Publisher (`gps_timer_thread`) -/

/-- The callbacks of `GpsCallbacks` the core uses: `true` for a non-NULL pointer. -/
structure GpsCallbacks where
  location_cb : Bool
  status_cb : Bool
  sv_status_cb : Bool
  nmea_cb : Bool
  deriving DecidableEq, Repr

/-- `GpsState` without the thread handles, the control socket pair and the
semaphore. -/
structure GpsState where
  init : Int
  fd : Int
  callbacks : GpsCallbacks
  fix_freq : Int
  reader : NmeaReader
  deriving DecidableEq, Repr

/-- What the publisher hands to the host. -/
inductive Emission where
  | location (fix : GpsLocation)
  | sv_status (status : GpsSvStatus)
  deriving DecidableEq, Repr

/-- The part of `gps_timer_thread` between `gps_state_lock_fix` and
`gps_state_unlock_fix` that samples the reader: the state afterwards and the
callbacks made, in order. -/
def gps_timer_sample (state : GpsState) : GpsState × List Emission :=
  let (s1, e1) :=
    if state.reader.fix.flags &&& GPS_LOCATION_HAS_LAT_LONG ≠ 0 then
      let (s, e) :=
        if state.callbacks.location_cb then
          ({ state with reader := { state.reader with
               fix := { state.reader.fix with flags := 0 } } },
           [Emission.location state.reader.fix])
        else (state, [])
      (if s.fix_freq = 0 then { s with fix_freq := -1 } else s, e)
    else (state, [])
  if s1.reader.sv_status_changed ≠ 0 then
    if s1.callbacks.sv_status_cb then
      ({ s1 with reader := { s1.reader with sv_status_changed := 0 } },
       e1 ++ [Emission.sv_status s1.reader.sv_status])
    else (s1, e1)
  else (s1, e1)

/-! ## A reference environment

A concrete `Env` for evaluating the embedding on examples: plain decimal
`strtod`, exact `float`, a host clock on UTC, unsigned `char`, and for a
`double` out of the range of `int` the conversion of an x86 processor (the
smallest `int`). The theorems below hold for every `Env`; this one instantiates
them. -/

def isDigitByte (b : Nat) : Bool := decide (48 ≤ b ∧ b ≤ 57)

def isSpaceByte (b : Nat) : Bool := decide (b = 32 ∨ (9 ≤ b ∧ b ≤ 13))

/-- The value of a list of ASCII digits, most significant first. -/
def digitsValue (l : List Nat) : Nat := Nat.ofDigits 10 ((l.map (fun b => b - 48)).reverse)

/-- The unsigned part of `strtodDecimal`: digits, optionally a point and digits. -/
def strtodUnsigned (s : List Nat) : ℚ :=
  let ip := s.takeWhile isDigitByte
  let fp := match s.dropWhile isDigitByte with
    | 46 :: t => t.takeWhile isDigitByte
    | _ => []
  (digitsValue (ip ++ fp) : ℚ) / (10 : ℚ) ^ fp.length

/-- The `strtod` of the C library on its plain decimal inputs: leading white
space, an optional sign, digits with an optional fraction; `0` when no number
starts the string. (Exponents, hexadecimal floats, infinities and NaN are left
out.) -/
def strtodDecimal (s : List Nat) : ℚ :=
  match s.dropWhile isSpaceByte with
  | 45 :: t => -strtodUnsigned t
  | 43 :: t => strtodUnsigned t
  | t => strtodUnsigned t

/-- Days from 1970-01-01 to the given civil date (proleptic Gregorian). -/
def daysFromCivil (y m d : Int) : Int :=
  let y1 := if m ≤ 2 then y - 1 else y
  let era := y1 / 400
  let yoe := y1 - era * 400
  let doy := (153 * (if m > 2 then m - 3 else m + 9) + 2) / 5 + d - 1
  let doe := yoe * 365 + yoe / 4 - yoe / 100 + doy
  era * 146097 + doe - 719468

/-- The `mktime` of a host whose local time is UTC, on
`tm_year tm_mon tm_mday tm_hour tm_min tm_sec`. -/
def mktimeUtc (tm_year tm_mon tm_mday tm_hour tm_min tm_sec : Int) : Int :=
  let months := (tm_year + 1900) * 12 + tm_mon
  daysFromCivil (months / 12) (months % 12 + 1) 1 * 86400
    + (tm_mday - 1) * 86400 + tm_hour * 3600 + tm_min * 60 + tm_sec

def stdEnv : Env :=
  { strtod := strtodDecimal, toFloat := fun x => x, mktime := mktimeUtc,
    utc_diff := 0, char_signed := false, int_of_double := fun _ => -2147483648 }

/-- The reader `r` with the line buffer holding `buf` and the cursor at `pos`:
the state in which `nmea_reader_addc` calls the parser on the line
`buf[0 .. pos)`. -/
def NmeaReader.setLine (r : NmeaReader) (buf : List Nat) (pos : Nat) : NmeaReader :=
  { r with inb := buf, pos := pos }

/-- The reader whose buffer holds exactly `line`, the accumulator being that of `r`. -/
def NmeaReader.withLine (r : NmeaReader) (line : List Nat) : NmeaReader :=
  r.setLine line line.length

/-! ## Statement-side definitions

What the claims say in their own words, written without reference to the loops
of the code, for comparison with the embedding. -/

/-- The decimal value of a span of ASCII digits. -/
def decimalValue (l : List Nat) : Nat := Nat.ofDigits 10 ((l.map (fun b => b - 48)).reverse)

/-- A line without its optional leading `'$'`. -/
def dropDollar : List Nat → List Nat
  | 36 :: t => t
  | l => l

/-- A line with its optional leading `'$'`, its trailing `"\n"` or `"\r\n"` and
its trailing checksum suffix `*XX` removed, in this order. -/
def lineBody (line : List Nat) : List Nat :=
  let l1 := dropDollar line
  let l2 := if l1.getLast? = some 10 then
      (if l1.dropLast.getLast? = some 13 then l1.dropLast.dropLast else l1.dropLast)
    else l1
  if 3 ≤ l2.length ∧ l2.get? (l2.length - 3) = some 42 then l2.take (l2.length - 3) else l2

/-- The contents of the tokens of a tokenizer, in order. -/
def tokenContents (t : NmeaTokenizer) : List (List Nat) :=
  t.tokens.map (fun s => readSpan t.buf s.1 s.2)

/-- Fields joined with `','`. -/
def joinFields (fields : List (List Nat)) : List Nat := List.intercalate [44] fields

/-- The number of comma-separated fields of a line body. -/
def fieldCount (body : List Nat) : Nat := body.count 44 + 1

/-- A body without its final byte when that byte is `','`. -/
def dropTrailingComma (body : List Nat) : List Nat :=
  if body.getLast? = some 44 then body.dropLast else body

/-- The reader `r1` differs from `r` at most in the fix, the stored date and
`utc_diff`: line buffer, satellite status, flags of the satellite status and
time map are the same. -/
structure FixFrame (r r1 : NmeaReader) : Prop where
  pos : r1.pos = r.pos
  overflow : r1.overflow = r.overflow
  inb : r1.inb = r.inb
  sv_status : r1.sv_status = r.sv_status
  sv_status_changed : r1.sv_status_changed = r.sv_status_changed
  gsa_fixed : r1.gsa_fixed = r.gsa_fixed
  timemap : r1.timemap = r.timemap

/-- The reader `r1` has the line buffer of `r`: same bytes, cursor and overflow
flag. -/
structure LineFrame (r r1 : NmeaReader) : Prop where
  pos : r1.pos = r.pos
  overflow : r1.overflow = r.overflow
  inb : r1.inb = r.inb

/-- The readers that a session can hold, starting from `nmea_reader_init`: the
line assembler rewrites the line buffer (over-approximated: any bytes, any
cursor, any overflow flag), `nmea_reader_parse` runs on the line in the buffer
under any environment, and the publisher samples the reader in between. -/
inductive Reachable : NmeaReader → Prop
  | init (env : Env) : Reachable (nmea_reader_init env)
  | line (r : NmeaReader) (buf : List Nat) (pos : Nat) (overflow : Int) :
      Reachable r → Reachable { r with inb := buf, pos := pos, overflow := overflow }
  | parse (env : Env) (r : NmeaReader) : Reachable r → Reachable (nmea_reader_parse env r)
  | sample (s : GpsState) : Reachable s.reader → Reachable (gps_timer_sample s).1.reader

/-- Field `i` of the line `buf[0 .. pos)`, as the parser gets it. -/
def lineTok (buf : List Nat) (pos : Nat) (i : Nat) : Token :=
  nmea_tokenizer_get (nmea_tokenizer_init buf 0 pos) i

/-- The value `str2int` gives for a token. -/
def Token.int (t : Token) : Int := str2int t.mem t.p t.end_

/-- The line `buf[0 .. pos)` is a GSV sentence that the parser dispatches on:
sentence type `GSV`, talker `BD` or not as `bd` says, and the fields 1, 2, 3
(total sentences, sentence index, satellites declared) decode to `total`, `idx`
and `n`. (Such a line has at least 9 bytes and a first field of at least 5.) -/
def IsGsv (buf : List Nat) (pos : Nat) (bd : Bool) (total idx n : Int) : Prop :=
  9 ≤ pos ∧ (lineTok buf pos 0).p + 5 ≤ (lineTok buf pos 0).end_ ∧
  memcmp_eq (lineTok buf pos 0) 0 [66, 68] = bd ∧
  memcmp_eq (lineTok buf pos 0) 2 [71, 83, 86] = true ∧
  (lineTok buf pos 1).int = total ∧ (lineTok buf pos 2).int = idx ∧
  (lineTok buf pos 3).int = n

instance (buf : List Nat) (pos : Nat) (bd : Bool) (total idx n : Int) :
    Decidable (IsGsv buf pos bd total idx n) := by
  unfold IsGsv
  infer_instance

/-- How many times a list of callbacks hands a fix to the host. -/
def locationCount : List Emission → Nat
  | [] => 0
  | Emission.location _ :: l => locationCount l + 1
  | Emission.sv_status _ :: l => locationCount l

/-- How many times a list of callbacks hands the satellite status to the host. -/
def svStatusCount : List Emission → Nat
  | [] => 0
  | Emission.location _ :: l => svStatusCount l
  | Emission.sv_status _ :: l => svStatusCount l + 1

/-! ## Example inputs -/

/-- A GGA sentence as receivers send it, its last two fields empty. -/
def ggaLine : List Nat :=
  bytes "$GPGGA,123519,4807.038,N,01131.000,E,1,08,0.9,545.4,M,46.9,M,,*47\r\n"

/-- A ZDA sentence: 4 July 2002, 20:15:30 UTC. -/
def zdaLine : List Nat := bytes "$GPZDA,201530.00,04,07,2002,00,00*60\r\n"

/-- A GGA sentence whose fix-status field is `0`. -/
def ggaNoFixLine : List Nat :=
  bytes "$GPGGA,123519,4807.038,N,01131.000,E,0,00,,,M,,M,,*66\r\n"

/-- A group of three GSV sentences of the primary talker, 11 satellites. -/
def gsvLine1 : List Nat :=
  bytes "$GPGSV,3,1,11,03,03,111,00,04,15,270,00,06,01,010,00,13,06,292,00*74\r\n"

def gsvLine2 : List Nat :=
  bytes "$GPGSV,3,2,11,14,25,170,00,16,57,208,39,18,67,296,40,19,40,246,00*74\r\n"

def gsvLine3 : List Nat :=
  bytes "$GPGSV,3,3,11,22,42,067,42,24,14,311,43,27,05,244,00,,,,*4D\r\n"

/-- The GSV sentence of a receiver that has no satellite in view. -/
def gsvNoneLine : List Nat := bytes "$GPGSV,1,1,00*79\r\n"

/-- A session with all callbacks set, a fix with position and altitude valid and
the satellite status marked as changed. -/
def pendingState : GpsState :=
  { init := 2, fd := 3,
    callbacks := { location_cb := true, status_cb := true, sv_status_cb := true,
                   nmea_cb := true },
    fix_freq := 1,
    reader := { nmea_reader_init stdEnv with
      fix := { (nmea_reader_init stdEnv).fix with flags := 3 }
      sv_status_changed := 1 } }

/-- A local-clock token and a time token, as two fields of one line. -/
def timemapLine : List Nat := bytes "1234.5,201530.00,"

def systimeTok : Token := { mem := timemapLine, p := 0, end_ := 6 }

def timeTok : Token := { mem := timemapLine, p := 7, end_ := 16 }

def emptyTok : Token := { mem := timemapLine, p := 6, end_ := 6 }

/-- A reader with the date 4 July 2002 stored. -/
def datedReader : NmeaReader :=
  { nmea_reader_init stdEnv with utc_year := 2002, utc_mon := 7, utc_day := 4 }

/-! ## Statement-side definitions for the decoders, the sentences and the stream -/

/-- The bit of the used-in-fix mask that stands for satellite `id`: bit `id - 1`
for `1 <= id <= 32`, no bit otherwise. -/
def gsaIdBit (id : Int) : Nat := if 1 ≤ id ∧ id ≤ 32 then 2 ^ (id - 1).toNat else 0

/-- The bits of the satellite-ID fields 3 .. 14 of the line `buf[0 .. pos)`,
OR-ed together. -/
def gsaIdMask (buf : List Nat) (pos : Nat) : Nat :=
  ((List.range' 3 12).map (fun i => gsaIdBit (lineTok buf pos i).int)).foldr
    (fun b m => b ||| m) 0

/-- The line `buf[0 .. pos)` is a GSA sentence that the parser dispatches on,
of talker `BD` or not as `bd` says, whose fix-mode field (field 2) starts with a
byte that is neither NUL nor `'1'`: the sentence reports a fix. -/
def IsGsaFix (buf : List Nat) (pos : Nat) (bd : Bool) : Prop :=
  9 ≤ pos ∧ (lineTok buf pos 0).p + 5 ≤ (lineTok buf pos 0).end_ ∧
  memcmp_eq (lineTok buf pos 0) 0 [66, 68] = bd ∧
  memcmp_eq (lineTok buf pos 0) 2 [71, 83, 65] = true ∧
  (lineTok buf pos 2).at 0 ≠ 0 ∧ (lineTok buf pos 2).at 0 ≠ 49

instance (buf : List Nat) (pos : Nat) (bd : Bool) : Decidable (IsGsaFix buf pos bd) := by
  unfold IsGsaFix
  infer_instance

/-- The line `buf[0 .. pos)` is a sentence of type `ty` (three bytes) that the
parser dispatches on: at least 9 bytes, a first field of at least 5 bytes whose
third to fifth bytes are `ty`. -/
def IsSentence (buf : List Nat) (pos : Nat) (ty : List Nat) : Prop :=
  9 ≤ pos ∧ (lineTok buf pos 0).p + 5 ≤ (lineTok buf pos 0).end_ ∧
  memcmp_eq (lineTok buf pos 0) 2 ty = true

instance (buf : List Nat) (pos : Nat) (ty : List Nat) : Decidable (IsSentence buf pos ty) := by
  unfold IsSentence
  infer_instance

/-- The number of fields that the tokenizer finds in the line `buf[0 .. pos)`. -/
def lineTokCount (buf : List Nat) (pos : Nat) : Nat := (nmea_tokenizer_init buf 0 pos).count

/-- The complete lines of the stream `cur ++ s`, each with its terminator, `cur`
being the bytes of the line under way; bytes after the last `'\n'` belong to no
complete line. -/
def linesFrom : List Nat → List Nat → List (List Nat)
  | _, [] => []
  | cur, c :: s => if c = 10 then (cur ++ [c]) :: linesFrom [] s else linesFrom (cur ++ [c]) s

/-- The complete lines of a byte stream: the bytes after the preceding `'\n'` (or
the start of the stream) up to and including the next `'\n'`. -/
def completeLines (s : List Nat) : List (List Nat) := linesFrom [] s

/-- The sentence `'$' B '*' X Y '\r' '\n'`. -/
def wrapSentence (body : List Nat) (x y : Nat) : List Nat := 36 :: (body ++ [42, x, y, 13, 10])

/-! ## More example inputs -/

/-- Two coordinate fields: 48 degrees 45 minutes, and the field of value
100 * 47 + 105, that is 47 degrees and 45 + 60 minutes. -/
def coordLine : List Nat := bytes "4845.000,4805.000,"

def coordTok4845 : Token := { mem := coordLine, p := 0, end_ := 8 }

def coordTok4805 : Token := { mem := coordLine, p := 9, end_ := 17 }

/-- Two coordinate fields: 48 degrees 15 minutes, and 47 degrees 75 minutes. -/
def coordLine2 : List Nat := bytes "4815.000,4775.000,"

def coordTok4815 : Token := { mem := coordLine2, p := 0, end_ := 8 }

def coordTok4775 : Token := { mem := coordLine2, p := 9, end_ := 17 }

/-- A latitude of 4 bytes: too short. -/
def shortCoordTok : Token := { mem := coordLine, p := 0, end_ := 4 }

/-- An RMC sentence with status `A` whose date field `2303x4` has a letter in the
place of a year digit. -/
def rmcBadYearLine : List Nat :=
  bytes "$GPRMC,123519,A,4807.038,N,01131.000,E,022.4,084.4,2303x4,003.1,W*6A\r\n"

/-- A GSA sentence reporting a 3D fix with the satellites 4, 5, 9, 12 and 24. -/
def gsaLine : List Nat := bytes "$GPGSA,A,3,04,05,,09,12,,,24,,,,,2.5,1.3,2.1*39\r\n"

/-- A GSV group of the primary talker: one sentence, 4 satellites. -/
def gpGsvLine : List Nat :=
  bytes "$GPGSV,1,1,04,03,03,111,00,04,15,270,00,06,01,010,00,13,06,292,00*7F\r\n"

/-- A GSV group of the auxiliary talker: two sentences, 8 satellites, each
sentence with its four records. -/
def bdGsvLine1 : List Nat :=
  bytes "$BDGSV,2,1,08,01,45,120,40,02,30,200,38,03,60,090,42,04,15,310,35*61\r\n"

def bdGsvLine2 : List Nat :=
  bytes "$BDGSV,2,2,08,05,50,045,41,06,22,180,37,07,70,270,44,08,10,020,33*6B\r\n"

/-- A VTG sentence whose mode-indicator field (field 9) is empty and is followed
by one more field. -/
def vtgEmptyModeLine : List Nat :=
  bytes "$GPVTG,054.7,T,034.4,M,005.5,N,010.2,K,,A*25\r\n"

/-- A VTG sentence whose mode-indicator field (field 9) is empty and ends the
body: the tokenizer makes no token for it. -/
def vtgEmptyLastLine : List Nat := bytes "$GPVTG,054.7,T,034.4,M,005.5,N,010.2,K,*48\r\n"

/-- A VTG sentence whose mode-indicator field is `N`. -/
def vtgNoFixLine : List Nat := bytes "$GPVTG,054.7,T,034.4,M,005.5,N,010.2,K,N*2C\r\n"

/-! ## Statement-side definitions for the dispatch and the line buffer -/

/-- The sentence types the parser dispatches on: `GGA`, `GLL`, `GSA`, `GSV`,
`RMC`, `VTG`, `ZDA`. -/
def knownSentenceTypes : List (List Nat) :=
  [[71, 71, 65], [71, 76, 76], [71, 83, 65], [71, 83, 86], [82, 77, 67], [86, 84, 71],
   [90, 68, 65]]

/-- The sentence-type characters of the line `buf[0 .. pos)`: the 3rd to 5th
character of its first field. -/
def sentenceType (buf : List Nat) (pos : Nat) : List Nat :=
  ((lineTok buf pos 0).bytes.drop 2).take 3

/-- The two lines `buf1[0 .. pos)` and `buf2[0 .. pos)` are the same but for the
two talker-ID characters: in both the first field starts at the same place and
has at least 5 characters, and the lines agree at every byte other than the
first two of that field. -/
def SameButTalker (buf1 buf2 : List Nat) (pos : Nat) : Prop :=
  (lineTok buf1 pos 0).p = (lineTok buf2 pos 0).p ∧
  (lineTok buf1 pos 0).p + 5 ≤ (lineTok buf1 pos 0).end_ ∧
  (lineTok buf2 pos 0).p + 5 ≤ (lineTok buf2 pos 0).end_ ∧
  ∀ i, i ≠ (lineTok buf1 pos 0).p → i ≠ (lineTok buf1 pos 0).p + 1 →
    readByte buf1 i = readByte buf2 i

/-- The tokens `t1` and `t2` span the same offsets, and the objects they point
into hold the same bytes from the start of the token on. -/
structure TokSim (t1 t2 : Token) : Prop where
  p : t1.p = t2.p
  end_ : t1.end_ = t2.end_
  mem : ∀ i, t1.p ≤ i → readByte t1.mem i = readByte t2.mem i

/-- The talker ID of the line `buf[0 .. pos)` is `BD`. -/
def talkerIsBD (buf : List Nat) (pos : Nat) : Bool := memcmp_eq (lineTok buf pos 0) 0 [66, 68]

/-- The index of the store `r->in[r->pos] = (char)c` of `nmea_reader_addc(r, c)`,
when the call reaches it: the call returns before the store while `overflow` is
set and when the cursor is at `sizeof(r->in) - 1`. -/
def addc_store_index (r : NmeaReader) : Option Nat :=
  if r.overflow ≠ 0 then none
  else if r.pos ≥ (NMEA_MAX_SIZE + 1) - 1 then none
  else some r.pos

/-- The reader on which `nmea_reader_addc(r, '\n')` calls `nmea_reader_parse`,
when the call reaches the store: the byte is stored and the cursor moved. -/
def addc_parse_state (r : NmeaReader) : NmeaReader :=
  { r with inb := r.inb.set r.pos CH_NL, pos := r.pos + 1 }

/-- The line `buf[0 .. pos)` is a GSA sentence of the primary talker (not `BD`)
that the code takes as reporting no fix: its fix-mode field (field 2) is absent
(the line has no field 2) or begins with `'1'`. -/
def IsGsaNoFix (buf : List Nat) (pos : Nat) : Prop :=
  IsSentence buf pos [71, 83, 65] ∧ talkerIsBD buf pos = false ∧
  (lineTokCount buf pos ≤ 2 ∨ (lineTok buf pos 2).at 0 = 49)

instance (buf : List Nat) (pos : Nat) : Decidable (IsGsaNoFix buf pos) := by
  unfold IsGsaNoFix
  infer_instance

/-- The indices of `sv_list` at which `nmea_reader_parse` stores a satellite
record when it runs on the reader `r`: the stores of the `while` loop of the GSV
branch, none in any other branch. -/
def parse_sv_writes (env : Env) (r : NmeaReader) : List Int :=
  if r.pos < 9 then []
  else
    let tzer := reader_tzer r
    let tok := nmea_tokenizer_get tzer 0
    if tok.p + 5 > tok.end_ then []
    else
      let isBDMsg := memcmp_eq tok 0 [66, 68]
      if memcmp_eq tok 2 [71, 71, 65] then []
      else if memcmp_eq tok 2 [71, 76, 76] then []
      else if memcmp_eq tok 2 [71, 83, 65] then []
      else if memcmp_eq tok 2 [71, 83, 86] then
        let tok_noSatellites := nmea_tokenizer_get tzer 3
        let noSatellites0 :=
          str2int tok_noSatellites.mem tok_noSatellites.p tok_noSatellites.end_
        if noSatellites0 > 0 then
          let tok_sentence := nmea_tokenizer_get tzer 2
          let sentence := str2int tok_sentence.mem tok_sentence.p tok_sentence.end_
          (parse_gsv_loop env isBDMsg tzer r noSatellites0 sentence).2.writes
        else []
      else []

/-- The readers of a session in which every satellite record is stored inside
`sv_list`: starting from `nmea_reader_init`, the line assembler rewrites the
line buffer (any bytes, any cursor, any overflow flag), `nmea_reader_parse` runs
under any environment on a line for which all its stores into `sv_list` are at
indices `0 .. GPS_MAX_SVS - 1`, and the publisher samples the reader in
between. A parse that stores past the end of `sv_list` is left out: what such a
store overwrites is not part of the embedding. -/
inductive InBoundsReachable : NmeaReader → Prop
  | init (env : Env) : InBoundsReachable (nmea_reader_init env)
  | line (r : NmeaReader) (buf : List Nat) (pos : Nat) (overflow : Int) :
      InBoundsReachable r →
      InBoundsReachable { r with inb := buf, pos := pos, overflow := overflow }
  | parse (env : Env) (r : NmeaReader) :
      InBoundsReachable r →
      (∀ w ∈ parse_sv_writes env r, 0 ≤ w ∧ w < (GPS_MAX_SVS : Int)) →
      InBoundsReachable (nmea_reader_parse env r)
  | sample (s : GpsState) :
      InBoundsReachable s.reader → InBoundsReachable (gps_timer_sample s).1.reader

/-! ## Example inputs for the dispatch and the satellite list -/

/-- A sentence of a type the parser does not know (`GBS`). -/
def gbsLine : List Nat := bytes "$GPGBS,015509.00,-0.031,-0.186,0.219,19,0.000,-0.354,6.972*4D\r\n"

/-- The sentence `ggaLine` with the talker ID `GN` in the place of `GP`. -/
def ggaLineGN : List Nat :=
  bytes "$GNGGA,123519,4807.038,N,01131.000,E,1,08,0.9,545.4,M,46.9,M,,*47\r\n"

/-- A GSA sentence of the primary talker whose fix-mode field is `1` (no fix). -/
def gsaNoFixLine : List Nat := bytes "$GPGSA,A,1,,,,,,,,,,,,,,,*1E\r\n"

/-- A GSA sentence of the primary talker whose fix-mode field is empty, with the
satellite IDs 04 and 05. -/
def gsaEmptyModeLine : List Nat := bytes "$GPGSA,A,,04,05,,,,,,,,,,,2.5,1.3,2.1*35\r\n"

/-- Sentence `idx` (a digit, `1 .. 9`) of a group of nine GSV sentences of the
primary talker that declares 36 satellites in view, four records in each. -/
def gsvLine36 (idx : Nat) : List Nat :=
  bytes "$GPGSV,9," ++ [48 + idx] ++
    bytes ",36,03,03,111,00,04,15,270,00,06,01,010,00,13,06,292,00*7F\r\n"

/-- The first eight sentences of the group, as one stream. -/
def gsvStream36 : List Nat :=
  gsvLine36 1 ++ gsvLine36 2 ++ gsvLine36 3 ++ gsvLine36 4 ++ gsvLine36 5 ++ gsvLine36 6 ++
    gsvLine36 7 ++ gsvLine36 8

/-- The group of nine sentences without the `'\n'` that ends the ninth. -/
def gsvStream36Open : List Nat := gsvStream36 ++ (gsvLine36 9).dropLast

/-- A latitude token, a hemisphere byte `'S'`, a longitude token and an empty
hemisphere field, as fields of one line. -/
def latlongLine : List Nat := bytes "4807.038,S,01131.000,,"

def latTok : Token := { mem := latlongLine, p := 0, end_ := 8 }

def latHemiTok : Token := { mem := latlongLine, p := 9, end_ := 10 }

def lonTok : Token := { mem := latlongLine, p := 11, end_ := 20 }

def lonHemiTok : Token := { mem := latlongLine, p := 21, end_ := 21 }

/-! ## Session (`GpsState`, the commands and the interface)

The interface functions run in the caller's thread and talk to the controller
thread (`gps_state_thread`) through the control socket pair. The embedding takes
each function as the sequential code it is: the answers of the operating system
and of the host during the call are inputs (`Sys`), and the system calls and
callbacks the call makes are listed in order (`SysEvent`). The controller's
reaction to a command is a function of its own (`gps_state_thread_cmd`). -/

def STATE_QUIT : Int := 0

def STATE_INIT : Int := 1

def STATE_START : Int := 2

def CMD_QUIT : Nat := 0

def CMD_START : Nat := 1

def CMD_STOP : Nat := 2

/-- Modelled from the spec: the values of `GpsStatusValue` of `hardware/gps.h`,
which is not under `src/`, that the interface hands to `status_cb`. -/
inductive GpsStatusValue where
  | SESSION_BEGIN
  | SESSION_END
  | ENGINE_ON
  | ENGINE_OFF
  deriving DecidableEq, Repr

/-- The system calls and host callbacks of the interface functions that concern
the byte source, the control channel and the controller thread. -/
inductive SysEvent where
  | open_tty
  | close_fd (fd : Int)
  | epoll_add (fd : Int)
  | epoll_del (fd : Int)
  | write_cmd (cmd : Nat)
  | join_thread
  | create_thread
  | set_capabilities
  | status (s : GpsStatusValue)
  deriving DecidableEq, Repr

/-- What the operating system and the host answer during one call of the
interface: whether `sem_init` returns 0, the length `property_get` returns,
whether `socketpair` succeeds and the two descriptors it stores, whether
`create_thread_cb` returns a thread, the value that the loop
`do { state->fd = open(...); } while (state->fd < 0 && errno == EINTR)` leaves in
`state->fd`, and the environment of the reader. -/
structure Sys where
  sem_init_ok : Bool
  property_get : Int
  socketpair_ok : Bool
  control0 : Int
  control1 : Int
  thread_ok : Bool
  open_fd : Int
  env : Env

/-- The globals of the file: `_gps_state[0]` with its control socket pair,
`g_gpscallback` (the callbacks it points to) and `started`. The thread handles,
the semaphore and `continue_thread` are left out. -/
structure Session where
  state : GpsState
  control0 : Int
  control1 : Int
  g_gpscallback : Option GpsCallbacks
  started : Int

/-- `GPS_STATUS_CB(_cb, _s)`: the status callback, when set. -/
def gps_status_cb (cb : GpsCallbacks) (v : GpsStatusValue) : List SysEvent :=
  if cb.status_cb then [SysEvent.status v] else []

/-- `gps_closetty`. -/
def gps_closetty (s : GpsState) : GpsState × List SysEvent :=
  if s.fd ≠ -1 then ({ s with fd := -1 }, [SysEvent.epoll_del s.fd, SysEvent.close_fd s.fd])
  else (s, [])

/-- `gps_opentty`: the return value, the state and the calls made. The setting
of the serial line (`tcsetattr`, `tcflush`) is left out. -/
def gps_opentty (sys : Sys) (s : GpsState) : Int × GpsState × List SysEvent :=
  let (s1, e1) := if s.fd ≠ -1 then gps_closetty s else (s, [])
  let s2 := { s1 with fd := sys.open_fd }
  if s2.fd < 0 then (-1, s2, e1 ++ [SysEvent.open_tty])
  else (0, s2, e1 ++ [SysEvent.open_tty, SysEvent.epoll_add s2.fd])

/-- `gps_state_done`. -/
def gps_state_done (s : Session) : Session × List SysEvent :=
  ({ s with
      state := { s.state with init := STATE_QUIT, fix_freq := -1, fd := -1 }
      control0 := -1
      control1 := -1
      g_gpscallback := none },
   [SysEvent.write_cmd CMD_QUIT, SysEvent.join_thread, SysEvent.close_fd s.control0,
    SysEvent.close_fd s.control1] ++ (if s.state.fd ≠ -1 then [SysEvent.close_fd s.state.fd] else []))

/-- `gps_state_start`: the write of `CMD_START` to `control[0]` (its result is
only logged). -/
def gps_state_start (_s : Session) : List SysEvent := [SysEvent.write_cmd CMD_START]

/-- `gps_state_stop`: the write of `CMD_STOP` to `control[0]`. -/
def gps_state_stop (_s : Session) : List SysEvent := [SysEvent.write_cmd CMD_STOP]

/-- The statements of `gps_state_thread` before its loop: on each of its three
paths `started = 0; state->init = STATE_INIT;`. -/
def gps_state_thread_begin (s : Session) : Session :=
  { s with started := 0, state := { s.state with init := STATE_INIT } }

/-- The reaction of `gps_state_thread` to one command read from the control
socket. (`CMD_QUIT` leaves the loop; the session is not touched.) -/
def gps_state_thread_cmd (env : Env) (s : Session) (cmd : Nat) : Session :=
  if cmd = CMD_QUIT then s
  else if cmd = CMD_START then
    if s.started = 0 then
      { s with
        state := { s.state with reader := nmea_reader_init env, init := STATE_START }
        started := 1 }
    else s
  else if cmd = CMD_STOP then
    if s.started ≠ 0 then
      { s with started := 0, state := { s.state with init := STATE_INIT } }
    else s
  else s

/-- `gps_state_init`. The controller thread, once created, runs its first
statements (`gps_state_thread_begin`) before it reads a command; they are taken
here, at its creation. -/
def gps_state_init (sys : Sys) (s : Session) : Session × List SysEvent :=
  let s1 := { s with
    state := { s.state with init := STATE_INIT, fd := -1 }, control0 := -1, control1 := -1 }
  if !sys.sem_init_ok then (s1, [])
  else if sys.property_get = 0 then (s1, [])
  else if !sys.socketpair_ok then gps_state_done s1
  else
    let s2 := { s1 with control0 := sys.control0, control1 := sys.control1 }
    if !sys.thread_ok then
      ((gps_state_done s2).1, SysEvent.create_thread :: (gps_state_done s2).2)
    else (gps_state_thread_begin s2, [SysEvent.create_thread, SysEvent.set_capabilities])

/-- `locosys_gps_init(callbacks)`. -/
def locosys_gps_init (sys : Sys) (callbacks : GpsCallbacks) (s : Session) :
    Int × Session × List SysEvent :=
  let s1 := { s with state := { s.state with callbacks := callbacks } }
  let (s2, e) := if s1.state.init = 0 then gps_state_init sys s1 else (s1, [])
  let s3 := if s2.g_gpscallback.isNone then { s2 with g_gpscallback := some callbacks } else s2
  (0, s3, e ++ gps_status_cb s3.state.callbacks GpsStatusValue.ENGINE_ON)

/-- `locosys_gps_cleanup`. -/
def locosys_gps_cleanup (s : Session) : Session × List SysEvent :=
  let (s1, e) := if s.state.init ≠ 0 then gps_state_done s else (s, [])
  (s1, e ++ gps_status_cb s1.state.callbacks GpsStatusValue.ENGINE_OFF)

/-- `gps_checkstate`. -/
def gps_checkstate (sys : Sys) (s : Session) : Int × Session × List SysEvent :=
  if s.state.init = 0 then
    let (s1, e) := match s.g_gpscallback with
      | some cb => (locosys_gps_init sys cb s).2
      | none => (s, [])
    if s1.state.init = 0 then (-1, s1, e) else (0, s1, e)
  else (0, s, [])

/-- `locosys_gps_start`. The value `gps_opentty` returns is not used. -/
def locosys_gps_start (sys : Sys) (s : Session) : Int × Session × List SysEvent :=
  let (c, s1, e1) := gps_checkstate sys s
  if c = -1 then (-1, s1, e1)
  else
    let (_, st2, e2) := gps_opentty sys s1.state
    let s2 := { s1 with state := st2 }
    (0, s2, e1 ++ e2 ++ gps_state_start s2
      ++ gps_status_cb s2.state.callbacks GpsStatusValue.SESSION_BEGIN)

/-- `locosys_gps_stop`. -/
def locosys_gps_stop (sys : Sys) (s : Session) : Int × Session × List SysEvent :=
  let (c, s1, e1) := gps_checkstate sys s
  if c = -1 then (-1, s1, e1)
  else
    let (st2, e2) := gps_closetty s1.state
    let s2 := { s1 with state := st2 }
    (0, s2, e1 ++ e2 ++ gps_state_stop s2
      ++ gps_status_cb s2.state.callbacks GpsStatusValue.SESSION_END)

/-- `locosys_gps_set_position_mode`; `min_interval` is a `uint32_t`, the
quotient is stored in the `int` `fix_freq`. The other arguments are not used
(`mode` is only logged). -/
def locosys_gps_set_position_mode (s : Session) (_mode _recurrence : Int)
    (min_interval _preferred_accuracy _preferred_time : Nat) : Int × Session :=
  if s.state.init = 0 then (-1, s)
  else
    let q : Int := wrap32 (((min_interval % 4294967296) / 1000 : Nat) : Int)
    (0, { s with state := { s.state with fix_freq := if 0 = q then 1 else q } })

/-! ## Example sessions -/

/-- The reader of the zero-initialised static `_gps_state`. -/
def zeroReader : NmeaReader :=
  { pos := 0, overflow := 0, utc_year := 0, utc_mon := 0, utc_day := 0, utc_diff := 0
    fix := { size := 0, flags := 0, latitude := 0, longitude := 0, altitude := 0, speed := 0,
             bearing := 0, accuracy := 0, timestamp := 0 }
    sv_status := { size := 0, num_svs := 0,
                   sv_list := List.replicate GPS_MAX_SVS
                     { size := 0, prn := 0, snr := 0, elevation := 0, azimuth := 0 },
                   ephemeris_mask := 0, almanac_mask := 0, used_in_fix_mask := 0 }
    sv_status_changed := 0
    inb := List.replicate (NMEA_MAX_SIZE + 1) 0
    gsa_fixed := 0
    timemap := { valid := 0, systime := 0, timestamp := 0 } }

/-- The globals as the program starts: all zero, `g_gpscallback = NULL`. -/
def staticSession : Session :=
  { state := { init := 0, fd := 0,
               callbacks := { location_cb := false, status_cb := false, sv_status_cb := false,
                              nmea_cb := false },
               fix_freq := 0, reader := zeroReader },
    control0 := 0, control1 := 0, g_gpscallback := none, started := 0 }

/-- The callbacks of a host that sets them all. -/
def hostCallbacks : GpsCallbacks :=
  { location_cb := true, status_cb := true, sv_status_cb := true, nmea_cb := true }

/-- A system in which every call succeeds: the control socket pair is `(4, 5)`,
the serial device opens as descriptor 6. -/
def okSys : Sys :=
  { sem_init_ok := true, property_get := 12, socketpair_ok := true, control0 := 4,
    control1 := 5, thread_ok := true, open_fd := 6, env := stdEnv }

/-- The same system, but the serial device cannot be opened. -/
def noTtySys : Sys := { okSys with open_fd := -1 }

/-- The same system, but the serial device opens as descriptor 7. -/
def reopenSys : Sys := { okSys with open_fd := 7 }

/-- The session after `locosys_gps_init(hostCallbacks)` on the program's start
state: Initialized. -/
def initSession : Session := (locosys_gps_init okSys hostCallbacks staticSession).2.1

/-- The session after `locosys_gps_start` and the controller's reaction to
`CMD_START`: Started, the serial device open as descriptor 6. -/
def startedSession : Session :=
  gps_state_thread_cmd stdEnv (locosys_gps_start okSys initSession).2.1 CMD_START

/-- The session after `locosys_gps_cleanup` on the started session: Quit. -/
def quitSession : Session := (locosys_gps_cleanup startedSession).1

/-! ## Statement-side definitions for streams of the primary talker -/

/-- The readers that a session can hold when no sentence it parses has the
talker ID `BD` and every satellite record is stored inside `sv_list`: starting
from `nmea_reader_init`, the line assembler rewrites the line buffer (any bytes,
any cursor, any overflow flag), `nmea_reader_parse` runs under any environment
on a line whose talker ID is not `BD` and for which all its stores into
`sv_list` are at indices `0 .. GPS_MAX_SVS - 1`, and the publisher samples the
reader in between. -/
inductive PrimaryReachable : NmeaReader → Prop
  | init (env : Env) : PrimaryReachable (nmea_reader_init env)
  | line (r : NmeaReader) (buf : List Nat) (pos : Nat) (overflow : Int) :
      PrimaryReachable r → PrimaryReachable { r with inb := buf, pos := pos, overflow := overflow }
  | parse (env : Env) (r : NmeaReader) :
      PrimaryReachable r → talkerIsBD r.inb r.pos = false →
      (∀ w ∈ parse_sv_writes env r, 0 ≤ w ∧ w < (GPS_MAX_SVS : Int)) →
      PrimaryReachable (nmea_reader_parse env r)
  | sample (s : GpsState) :
      PrimaryReachable s.reader → PrimaryReachable (gps_timer_sample s).1.reader

/-- One bit-field holds every bit of another. -/
def bitsSubset (a b : Nat) : Prop := ∀ i, a.testBit i = true → b.testBit i = true

/-! ## Example inputs: lines the parser ignores -/

/-- A line of 8 bytes, terminator included. -/
def shortLine : List Nat := bytes "$GPGGA\r\n"

/-- The sentence `ggaLine` without its talker ID: the first field has 3
characters. -/
def shortIdLine : List Nat :=
  bytes "$GGA,123519,4807.038,N,01131.000,E,1,08,0.9,545.4,M,46.9,M,,*47\r\n"

/-! ## Lemmas on spans -/
theorem readSpan_nil (mem : List Nat) (p e : Nat) (h : e ≤ p) : readSpan mem p e = [] := by
  unfold readSpan
  have : e - p = 0 := by omega
  simp [this]

theorem readSpan_length (mem : List Nat) (p e : Nat) : (readSpan mem p e).length = e - p := by
  simp [readSpan]

theorem readSpan_append (mem : List Nat) (a m b : Nat) (h1 : a ≤ m) (h2 : m ≤ b) :
    readSpan mem a b = readSpan mem a m ++ readSpan mem m b := by
  unfold readSpan
  obtain ⟨k, rfl⟩ : ∃ k, m = a + k := ⟨m - a, by omega⟩
  obtain ⟨j, rfl⟩ : ∃ j, b = a + k + j := ⟨b - (a + k), by omega⟩
  have e1 : a + k + j - a = k + j := by omega
  have e2 : a + k - a = k := by omega
  have e3 : a + k + j - (a + k) = j := by omega
  rw [e1, e2, e3, List.range_add, List.map_append, List.map_map]
  congr 1
  apply List.map_congr_left
  intro i _
  simp [Nat.add_assoc]

theorem readSpan_one (mem : List Nat) (a : Nat) : readSpan mem a (a + 1) = [readByte mem a] := by
  unfold readSpan
  have : a + 1 - a = 1 := by omega
  rw [this]
  simp [List.range_succ]

theorem readSpan_snoc (mem : List Nat) (a b : Nat) (h : a < b) :
    readSpan mem a b = readSpan mem a (b - 1) ++ [readByte mem (b - 1)] := by
  rw [readSpan_append mem a (b - 1) b (by omega) (by omega)]
  congr 1
  have := readSpan_one mem (b - 1)
  rwa [show b - 1 + 1 = b by omega] at this

theorem readSpan_getLast (mem : List Nat) (a b c : Nat) :
    (readSpan mem a b).getLast? = some c ↔ (a < b ∧ readByte mem (b - 1) = c) := by
  by_cases h : a < b
  · rw [readSpan_snoc mem a b h]
    simp [h]
  · rw [readSpan_nil mem a b (by omega)]
    simp [h]

theorem readSpan_dropLast (mem : List Nat) (a b : Nat) :
    (readSpan mem a b).dropLast = readSpan mem a (b - 1) := by
  by_cases h : a < b
  · rw [readSpan_snoc mem a b h]
    simp
  · rw [readSpan_nil mem a b (by omega), readSpan_nil mem a (b - 1) (by omega)]
    rfl

theorem readSpan_take (mem : List Nat) (a b k : Nat) (h : k ≤ b - a) :
    (readSpan mem a b).take k = readSpan mem a (a + k) := by
  by_cases hab : a ≤ b
  · rw [readSpan_append mem a (a + k) b (by omega) (by omega)]
    have := readSpan_length mem a (a + k)
    rw [List.take_left']
    omega
  · have hk : k = 0 := by omega
    subst hk
    simp [readSpan_nil]

theorem readSpan_get (mem : List Nat) (a b i : Nat) (h : i < b - a) :
    (readSpan mem a b).get? i = some (readByte mem (a + i)) := by
  simp [readSpan, List.getElem?_range, h]

theorem readSpan_full (mem : List Nat) : readSpan mem 0 mem.length = mem := by
  apply List.ext_get?
  intro i
  by_cases h : i < mem.length
  · rw [readSpan_get mem 0 mem.length i (by omega)]
    simp [readByte, List.getD, h]
  · have h1 : (readSpan mem 0 mem.length).length ≤ i := by rw [readSpan_length]; omega
    rw [List.get?_eq_none.mpr h1, List.get?_eq_none.mpr (by omega)]

theorem readSpan_tail (c : Nat) (t : List Nat) (a b : Nat) :
    readSpan (c :: t) (a + 1) (b + 1) = readSpan t a b := by
  unfold readSpan
  have : b + 1 - (a + 1) = b - a := by omega
  rw [this]
  apply List.map_congr_left
  intro i _
  simp [readByte, Nat.add_right_comm]

theorem dropDollar_eq (line : List Nat) :
    dropDollar line = readSpan line (strip_dollar line 0 line.length) line.length := by
  cases line with
  | nil => simp [dropDollar, strip_dollar, readSpan_nil]
  | cons c t =>
    by_cases hc : c = 36
    · subst hc
      have : strip_dollar (36 :: t) 0 (36 :: t).length = 1 := by
        simp [strip_dollar, readByte, CH_DOLLAR]
      rw [this]
      have h2 := readSpan_tail 36 t 0 t.length
      simp only [List.length_cons]
      rw [h2, readSpan_full]
      rfl
    · have : strip_dollar (c :: t) 0 (c :: t).length = 0 := by
        simp [strip_dollar, readByte, CH_DOLLAR, hc]
      rw [this, readSpan_full]
      unfold dropDollar
      split
      · rename_i t2 heq
        injection heq with h1 h2
        exact absurd h1 hc
      · rfl

/-- The three strips of `nmea_tokenizer_init` leave the pointers around the body
of the line. -/
theorem strip_eq_lineBody (line : List Nat) :
    readSpan line (strip_dollar line 0 line.length)
      (strip_checksum line (strip_dollar line 0 line.length)
        (strip_newline line (strip_dollar line 0 line.length) line.length)) = lineBody line := by
  have hl1 := dropDollar_eq line
  generalize strip_dollar line 0 line.length = p1 at hl1 ⊢
  generalize line.length = n at hl1 ⊢
  unfold lineBody
  simp only [hl1]
  unfold strip_newline strip_checksum
  simp only [readSpan_getLast, readSpan_dropLast, readSpan_length, CH_NL, CH_CR, CH_STAR]
  have e2 : n - 1 - 1 = n - 2 := by omega
  simp only [e2]
  by_cases h1 : p1 < n ∧ readByte line (n - 1) = 10
  · have h1' : n > p1 ∧ readByte line (n - 1) = 10 := h1
    simp only [h1, h1', if_true, and_self]
    by_cases h2 : p1 < n - 1 ∧ readByte line (n - 2) = 13
    · have h2' : n - 1 > p1 ∧ readByte line (n - 2) = 13 := h2
      simp only [h2, h2', if_true, and_self, readSpan_length]
      by_cases h3 : n - 2 ≥ p1 + 3 ∧ readByte line (n - 2 - 3) = 42
      · have h3' : 3 ≤ n - 2 - p1 ∧ (readSpan line p1 (n - 2)).get? (n - 2 - p1 - 3) = some 42 := by
          refine ⟨by omega, ?_⟩
          rw [readSpan_get _ _ _ _ (by omega)]
          rw [← h3.2]; congr 2; omega
        simp only [h3, h3', if_true, and_self]
        rw [readSpan_take _ _ _ _ (by omega)]
        congr 1; omega
      · have h3' : ¬ (3 ≤ n - 2 - p1 ∧ (readSpan line p1 (n - 2)).get? (n - 2 - p1 - 3) = some 42) := by
          rintro ⟨ha, hb⟩
          apply h3
          refine ⟨by omega, ?_⟩
          rw [readSpan_get _ _ _ _ (by omega)] at hb
          injection hb with hb
          rw [← hb]; congr 1; omega
        simp only [h3, h3', if_false]
    · have h2' : ¬ (n - 1 > p1 ∧ readByte line (n - 2) = 13) := h2
      simp only [h2, h2', if_false, readSpan_length]
      by_cases h3 : n - 1 ≥ p1 + 3 ∧ readByte line (n - 1 - 3) = 42
      · have h3' : 3 ≤ n - 1 - p1 ∧ (readSpan line p1 (n - 1)).get? (n - 1 - p1 - 3) = some 42 := by
          refine ⟨by omega, ?_⟩
          rw [readSpan_get _ _ _ _ (by omega)]
          rw [← h3.2]; congr 2; omega
        simp only [h3, h3', if_true, and_self]
        rw [readSpan_take _ _ _ _ (by omega)]
        congr 1; omega
      · have h3' : ¬ (3 ≤ n - 1 - p1 ∧ (readSpan line p1 (n - 1)).get? (n - 1 - p1 - 3) = some 42) := by
          rintro ⟨ha, hb⟩
          apply h3
          refine ⟨by omega, ?_⟩
          rw [readSpan_get _ _ _ _ (by omega)] at hb
          injection hb with hb
          rw [← hb]; congr 1; omega
        simp only [h3, h3', if_false]
  · have h1' : ¬ (n > p1 ∧ readByte line (n - 1) = 10) := h1
    simp only [h1, h1', if_false, readSpan_length]
    by_cases h3 : n ≥ p1 + 3 ∧ readByte line (n - 3) = 42
    · have h3' : 3 ≤ n - p1 ∧ (readSpan line p1 n).get? (n - p1 - 3) = some 42 := by
        refine ⟨by omega, ?_⟩
        rw [readSpan_get _ _ _ _ (by omega)]
        rw [← h3.2]; congr 2; omega
      simp only [h3, h3', if_true, and_self]
      rw [readSpan_take _ _ _ _ (by omega)]
      congr 1; omega
    · have h3' : ¬ (3 ≤ n - p1 ∧ (readSpan line p1 n).get? (n - p1 - 3) = some 42) := by
        rintro ⟨ha, hb⟩
        apply h3
        refine ⟨by omega, ?_⟩
        rw [readSpan_get _ _ _ _ (by omega)] at hb
        injection hb with hb
        rw [← hb]; congr 1; omega
      simp only [h3, h3', if_false]

theorem memchr_none (mem : List Nat) (c : Nat) (n : Nat) :
    ∀ p, memchr mem c p n = none → ∀ i, p ≤ i → i < p + n → readByte mem i ≠ c := by
  induction n with
  | zero => intro p _ i h1 h2; omega
  | succ n ih =>
    intro p h i h1 h2
    unfold memchr at h
    split at h
    · cases h
    · rename_i hne
      by_cases hi : i = p
      · subst hi; exact hne
      · exact ih (p + 1) h i (by omega) (by omega)

theorem memchr_some (mem : List Nat) (c : Nat) (n : Nat) :
    ∀ p q, memchr mem c p n = some q →
      p ≤ q ∧ q < p + n ∧ readByte mem q = c ∧ ∀ i, p ≤ i → i < q → readByte mem i ≠ c := by
  induction n with
  | zero => intro p q h; simp [memchr] at h
  | succ n ih =>
    intro p q h
    unfold memchr at h
    split at h
    · rename_i heq
      injection h with h
      subst h
      exact ⟨le_refl _, by omega, heq, fun i h1 h2 => by omega⟩
    · rename_i hne
      obtain ⟨h1, h2, h3, h4⟩ := ih (p + 1) q h
      refine ⟨by omega, by omega, h3, ?_⟩
      intro i hi1 hi2
      by_cases hi : i = p
      · subst hi; exact hne
      · exact h4 i (by omega) hi2

theorem not_mem_readSpan (mem : List Nat) (a b c : Nat)
    (h : ∀ i, a ≤ i → i < b → readByte mem i ≠ c) : c ∉ readSpan mem a b := by
  intro hc
  simp only [readSpan, List.mem_map, List.mem_range] at hc
  obtain ⟨i, hi, heq⟩ := hc
  exact h (a + i) (by omega) (by omega) heq

theorem dropTrailingComma_of_not_mem (l : List Nat) (h : 44 ∉ l) : dropTrailingComma l = l := by
  unfold dropTrailingComma
  split
  · rename_i hl
    exact absurd (List.mem_of_getLast?_eq_some hl) h
  · rfl

theorem dropTrailingComma_snoc (l : List Nat) : dropTrailingComma (l ++ [44]) = l := by
  simp [dropTrailingComma]

theorem dropTrailingComma_append (l r : List Nat) (hr : r ≠ []) :
    dropTrailingComma (l ++ 44 :: r) = l ++ 44 :: dropTrailingComma r := by
  unfold dropTrailingComma
  have h1 : (l ++ 44 :: r).getLast? = r.getLast? := by
    rw [List.getLast?_append_of_ne_nil _ (by simp)]
    cases r with
    | nil => exact absurd rfl hr
    | cons x xs => simp [List.getLast?_cons_cons]
  rw [h1]
  split
  · rw [List.dropLast_append_of_ne_nil _ (by simp)]
    rw [List.dropLast_cons_of_ne_nil hr]
  · rfl

theorem joinFields_singleton (x : List Nat) : joinFields [x] = x := by
  simp [joinFields, List.intercalate, List.intersperse]

theorem joinFields_cons (x : List Nat) (xs : List (List Nat)) (h : xs ≠ []) :
    joinFields (x :: xs) = x ++ 44 :: joinFields xs := by
  cases xs with
  | nil => exact absurd rfl h
  | cons y ys => simp [joinFields, List.intercalate, List.intersperse]

/-- The loop of the tokenizer, started at `p` with fewer stored tokens than the
cap leaves room for: it appends tokens whose contents, joined with commas, are
the bytes `buf[p .. e)` without a final comma. -/
theorem tokenizer_loop_join (buf : List Nat) (e : Nat) (fuel : Nat) :
    ∀ (p : Nat) (toks : List (Nat × Nat)), e - p ≤ fuel →
      (p < e → toks.length + (readSpan buf p e).count 44 + 1 ≤ MAX_NMEA_TOKENS) →
      ∃ new, tokenizer_loop buf e fuel p toks = toks ++ new ∧
        (new = [] ↔ e ≤ p) ∧
        joinFields (new.map (fun s => readSpan buf s.1 s.2))
          = dropTrailingComma (readSpan buf p e) := by
  induction fuel with
  | zero =>
    intro p toks hf _
    refine ⟨[], by simp [tokenizer_loop], by simp; omega, ?_⟩
    rw [readSpan_nil buf p e (by omega)]
    rfl
  | succ fuel ih =>
    intro p toks hf hcap
    by_cases hpe : p < e
    · have hcap1 := hcap hpe
      cases hm : memchr buf CH_COMMA p (e - p) with
      | none =>
        have hno := memchr_none buf CH_COMMA (e - p) p hm
        have hnm : 44 ∉ readSpan buf p e :=
          not_mem_readSpan buf p e 44 (fun i h1 h2 => hno i h1 (by omega))
        have hlt : toks.length < MAX_NMEA_TOKENS := by omega
        obtain ⟨new, hnew, hnil, _⟩ := ih e (toks ++ [(p, e)]) (by omega) (by omega)
        have hnew0 : new = [] := hnil.mpr (le_refl _)
        subst hnew0
        refine ⟨[(p, e)], ?_, by simp; omega, ?_⟩
        · simp only [tokenizer_loop, hpe, if_true, hm, hlt, lt_irrefl, if_false]
          simpa using hnew
        · simp only [List.map_cons, List.map_nil, joinFields_singleton]
          exact (dropTrailingComma_of_not_mem _ hnm).symm
      | some q =>
        obtain ⟨hq1, hq2, hq3, hq4⟩ := memchr_some buf CH_COMMA (e - p) p q hm
        have hqe : q < e := by omega
        have hnm : 44 ∉ readSpan buf p q := not_mem_readSpan buf p q 44 hq4
        have hsplit : readSpan buf p e = readSpan buf p q ++ 44 :: readSpan buf (q + 1) e := by
          rw [readSpan_append buf p q e hq1 (by omega),
            readSpan_append buf q (q + 1) e (by omega) (by omega), readSpan_one]
          simp [CH_COMMA] at hq3 ⊢
          exact hq3
        have hcount : (readSpan buf p e).count 44 = (readSpan buf (q + 1) e).count 44 + 1 := by
          rw [hsplit, List.count_append, List.count_cons_self, List.count_eq_zero_of_not_mem hnm]
          omega
        have hlt : toks.length < MAX_NMEA_TOKENS := by omega
        obtain ⟨new, hnew, hnil, hjoin⟩ := ih (q + 1) (toks ++ [(p, q)]) (by omega)
          (by intro _; simp only [List.length_append, List.length_singleton]; omega)
        refine ⟨(p, q) :: new, ?_, by simp; omega, ?_⟩
        · simp only [tokenizer_loop, hpe, if_true, hm, hlt, hqe]
          simpa using hnew
        · by_cases hn : new = []
          · subst hn
            have hq1e : e ≤ q + 1 := hnil.mp rfl
            have : readSpan buf (q + 1) e = [] := readSpan_nil _ _ _ hq1e
            rw [hsplit, this]
            simp only [List.map_cons, List.map_nil, joinFields_singleton]
            exact (dropTrailingComma_snoc _).symm
          · have hne : readSpan buf (q + 1) e ≠ [] := by
              intro h
              have hlen := congrArg List.length h
              rw [readSpan_length] at hlen
              simp at hlen
              exact hn (hnil.mpr (by omega))
            rw [hsplit, dropTrailingComma_append _ _ hne, List.map_cons,
              joinFields_cons _ _ (by simpa using hn), hjoin]
    · refine ⟨[], by simp [tokenizer_loop, hpe], by simp; omega, ?_⟩
      rw [readSpan_nil buf p e (by omega)]
      rfl

/-- C1, as stated, fails: the body of this GGA sentence has 15 comma-separated
fields, the last one empty, and the tokens joined with commas are the body
without its final comma: the trailing empty field is lost. -/
theorem tokenizer_join_counterexample :
    fieldCount (lineBody ggaLine) ≤ MAX_NMEA_TOKENS ∧
    lineBody ggaLine = bytes "GPGGA,123519,4807.038,N,01131.000,E,1,08,0.9,545.4,M,46.9,M,," ∧
    joinFields (tokenContents (nmea_tokenizer_init ggaLine 0 ggaLine.length))
      = bytes "GPGGA,123519,4807.038,N,01131.000,E,1,08,0.9,545.4,M,46.9,M," ∧
    joinFields (tokenContents (nmea_tokenizer_init ggaLine 0 ggaLine.length))
      ≠ lineBody ggaLine := by
  decide

/-- C1, amended: for every line whose body has at most 32 comma-separated
fields, the tokens of `nmea_tokenizer_init` joined with `','` are the body of
the line (leading `'$'`, line ending and checksum suffix removed) without its
final byte when that byte is `','`: every field is kept in order, except an
empty field at the very end of the body, for which no token is produced. -/
theorem tokenizer_join_amended (line : List Nat)
    (h : fieldCount (lineBody line) ≤ MAX_NMEA_TOKENS) :
    joinFields (tokenContents (nmea_tokenizer_init line 0 line.length))
      = dropTrailingComma (lineBody line) := by
  have hbody := strip_eq_lineBody line
  unfold nmea_tokenizer_init tokenContents
  simp only
  generalize strip_dollar line 0 line.length = p1 at hbody ⊢
  generalize strip_checksum line p1 (strip_newline line p1 line.length) = e2 at hbody ⊢
  obtain ⟨new, hnew, _, hjoin⟩ := tokenizer_loop_join line e2 (e2 - p1) p1 [] (le_refl _)
    (by intro _; rw [hbody]; simpa [fieldCount] using h)
  rw [hnew, List.nil_append, hjoin, hbody]

theorem tokenizer_join_amended_witness :
    fieldCount (lineBody ggaLine) ≤ MAX_NMEA_TOKENS ∧
    joinFields (tokenContents (nmea_tokenizer_init ggaLine 0 ggaLine.length))
      = dropTrailingComma (lineBody ggaLine) :=
  ⟨by decide, tokenizer_join_amended ggaLine (by decide)⟩

theorem wrap32_of_range (x : Int) (h0 : 0 ≤ x) (h1 : x < 2147483648) : wrap32 x = x := by
  unfold wrap32; omega

theorem readSpan_cons (mem : List Nat) (p e : Nat) (h : p < e) :
    readSpan mem p e = readByte mem p :: readSpan mem (p + 1) e := by
  unfold readSpan
  obtain ⟨n, hn⟩ : ∃ n, e - p = n + 1 := ⟨e - p - 1, by omega⟩
  have h2 : e - (p + 1) = n := by omega
  rw [hn, h2, List.range_succ_eq_map]
  simp [List.map_map, Function.comp_def, Nat.add_assoc, Nat.add_comm 1]

theorem digitsValue_nil : digitsValue [] = 0 := by simp [digitsValue]

theorem digitsValue_cons (b : Nat) (l : List Nat) :
    digitsValue (b :: l) = (b - 48) * 10 ^ l.length + digitsValue l := by
  simp [digitsValue, Nat.ofDigits_append, Nat.mul_comm, Nat.add_comm]

theorem digitsValue_lt (l : List Nat) (h : ∀ b ∈ l, isDigitByte b = true) :
    digitsValue l < 10 ^ l.length := by
  induction l with
  | nil => simp [digitsValue]
  | cons b l ih =>
    rw [digitsValue_cons]
    have hb := h b (List.mem_cons_self _ _)
    have hl := ih (fun x hx => h x (List.mem_cons_of_mem _ hx))
    simp [isDigitByte] at hb
    have : b - 48 ≤ 9 := by omega
    simp only [List.length_cons, pow_succ]
    nlinarith

/-- The loop of `str2int` on a span of digits: no failure, and the value is the
decimal continuation of `result`, as long as it stays in the `int` range. -/
theorem str2int_loop_digits (mem : List Nat) (len : Nat) :
    ∀ (p : Nat) (result : Int), 0 ≤ result →
      (∀ b ∈ readSpan mem p (p + len), isDigitByte b = true) →
      result * 10 ^ len + (digitsValue (readSpan mem p (p + len)) : Int) < 2147483648 →
      str2int_loop mem (p + len) len p result =
        some (result * 10 ^ len + (digitsValue (readSpan mem p (p + len)) : Int)) := by
  induction len with
  | zero =>
    intro p result _ _ _
    simp [str2int_loop, readSpan_nil, digitsValue_nil]
  | succ n ih =>
    intro p result h0 hd hlt
    have hspan : readSpan mem p (p + (n + 1)) = readByte mem p :: readSpan mem (p + 1) (p + 1 + n) := by
      rw [readSpan_cons mem p (p + (n + 1)) (by omega)]
      congr 2; omega
    rw [hspan] at hd hlt ⊢
    have hb := hd _ (List.mem_cons_self _ _)
    simp [isDigitByte] at hb
    have hrest : ∀ b ∈ readSpan mem (p + 1) (p + 1 + n), isDigitByte b = true :=
      fun b hb => hd b (List.mem_cons_of_mem _ hb)
    have hv := digitsValue_lt _ hrest
    rw [readSpan_length] at hv
    have hn : p + 1 + n - (p + 1) = n := by omega
    rw [hn] at hv
    rw [digitsValue_cons, readSpan_length, hn] at hlt ⊢
    have hpow : (0 : Int) < 10 ^ n := by positivity
    have hc : ((readByte mem p - 48 : Nat) : Int) = (readByte mem p : Int) - 48 := by omega
    push_cast at hlt ⊢
    rw [hc] at hlt ⊢
    have e1 : result * 10 ^ (n + 1) + (((readByte mem p : Int) - 48) * 10 ^ n
          + (digitsValue (readSpan mem (p + 1) (p + 1 + n)) : Int))
        = (result * 10 + ((readByte mem p : Int) - 48)) * 10 ^ n
          + (digitsValue (readSpan mem (p + 1) (p + 1 + n)) : Int) := by ring
    rw [e1] at hlt ⊢
    have hnn : (0 : Int) ≤ (digitsValue (readSpan mem (p + 1) (p + 1 + n)) : Int) := by positivity
    have hr10 : 0 ≤ result * 10 + ((readByte mem p : Int) - 48) := by omega
    have hsmall : result * 10 + ((readByte mem p : Int) - 48) < 2147483648 := by
      by_contra hcon
      have : (2147483648 : Int) * 1 ≤ (result * 10 + ((readByte mem p : Int) - 48)) * 10 ^ n := by
        apply mul_le_mul <;> omega
      omega
    have hw := wrap32_of_range _ hr10 hsmall
    have hstep : str2int_loop mem (p + (n + 1)) (n + 1) p result
        = str2int_loop mem (p + 1 + n) n (p + 1) (wrap32 (result * 10 + ((readByte mem p : Int) - 48))) := by
      have hpe : ¬ p ≥ p + 1 + n := by omega
      have hcd : ¬ ((readByte mem p : Int) - 48 < 0 ∨ (readByte mem p : Int) - 48 ≥ 10) := by omega
      have : p + (n + 1) = p + 1 + n := by omega
      rw [this]
      simp only [str2int_loop, hpe, hcd, if_false]
    rw [hstep, hw]
    exact ih (p + 1) _ hr10 hrest hlt

/-- The loop of `str2int` fails on a span holding a byte that is no digit. -/
theorem str2int_loop_nondigit (mem : List Nat) (len : Nat) :
    ∀ (p : Nat) (result : Int),
      (∃ b ∈ readSpan mem p (p + len), isDigitByte b = false) →
      str2int_loop mem (p + len) len p result = none := by
  induction len with
  | zero =>
    intro p result h
    simp [readSpan_nil] at h
  | succ n ih =>
    intro p result h
    have hspan : readSpan mem p (p + (n + 1)) = readByte mem p :: readSpan mem (p + 1) (p + 1 + n) := by
      rw [readSpan_cons mem p (p + (n + 1)) (by omega)]
      congr 2; omega
    rw [hspan] at h
    have hpe : ¬ p ≥ p + 1 + n := by omega
    have hpn : p + (n + 1) = p + 1 + n := by omega
    rw [hpn]
    by_cases hd : isDigitByte (readByte mem p) = true
    · obtain ⟨b, hb, hbd⟩ := h
      have hb2 : b ∈ readSpan mem (p + 1) (p + 1 + n) := by
        rcases List.mem_cons.mp hb with h1 | h1
        · subst h1; rw [hd] at hbd; cases hbd
        · exact h1
      simp [isDigitByte] at hd
      have hcd : ¬ ((readByte mem p : Int) - 48 < 0 ∨ (readByte mem p : Int) - 48 ≥ 10) := by omega
      simp only [str2int_loop, hpe, hcd, if_false]
      exact ih (p + 1) _ ⟨b, hb2, hbd⟩
    · simp [isDigitByte] at hd
      have hcd : ((readByte mem p : Int) - 48 < 0 ∨ (readByte mem p : Int) - 48 ≥ 10) := by omega
      simp only [str2int_loop, hpe, hcd, if_false, if_true]

/-- C2: for every span of at most 9 bytes, `str2int` returns -1 if and only if
the span is empty or holds a byte that is no ASCII digit; otherwise it returns
the decimal value of the digits, which is not negative. -/
theorem str2int_spec (mem : List Nat) (p e : Nat) (hpe : p ≤ e) (hlen : e - p ≤ 9) :
    (str2int mem p e = -1 ↔
      (readSpan mem p e = [] ∨ ∃ b ∈ readSpan mem p e, ¬ (48 ≤ b ∧ b ≤ 57))) ∧
    (¬ (readSpan mem p e = [] ∨ ∃ b ∈ readSpan mem p e, ¬ (48 ≤ b ∧ b ≤ 57)) →
      0 ≤ str2int mem p e ∧ str2int mem p e = (decimalValue (readSpan mem p e) : Int)) := by
  obtain ⟨len, rfl⟩ : ∃ len, e = p + len := ⟨e - p, by omega⟩
  have hlen9 : len ≤ 9 := by omega
  have hdv : ∀ l, decimalValue l = digitsValue l := fun l => rfl
  by_cases hall : ∀ b ∈ readSpan mem p (p + len), isDigitByte b = true
  · -- every byte is a digit
    have hv := digitsValue_lt _ hall
    rw [readSpan_length] at hv
    have hpow : (10 : Nat) ^ (p + len - p) ≤ 10 ^ 9 :=
      Nat.pow_le_pow_right (by norm_num) (by omega)
    have hbound : (0 : Int) * 10 ^ len + (digitsValue (readSpan mem p (p + len)) : Int)
        < 2147483648 := by
      have : digitsValue (readSpan mem p (p + len)) < 10 ^ 9 := lt_of_lt_of_le hv hpow
      norm_num at this ⊢
      omega
    have hloop := str2int_loop_digits mem len p 0 (le_refl _) hall hbound
    have hnd : ¬ ∃ b ∈ readSpan mem p (p + len), ¬ (48 ≤ b ∧ b ≤ 57) := by
      rintro ⟨b, hb, hbd⟩
      have := hall b hb
      simp [isDigitByte] at this
      exact hbd this
    by_cases h0 : len = 0
    · subst h0
      simp [str2int, readSpan_nil]
    · have hne : readSpan mem p (p + len) ≠ [] := by
        intro h
        have := congrArg List.length h
        rw [readSpan_length] at this
        simp at this
        omega
      have hl : ((p + len : Nat) : Int) - (p : Int) = (len : Int) := by push_cast; ring
      have hl0 : ¬ ((len : Int) = 0) := by omega
      have hval : str2int mem p (p + len) = (digitsValue (readSpan mem p (p + len)) : Int) := by
        simp only [str2int, hl, hl0, if_false, Int.toNat_ofNat, hloop]
        simp
      have hnn : (0 : Int) ≤ (digitsValue (readSpan mem p (p + len)) : Int) := by positivity
      refine ⟨?_, ?_⟩
      · constructor
        · intro h; rw [hval] at h; omega
        · rintro (h | h)
          · exact absurd h hne
          · exact absurd h hnd
      · intro _
        rw [hval, hdv]
        exact ⟨hnn, rfl⟩
  · -- some byte is no digit
    have hex : ∃ b ∈ readSpan mem p (p + len), isDigitByte b = false := by
      by_contra hcon
      apply hall
      intro b hb
      by_contra hbd
      exact hcon ⟨b, hb, by simpa using hbd⟩
    have hloop := str2int_loop_nondigit mem len p 0 hex
    have hex2 : ∃ b ∈ readSpan mem p (p + len), ¬ (48 ≤ b ∧ b ≤ 57) := by
      obtain ⟨b, hb, hbd⟩ := hex
      refine ⟨b, hb, ?_⟩
      intro h
      simp [isDigitByte] at hbd
      omega
    have hl : ((p + len : Nat) : Int) - (p : Int) = (len : Int) := by push_cast; ring
    have hval : str2int mem p (p + len) = -1 := by
      simp only [str2int, hl, Int.toNat_ofNat, hloop]
      split <;> rfl
    refine ⟨?_, ?_⟩
    · exact ⟨fun _ => Or.inr hex2, fun _ => hval⟩
    · intro h
      exact absurd (Or.inr hex2) h

theorem str2int_spec_witness :
    ((str2int (bytes "$GPGSV,3,1,11") 11 13 = -1 ↔
      (readSpan (bytes "$GPGSV,3,1,11") 11 13 = [] ∨
        ∃ b ∈ readSpan (bytes "$GPGSV,3,1,11") 11 13, ¬ (48 ≤ b ∧ b ≤ 57))) ∧
    (¬ (readSpan (bytes "$GPGSV,3,1,11") 11 13 = [] ∨
        ∃ b ∈ readSpan (bytes "$GPGSV,3,1,11") 11 13, ¬ (48 ≤ b ∧ b ≤ 57)) →
      0 ≤ str2int (bytes "$GPGSV,3,1,11") 11 13 ∧
      str2int (bytes "$GPGSV,3,1,11") 11 13
        = (decimalValue (readSpan (bytes "$GPGSV,3,1,11") 11 13) : Int))) :=
  str2int_spec (bytes "$GPGSV,3,1,11") 11 13 (by decide) (by decide)

/-! ## Frame lemmas: what the updates leave alone -/

theorem FixFrame.fixRefl (r : NmeaReader) : FixFrame r r := ⟨rfl, rfl, rfl, rfl, rfl, rfl, rfl⟩

theorem FixFrame.fixTrans {a b c : NmeaReader} (h1 : FixFrame a b) (h2 : FixFrame b c) :
    FixFrame a c :=
  ⟨h2.pos.trans h1.pos, h2.overflow.trans h1.overflow, h2.inb.trans h1.inb,
   h2.sv_status.trans h1.sv_status, h2.sv_status_changed.trans h1.sv_status_changed,
   h2.gsa_fixed.trans h1.gsa_fixed, h2.timemap.trans h1.timemap⟩

theorem FixFrame.toLine {a b : NmeaReader} (h : FixFrame a b) : LineFrame a b :=
  ⟨h.pos, h.overflow, h.inb⟩

theorem LineFrame.lineRefl (r : NmeaReader) : LineFrame r r := ⟨rfl, rfl, rfl⟩

theorem LineFrame.lineTrans {a b c : NmeaReader} (h1 : LineFrame a b) (h2 : LineFrame b c) :
    LineFrame a c :=
  ⟨h2.pos.trans h1.pos, h2.overflow.trans h1.overflow, h2.inb.trans h1.inb⟩

theorem update_time_frame (env : Env) (r : NmeaReader) (tok : Token) :
    FixFrame r (nmea_reader_update_time env r tok).2 := by
  unfold nmea_reader_update_time nmea_reader_get_timestamp
  split_ifs <;> exact ⟨rfl, rfl, rfl, rfl, rfl, rfl, rfl⟩

theorem update_cdate_frame (r : NmeaReader) (d m y : Token) :
    FixFrame r (nmea_reader_update_cdate r d m y).2 := by
  unfold nmea_reader_update_cdate
  split_ifs <;> exact ⟨rfl, rfl, rfl, rfl, rfl, rfl, rfl⟩

theorem update_date_frame (env : Env) (r : NmeaReader) (date mtime : Token) :
    FixFrame r (nmea_reader_update_date env r date mtime).2 := by
  unfold nmea_reader_update_date
  simp only
  split_ifs
  · exact FixFrame.fixRefl r
  · refine FixFrame.fixTrans ?_ (update_time_frame env _ mtime)
    exact ⟨rfl, rfl, rfl, rfl, rfl, rfl, rfl⟩

theorem update_latlong_frame (env : Env) (r : NmeaReader) (la : Token) (lah : Nat) (lo : Token)
    (loh : Nat) : FixFrame r (nmea_reader_update_latlong env r la lah lo loh).2 := by
  unfold nmea_reader_update_latlong
  split_ifs <;> exact ⟨rfl, rfl, rfl, rfl, rfl, rfl, rfl⟩

theorem update_altitude_frame (env : Env) (r : NmeaReader) (a u : Token) :
    FixFrame r (nmea_reader_update_altitude env r a u).2 := by
  unfold nmea_reader_update_altitude
  split_ifs <;> exact ⟨rfl, rfl, rfl, rfl, rfl, rfl, rfl⟩

theorem update_accuracy_frame (env : Env) (r : NmeaReader) (a : Token) :
    FixFrame r (nmea_reader_update_accuracy env r a).2 := by
  unfold nmea_reader_update_accuracy
  simp only
  split_ifs <;> exact ⟨rfl, rfl, rfl, rfl, rfl, rfl, rfl⟩

theorem update_bearing_frame (env : Env) (r : NmeaReader) (a : Token) :
    FixFrame r (nmea_reader_update_bearing env r a).2 := by
  unfold nmea_reader_update_bearing
  split_ifs <;> exact ⟨rfl, rfl, rfl, rfl, rfl, rfl, rfl⟩

theorem update_speed_frame (env : Env) (r : NmeaReader) (a : Token) :
    FixFrame r (nmea_reader_update_speed env r a).2 := by
  unfold nmea_reader_update_speed
  split_ifs <;> exact ⟨rfl, rfl, rfl, rfl, rfl, rfl, rfl⟩

theorem parse_gga_frame (env : Env) (tzer : NmeaTokenizer) (r : NmeaReader) :
    FixFrame r (parse_gga env tzer r) := by
  unfold parse_gga
  simp only
  split_ifs
  · exact ((update_time_frame env _ _).fixTrans (update_latlong_frame env _ _ _ _ _)).fixTrans
      (update_altitude_frame env _ _ _)
  · exact FixFrame.fixRefl r

theorem parse_gll_frame (env : Env) (tzer : NmeaTokenizer) (r : NmeaReader) :
    FixFrame r (parse_gll env tzer r) := by
  unfold parse_gll
  simp only
  split_ifs
  · exact (update_time_frame env _ _).fixTrans (update_latlong_frame env _ _ _ _ _)
  · exact FixFrame.fixRefl r

theorem parse_rmc_frame (env : Env) (tzer : NmeaTokenizer) (r : NmeaReader) :
    FixFrame r (parse_rmc env tzer r) := by
  unfold parse_rmc
  simp only
  split_ifs
  · exact (((update_date_frame env _ _ _).fixTrans (update_latlong_frame env _ _ _ _ _)).fixTrans
      (update_bearing_frame env _ _)).fixTrans (update_speed_frame env _ _)
  · exact FixFrame.fixRefl r

theorem parse_vtg_frame (env : Env) (tzer : NmeaTokenizer) (r : NmeaReader) :
    FixFrame r (parse_vtg env tzer r) := by
  unfold parse_vtg
  simp only
  split_ifs
  · exact (update_bearing_frame env _ _).fixTrans (update_speed_frame env _ _)
  · exact FixFrame.fixRefl r

theorem parse_zda_frame (env : Env) (tzer : NmeaTokenizer) (r : NmeaReader) :
    FixFrame r (parse_zda env tzer r) := by
  unfold parse_zda
  simp only
  split_ifs
  · exact (update_cdate_frame _ _ _ _).fixTrans (update_time_frame env _ _)
  · exact update_time_frame env _ _
  · exact update_cdate_frame _ _ _ _
  · exact FixFrame.fixRefl r

theorem gsa_prn_step_line (b : Bool) (tzer : NmeaTokenizer) (r : NmeaReader) (i : Nat) :
    LineFrame r (gsa_prn_step b tzer r i) := by
  unfold gsa_prn_step
  simp only
  split_ifs <;> exact ⟨rfl, rfl, rfl⟩

theorem gsa_prn_fold_line (b : Bool) (tzer : NmeaTokenizer) (l : List Nat) :
    ∀ r, LineFrame r (l.foldl (gsa_prn_step b tzer) r) := by
  induction l with
  | nil => intro r; exact LineFrame.lineRefl r
  | cons i l ih =>
    intro r
    exact (gsa_prn_step_line b tzer r i).lineTrans (ih _)

theorem parse_gsa_line (env : Env) (b : Bool) (tzer : NmeaTokenizer) (r : NmeaReader) :
    LineFrame r (parse_gsa env b tzer r) := by
  unfold parse_gsa
  simp only
  split_ifs
  · refine LineFrame.lineTrans ?_ (gsa_prn_fold_line b tzer _ _)
    exact LineFrame.lineTrans (update_accuracy_frame env r _).toLine ⟨rfl, rfl, rfl⟩
  · refine LineFrame.lineTrans ?_ (gsa_prn_fold_line b tzer _ _)
    exact (update_accuracy_frame env r _).toLine
  · exact ⟨rfl, rfl, rfl⟩
  · exact ⟨rfl, rfl, rfl⟩
  · exact LineFrame.lineRefl r

theorem parse_gsv_line (env : Env) (b : Bool) (tzer : NmeaTokenizer) (r : NmeaReader) :
    LineFrame r (parse_gsv env b tzer r) := by
  unfold parse_gsv parse_gsv_loop
  simp only
  split_ifs <;> exact ⟨rfl, rfl, rfl⟩

/-- The parser leaves the line buffer, the cursor and the overflow flag alone. -/
theorem parse_line_frame (env : Env) (r : NmeaReader) :
    LineFrame r (nmea_reader_parse env r) := by
  unfold nmea_reader_parse
  simp only
  split_ifs
  · exact LineFrame.lineRefl r
  · exact LineFrame.lineRefl r
  · exact (parse_gga_frame env _ r).toLine
  · exact (parse_gll_frame env _ r).toLine
  · exact parse_gsa_line env _ _ r
  · exact parse_gsv_line env _ _ r
  · exact (parse_rmc_frame env _ r).toLine
  · exact (parse_vtg_frame env _ r).toLine
  · exact (parse_zda_frame env _ r).toLine
  · exact LineFrame.lineRefl r

/-! ## Position fix with status `0` -/

theorem token_at_zero_of_bytes (t : Token) (b : Nat) (h : t.bytes = [b]) : t.at 0 = b := by
  unfold Token.bytes at h
  have hlen := congrArg List.length h
  rw [readSpan_length] at hlen
  simp at hlen
  rw [readSpan_cons _ _ _ (by omega)] at h
  have h1 := (List.cons.inj h).1
  simpa [Token.at] using h1

theorem charToInt_ascii (env : Env) (b : Nat) (h : b < 128) : charToInt env b = (b : Int) := by
  unfold charToInt
  split_ifs with h1
  · omega
  · rfl

/-- A GGA sentence whose fix-status field is `0` is parsed without any change of
the reader. -/
theorem parse_gga_status_zero (env : Env) (r : NmeaReader)
    (htype : memcmp_eq (nmea_tokenizer_get (reader_tzer r) 0) 2 [71, 71, 65] = true)
    (hstatus : (nmea_tokenizer_get (reader_tzer r) 6).bytes = [48]) :
    nmea_reader_parse env r = r := by
  have h0 := token_at_zero_of_bytes _ _ hstatus
  unfold nmea_reader_parse
  simp only [htype, if_true]
  split_ifs
  · rfl
  · rfl
  · unfold parse_gga
    simp only [h0, charToInt_ascii env 48 (by norm_num)]
    simp

/-- C3: for every reader state and every GGA sentence whose fix-status field
(field 6) is `0`, `nmea_reader_parse` leaves the position-valid bit of
`fix.flags` as it was, and latitude, longitude, altitude and timestamp too. -/
theorem gga_status_zero_keeps_fix (env : Env) (r : NmeaReader)
    (htype : memcmp_eq (nmea_tokenizer_get (reader_tzer r) 0) 2 [71, 71, 65] = true)
    (hstatus : (nmea_tokenizer_get (reader_tzer r) 6).bytes = [48]) :
    (nmea_reader_parse env r).fix.flags &&& GPS_LOCATION_HAS_LAT_LONG
      = r.fix.flags &&& GPS_LOCATION_HAS_LAT_LONG ∧
    (nmea_reader_parse env r).fix.latitude = r.fix.latitude ∧
    (nmea_reader_parse env r).fix.longitude = r.fix.longitude ∧
    (nmea_reader_parse env r).fix.altitude = r.fix.altitude ∧
    (nmea_reader_parse env r).fix.timestamp = r.fix.timestamp := by
  rw [parse_gga_status_zero env r htype hstatus]
  exact ⟨rfl, rfl, rfl, rfl, rfl⟩

theorem gga_status_zero_keeps_fix_witness :
    (nmea_reader_parse stdEnv ((nmea_reader_init stdEnv).withLine ggaNoFixLine)).fix.flags
        &&& GPS_LOCATION_HAS_LAT_LONG
      = ((nmea_reader_init stdEnv).withLine ggaNoFixLine).fix.flags
        &&& GPS_LOCATION_HAS_LAT_LONG ∧
    (nmea_reader_parse stdEnv ((nmea_reader_init stdEnv).withLine ggaNoFixLine)).fix.latitude
      = ((nmea_reader_init stdEnv).withLine ggaNoFixLine).fix.latitude ∧
    (nmea_reader_parse stdEnv ((nmea_reader_init stdEnv).withLine ggaNoFixLine)).fix.longitude
      = ((nmea_reader_init stdEnv).withLine ggaNoFixLine).fix.longitude ∧
    (nmea_reader_parse stdEnv ((nmea_reader_init stdEnv).withLine ggaNoFixLine)).fix.altitude
      = ((nmea_reader_init stdEnv).withLine ggaNoFixLine).fix.altitude ∧
    (nmea_reader_parse stdEnv ((nmea_reader_init stdEnv).withLine ggaNoFixLine)).fix.timestamp
      = ((nmea_reader_init stdEnv).withLine ggaNoFixLine).fix.timestamp :=
  gga_status_zero_keeps_fix stdEnv ((nmea_reader_init stdEnv).withLine ggaNoFixLine)
    (by decide) (by decide)

/-! ## Line assembler -/

set_option maxRecDepth 1000000

theorem readByte_set_ne (l : List Nat) (i j c : Nat) (h : j ≠ i) :
    readByte (l.set i c) j = readByte l j := by
  simp [readByte, List.getD_eq_getElem?_getD, List.getElem?_set, Ne.symm h]

theorem readByte_set_eq (l : List Nat) (i c : Nat) (h : i < l.length) :
    readByte (l.set i c) i = c := by
  simp [readByte, List.getD_eq_getElem?_getD, List.getElem?_set, h]

theorem readSpan_set_before (l : List Nat) (i c a b : Nat) (h : b ≤ i) :
    readSpan (l.set i c) a b = readSpan l a b := by
  unfold readSpan
  apply List.map_congr_left
  intro k hk
  rw [List.mem_range] at hk
  exact readByte_set_ne l i (a + k) c (by omega)

theorem feed_append (env : Env) (a b : List Nat) :
    ∀ r, nmea_reader_feed env r (a ++ b)
      = ((nmea_reader_feed env (nmea_reader_feed env r a).1 b).1,
         (nmea_reader_feed env r a).2 ++ (nmea_reader_feed env (nmea_reader_feed env r a).1 b).2) := by
  induction a with
  | nil => intro r; simp [nmea_reader_feed]
  | cons c a ih =>
    intro r
    rw [List.cons_append]
    simp only [nmea_reader_feed]
    rw [ih]
    simp only [List.append_assoc]

/-- Bytes other than `'\n'` that fit are stored one after the other, without any
call of the parser. -/
theorem feed_store (env : Env) (l : List Nat) :
    ∀ r : NmeaReader, r.overflow = 0 → r.pos + l.length ≤ NMEA_MAX_SIZE →
      r.pos + l.length ≤ r.inb.length → (∀ b ∈ l, b ≠ CH_NL) →
      (nmea_reader_feed env r l).2 = [] ∧
      (nmea_reader_feed env r l).1.overflow = 0 ∧
      (nmea_reader_feed env r l).1.pos = r.pos + l.length ∧
      (nmea_reader_feed env r l).1.inb.length = r.inb.length ∧
      readSpan (nmea_reader_feed env r l).1.inb 0 (r.pos + l.length)
        = readSpan r.inb 0 r.pos ++ l := by
  induction l with
  | nil => intro r h1 _ _ _; simp [nmea_reader_feed, h1]
  | cons c l ih =>
    intro r hov hfit hbuf hnl
    have hc : c ≠ CH_NL := hnl c (List.mem_cons_self _ _)
    simp only [NMEA_MAX_SIZE] at hfit ⊢
    have hpos : ¬ r.pos ≥ NMEA_MAX_SIZE + 1 - 1 := by
      simp only [List.length_cons, NMEA_MAX_SIZE] at hfit ⊢; omega
    have hstep : nmea_reader_addc env r c
        = ({ r with inb := r.inb.set r.pos c, pos := r.pos + 1 }, none) := by
      simp only [nmea_reader_addc, hov, hpos, hc, ne_eq, not_true_eq_false, if_false]
    simp only [List.length_cons] at hfit hbuf
    obtain ⟨i1, i2, i3, i4, i5⟩ := ih { r with inb := r.inb.set r.pos c, pos := r.pos + 1 } hov
      (by simp only [NMEA_MAX_SIZE]; omega) (by simp only [List.length_set]; omega)
      (fun b hb => hnl b (List.mem_cons_of_mem _ hb))
    simp only [nmea_reader_feed, hstep, Option.toList, List.nil_append, List.length_cons]
    simp only [List.length_set] at i3 i4 i5
    refine ⟨i1, i2, by rw [i3]; omega, i4, ?_⟩
    have e1 : r.pos + (l.length + 1) = r.pos + 1 + l.length := by omega
    rw [e1, i5, readSpan_snoc _ 0 (r.pos + 1) (by omega)]
    simp only [Nat.add_sub_cancel, List.append_assoc, List.singleton_append]
    rw [readSpan_set_before _ _ _ _ _ (le_refl _), readByte_set_eq _ _ _ (by omega)]

/-- While the overflow flag is set, bytes other than `'\n'` are dropped. -/
theorem feed_discard (env : Env) (l : List Nat) :
    ∀ r : NmeaReader, r.overflow ≠ 0 → (∀ b ∈ l, b ≠ CH_NL) →
      (nmea_reader_feed env r l).2 = [] ∧
      (nmea_reader_feed env r l).1.overflow ≠ 0 ∧
      (nmea_reader_feed env r l).1.pos = r.pos ∧
      (nmea_reader_feed env r l).1.inb = r.inb := by
  induction l with
  | nil => intro r h1 _; simp [nmea_reader_feed, h1]
  | cons c l ih =>
    intro r hov hnl
    have hc : c ≠ CH_NL := hnl c (List.mem_cons_self _ _)
    have hstep : nmea_reader_addc env r c = ({ r with overflow := 1 }, none) := by
      simp only [nmea_reader_addc, hov, hc, ne_eq, not_false_eq_true, if_true]
    obtain ⟨i1, i2, i3, i4⟩ := ih { r with overflow := 1 } (by simp)
      (fun b hb => hnl b (List.mem_cons_of_mem _ hb))
    simp only [nmea_reader_feed, hstep, Option.toList, List.nil_append]
    exact ⟨i1, i2, i3, i4⟩

theorem feed_singleton (env : Env) (r : NmeaReader) (c : Nat) :
    nmea_reader_feed env r [c] = ((nmea_reader_addc env r c).1, (nmea_reader_addc env r c).2.toList) := by
  simp [nmea_reader_feed]

/-- A line that fits, fed to an empty buffer, is handed to the parser once, and
the buffer is empty again afterwards. -/
theorem feed_line (env : Env) (r : NmeaReader) (line : List Nat)
    (hpos : r.pos = 0) (hov : r.overflow = 0) (hbuf : r.inb.length = NMEA_MAX_SIZE + 1)
    (hline : ∀ b ∈ line, b ≠ CH_NL) (hfits : (line ++ [CH_NL]).length ≤ NMEA_MAX_SIZE) :
    (nmea_reader_feed env r (line ++ [CH_NL])).2 = [line ++ [CH_NL]] ∧
    (nmea_reader_feed env r (line ++ [CH_NL])).1.pos = 0 ∧
    (nmea_reader_feed env r (line ++ [CH_NL])).1.overflow = 0 ∧
    (nmea_reader_feed env r (line ++ [CH_NL])).1.inb.length = NMEA_MAX_SIZE + 1 := by
  simp only [List.length_append, List.length_singleton, NMEA_MAX_SIZE] at hfits hbuf
  obtain ⟨s1, s2, s3, s4, s5⟩ := feed_store env line r hov
    (by simp only [NMEA_MAX_SIZE]; omega) (by omega) hline
  rw [feed_append, feed_singleton]
  generalize (nmea_reader_feed env r line).1 = r1 at s2 s3 s4 s5
  rw [hpos, Nat.zero_add] at s3 s5
  rw [readSpan_nil _ 0 0 (le_refl _), List.nil_append] at s5
  have hp : ¬ r1.pos ≥ NMEA_MAX_SIZE + 1 - 1 := by simp only [NMEA_MAX_SIZE]; omega
  have hstep : nmea_reader_addc env r1 CH_NL
      = ({ nmea_reader_parse env { r1 with inb := r1.inb.set r1.pos CH_NL, pos := r1.pos + 1 }
            with pos := 0 },
         some (readSpan (r1.inb.set r1.pos CH_NL) 0 (r1.pos + 1))) := by
    simp only [nmea_reader_addc, s2, hp, ne_eq, not_true_eq_false, if_false, if_true]
  have hfr := parse_line_frame env { r1 with inb := r1.inb.set r1.pos CH_NL, pos := r1.pos + 1 }
  rw [hstep, s1]
  simp only [Option.toList, List.nil_append]
  refine ⟨?_, trivial, ?_, ?_⟩
  · rw [readSpan_snoc _ 0 (r1.pos + 1) (by omega)]
    simp only [Nat.add_sub_cancel]
    rw [readSpan_set_before _ _ _ _ _ (le_refl _), readByte_set_eq _ _ _ (by omega), s3, s5]
  · rw [hfr.overflow]; exact s2
  · rw [hfr.inb]; simp only [List.length_set, NMEA_MAX_SIZE]; omega

/-- A run of bytes longer than `NMEA_MAX_SIZE` and its terminator, fed to an
empty buffer, are dropped without any call of the parser, and the buffer is
empty again afterwards. -/
theorem feed_overlong (env : Env) (r : NmeaReader) (junk : List Nat)
    (hpos : r.pos = 0) (hov : r.overflow = 0) (hbuf : r.inb.length = NMEA_MAX_SIZE + 1)
    (hjunk : ∀ b ∈ junk, b ≠ CH_NL) (hlong : NMEA_MAX_SIZE < junk.length) :
    (nmea_reader_feed env r (junk ++ [CH_NL])).2 = [] ∧
    (nmea_reader_feed env r (junk ++ [CH_NL])).1.pos = 0 ∧
    (nmea_reader_feed env r (junk ++ [CH_NL])).1.overflow = 0 ∧
    (nmea_reader_feed env r (junk ++ [CH_NL])).1.inb.length = NMEA_MAX_SIZE + 1 := by
  simp only [NMEA_MAX_SIZE] at hlong hbuf
  -- the run is 83 bytes, the byte that overflows, and the rest
  obtain ⟨c, j2, hdrop⟩ : ∃ c j2, junk.drop 83 = c :: j2 := by
    cases h : junk.drop 83 with
    | nil =>
      have := congrArg List.length h
      simp at this
      omega
    | cons c j2 => exact ⟨c, j2, rfl⟩
  have hsplit : junk = junk.take 83 ++ c :: j2 := by
    rw [← hdrop, List.take_append_drop]
  have hj1 : ∀ b ∈ junk.take 83, b ≠ CH_NL := fun b hb => hjunk b (List.mem_of_mem_take hb)
  have hj2 : ∀ b ∈ j2, b ≠ CH_NL := fun b hb =>
    hjunk b (List.mem_of_mem_drop (by rw [hdrop]; exact List.mem_cons_of_mem _ hb))
  have hlen1 : (junk.take 83).length = 83 := by
    rw [List.length_take]; omega
  obtain ⟨s1, s2, s3, s4, _⟩ := feed_store env (junk.take 83) r hov
    (by simp only [NMEA_MAX_SIZE]; omega) (by omega) hj1
  have e1 : junk ++ [CH_NL] = junk.take 83 ++ ([c] ++ (j2 ++ [CH_NL])) := by
    conv_lhs => rw [hsplit]
    simp
  rw [e1, feed_append, feed_append, feed_singleton, feed_append, feed_singleton]
  generalize (nmea_reader_feed env r (junk.take 83)).1 = r1 at s2 s3 s4
  rw [hpos, hlen1] at s3
  have hp : r1.pos ≥ NMEA_MAX_SIZE + 1 - 1 := by simp only [NMEA_MAX_SIZE]; omega
  have hstep : nmea_reader_addc env r1 c = ({ r1 with overflow := 1, pos := 0 }, none) := by
    simp only [nmea_reader_addc, s2, hp, ne_eq, not_true_eq_false, if_false, if_true]
  obtain ⟨d1, d2, d3, d4⟩ := feed_discard env j2 { r1 with overflow := 1, pos := 0 } (by simp) hj2
  rw [hstep]
  simp only
  generalize (nmea_reader_feed env { r1 with overflow := 1, pos := 0 } j2).1 = r3 at d2 d3 d4
  have hstep2 : nmea_reader_addc env r3 CH_NL = ({ r3 with overflow := 0 }, none) := by
    simp only [nmea_reader_addc, d2, ne_eq, not_false_eq_true, not_true_eq_false, if_true,
      if_false]
  rw [hstep2, s1, d1]
  simp only [Option.toList, List.append_nil, true_and]
  refine ⟨d3, ?_⟩
  rw [d4]
  simp only [NMEA_MAX_SIZE]
  omega

/-- C4: starting from an empty line buffer without overflow, a run of bytes
other than `'\n'` that is longer than the line buffer, then `'\n'`, then one
line that fits the buffer (at most `NMEA_MAX_SIZE` bytes with its terminator):
`nmea_reader_addc` calls the parser exactly once, on the second line. -/
theorem overlong_line_dropped_next_parsed (env : Env) (r : NmeaReader) (junk line : List Nat)
    (hpos : r.pos = 0) (hov : r.overflow = 0) (hbuf : r.inb.length = NMEA_MAX_SIZE + 1)
    (hjunk : ∀ b ∈ junk, b ≠ CH_NL) (hlong : NMEA_MAX_SIZE < junk.length)
    (hline : ∀ b ∈ line, b ≠ CH_NL) (hfits : (line ++ [CH_NL]).length ≤ NMEA_MAX_SIZE) :
    (nmea_reader_feed env r ((junk ++ [CH_NL]) ++ (line ++ [CH_NL]))).2 = [line ++ [CH_NL]] := by
  obtain ⟨o1, o2, o3, o4⟩ := feed_overlong env r junk hpos hov hbuf hjunk hlong
  obtain ⟨l1, _, _, _⟩ := feed_line env _ line o2 o3 o4 hline hfits
  rw [feed_append, o1, l1]
  rfl

theorem overlong_line_dropped_next_parsed_witness :
    (nmea_reader_feed stdEnv (nmea_reader_init stdEnv)
      ((List.replicate 90 65 ++ [CH_NL]) ++ (bytes "$GPGGA,123519,4807.038,N,0113.000,E,1\r" ++ [CH_NL]))).2
      = [bytes "$GPGGA,123519,4807.038,N,0113.000,E,1\r" ++ [CH_NL]] :=
  overlong_line_dropped_next_parsed stdEnv (nmea_reader_init stdEnv) (List.replicate 90 65)
    (bytes "$GPGGA,123519,4807.038,N,0113.000,E,1\r") (by decide) (by decide) (by decide)
    (by decide) (by decide) (by decide) (by decide)

/-- C5 fails on the code: after 83 bytes the cursor is 83 (`sizeof(in) - 1`) and
the overflow flag clear; the `'\n'` that follows takes the buffer-full branch,
which sets the overflow flag without looking at the byte (the branch for a set
flag has `r->overflow = (c != '\n')`): after the terminator the overflow flag
is 1, and the whole next line, a well-formed GGA sentence, is dropped. After 84
bytes the same `'\n'` clears the flag and the GGA sentence is parsed. -/
theorem addc_full_newline_drops_next :
    (nmea_reader_feed stdEnv (nmea_reader_init stdEnv) (List.replicate 83 65)).1.pos = 83 ∧
    (nmea_reader_feed stdEnv (nmea_reader_init stdEnv) (List.replicate 83 65)).1.overflow = 0 ∧
    (nmea_reader_addc stdEnv
      (nmea_reader_feed stdEnv (nmea_reader_init stdEnv) (List.replicate 83 65)).1
      CH_NL).1.overflow = 1 ∧
    (nmea_reader_addc stdEnv
      (nmea_reader_feed stdEnv (nmea_reader_init stdEnv) (List.replicate 83 65)).1
      CH_NL).1.pos = 0 ∧
    (nmea_reader_feed stdEnv (nmea_reader_init stdEnv)
      ((List.replicate 83 65 ++ [CH_NL]) ++ ggaLine)).2 = [] ∧
    (nmea_reader_feed stdEnv (nmea_reader_init stdEnv)
      ((List.replicate 84 65 ++ [CH_NL]) ++ ggaLine)).2 = [ggaLine] := by
  decide

/-- With the cursor below `NMEA_MAX_SIZE` (and a zero cursor whenever the
overflow flag is set, as the code leaves it), `nmea_reader_addc` on `'\n'`
leaves the overflow flag clear and the cursor at zero, and a line that fits the
buffer and follows is handed to the parser. -/
theorem addc_newline_below_full (env : Env) (r : NmeaReader)
    (hpos : r.pos < NMEA_MAX_SIZE) (hinv : r.overflow ≠ 0 → r.pos = 0)
    (hbuf : r.inb.length = NMEA_MAX_SIZE + 1) :
    (nmea_reader_addc env r CH_NL).1.overflow = 0 ∧
    (nmea_reader_addc env r CH_NL).1.pos = 0 ∧
    ∀ line : List Nat, (∀ b ∈ line, b ≠ CH_NL) → (line ++ [CH_NL]).length ≤ NMEA_MAX_SIZE →
      (nmea_reader_feed env (nmea_reader_addc env r CH_NL).1 (line ++ [CH_NL])).2
        = [line ++ [CH_NL]] := by
  have key : (nmea_reader_addc env r CH_NL).1.overflow = 0 ∧
      (nmea_reader_addc env r CH_NL).1.pos = 0 ∧
      (nmea_reader_addc env r CH_NL).1.inb.length = NMEA_MAX_SIZE + 1 := by
    by_cases hov : r.overflow = 0
    · have hp : ¬ r.pos ≥ NMEA_MAX_SIZE + 1 - 1 := by
        simp only [NMEA_MAX_SIZE] at hpos ⊢; omega
      simp only [nmea_reader_addc, hov, hp, ne_eq, not_true_eq_false, if_false, if_true]
      refine ⟨?_, trivial, ?_⟩
      · rw [(parse_line_frame env _).overflow]
      · rw [(parse_line_frame env _).inb]; simpa using hbuf
    · simp only [nmea_reader_addc, hov, ne_eq, not_false_eq_true, not_true_eq_false, if_true,
        if_false]
      exact ⟨trivial, hinv hov, hbuf⟩
  obtain ⟨k1, k2, k3⟩ := key
  refine ⟨k1, k2, ?_⟩
  intro line hline hfits
  exact (feed_line env _ line k2 k1 k3 hline hfits).1

/-! ## Time and date sentence -/

/-- C6 fails on the code: fed the ZDA sentence of 4 July 2002, the reader stores
day 4 and month 7 but the year -1, because the year is read with
`str2int(tok_y.p, tok_y.end+4)`, four bytes past the token; a year that was
stored before is overwritten with -1 as well. -/
theorem zda_year_not_stored :
    (nmea_reader_feed stdEnv (nmea_reader_init stdEnv) zdaLine).2 = [zdaLine] ∧
    (nmea_tokenizer_get (nmea_tokenizer_init zdaLine 0 zdaLine.length) 4).bytes = bytes "2002" ∧
    (nmea_reader_feed stdEnv (nmea_reader_init stdEnv) zdaLine).1.utc_day = 4 ∧
    (nmea_reader_feed stdEnv (nmea_reader_init stdEnv) zdaLine).1.utc_mon = 7 ∧
    (nmea_reader_feed stdEnv (nmea_reader_init stdEnv) zdaLine).1.utc_year = -1 ∧
    (nmea_reader_feed stdEnv
      { nmea_reader_init stdEnv with utc_year := 2002, utc_mon := 7, utc_day := 3 }
      zdaLine).1.utc_year = -1 := by
  decide

/-! ## Satellites in view -/

set_option maxRecDepth 1000000

/-- The count that the loop of the GSV branch leaves: it grows by one per
iteration up to `noSatellites`, and stays within the array. -/
theorem gsv_loop_num_svs (env : Env) (tzer : NmeaTokenizer) (noSat : Int) (k : Nat) :
    ∀ (i : Nat) (st : GsvLoop), 0 ≤ st.num_svs → st.num_svs + k ≤ (GPS_MAX_SVS : Int) →
      (gsv_loop env tzer noSat k i st).num_svs = max st.num_svs (min (st.num_svs + k) noSat) := by
  induction k with
  | zero =>
    intro i st _ _
    simp only [gsv_loop, Nat.cast_zero, add_zero]
    omega
  | succ k ih =>
    intro i st h0 h1
    simp only [GPS_MAX_SVS, Nat.cast_succ, Nat.cast_ofNat] at h1 ih ⊢
    unfold gsv_loop
    simp only [GPS_MAX_SVS, Nat.cast_ofNat]
    by_cases hlt : st.num_svs < noSat
    · have hw : wrap32 (st.num_svs + 1) = st.num_svs + 1 :=
        wrap32_of_range _ (by omega) (by omega)
      have hn : ¬ (st.num_svs + 1 > 32) := by omega
      simp only [hlt, if_true, hw, hn, if_false]
      rw [ih _ _ (by simp only; omega) (by simp only; omega)]
      simp only
      omega
    · simp only [hlt, if_false]
      omega

/-- The loop of the GSV branch keeps the count between 0 and `GPS_MAX_SVS`. -/
theorem gsv_loop_bounded (env : Env) (tzer : NmeaTokenizer) (noSat : Int) (k : Nat) :
    ∀ (i : Nat) (st : GsvLoop), 0 ≤ st.num_svs → st.num_svs ≤ (GPS_MAX_SVS : Int) →
      0 ≤ (gsv_loop env tzer noSat k i st).num_svs ∧
      (gsv_loop env tzer noSat k i st).num_svs ≤ (GPS_MAX_SVS : Int) := by
  induction k with
  | zero => intro i st h0 h1; exact ⟨h0, h1⟩
  | succ k ih =>
    intro i st h0 h1
    simp only [GPS_MAX_SVS, Nat.cast_ofNat] at h1 ih ⊢
    unfold gsv_loop
    simp only [GPS_MAX_SVS, Nat.cast_ofNat]
    by_cases hlt : st.num_svs < noSat
    · simp only [hlt, if_true]
      apply ih
      · simp only
        split_ifs with hc
        · omega
        · unfold wrap32 at hc ⊢; omega
      · simp only
        split_ifs with hc
        · omega
        · omega
    · simp only [hlt, if_false]
      exact ⟨h0, h1⟩

theorem gsa_prn_step_num_svs (b : Bool) (tzer : NmeaTokenizer) (r : NmeaReader) (i : Nat) :
    (gsa_prn_step b tzer r i).sv_status.num_svs = r.sv_status.num_svs := by
  unfold gsa_prn_step
  simp only
  split_ifs <;> rfl

theorem gsa_prn_fold_num_svs (b : Bool) (tzer : NmeaTokenizer) (l : List Nat) :
    ∀ r, (l.foldl (gsa_prn_step b tzer) r).sv_status.num_svs = r.sv_status.num_svs := by
  induction l with
  | nil => intro r; rfl
  | cons i l ih =>
    intro r
    rw [List.foldl_cons, ih, gsa_prn_step_num_svs]

theorem parse_gsa_num_svs (env : Env) (b : Bool) (tzer : NmeaTokenizer) (r : NmeaReader) :
    (parse_gsa env b tzer r).sv_status.num_svs = r.sv_status.num_svs := by
  unfold parse_gsa
  simp only
  split_ifs
  · rw [gsa_prn_fold_num_svs]
    simp only
    rw [(update_accuracy_frame env r _).sv_status]
  · rw [gsa_prn_fold_num_svs, (update_accuracy_frame env r _).sv_status]
  · rfl
  · rfl
  · rfl

theorem parse_gsv_bounded (env : Env) (b : Bool) (tzer : NmeaTokenizer) (r : NmeaReader)
    (h0 : 0 ≤ r.sv_status.num_svs) (h1 : r.sv_status.num_svs ≤ (GPS_MAX_SVS : Int)) :
    0 ≤ (parse_gsv env b tzer r).sv_status.num_svs ∧
    (parse_gsv env b tzer r).sv_status.num_svs ≤ (GPS_MAX_SVS : Int) := by
  unfold parse_gsv parse_gsv_loop
  simp only
  split_ifs <;>
    first
    | exact ⟨h0, h1⟩
    | exact gsv_loop_bounded env tzer _ 4 0 _ h0 h1
    | exact gsv_loop_bounded env tzer _ 4 0 _ (le_refl _) (by simp [GPS_MAX_SVS])

/-- One call of the parser keeps the satellite count between 0 and
`GPS_MAX_SVS`. -/
theorem parse_num_svs_bounded (env : Env) (r : NmeaReader)
    (h0 : 0 ≤ r.sv_status.num_svs) (h1 : r.sv_status.num_svs ≤ (GPS_MAX_SVS : Int)) :
    0 ≤ (nmea_reader_parse env r).sv_status.num_svs ∧
    (nmea_reader_parse env r).sv_status.num_svs ≤ (GPS_MAX_SVS : Int) := by
  unfold nmea_reader_parse
  simp only
  split_ifs
  · exact ⟨h0, h1⟩
  · exact ⟨h0, h1⟩
  · rw [(parse_gga_frame env _ r).sv_status]; exact ⟨h0, h1⟩
  · rw [(parse_gll_frame env _ r).sv_status]; exact ⟨h0, h1⟩
  · rw [parse_gsa_num_svs]; exact ⟨h0, h1⟩
  · exact parse_gsv_bounded env _ _ r h0 h1
  · rw [(parse_rmc_frame env _ r).sv_status]; exact ⟨h0, h1⟩
  · rw [(parse_vtg_frame env _ r).sv_status]; exact ⟨h0, h1⟩
  · rw [(parse_zda_frame env _ r).sv_status]; exact ⟨h0, h1⟩
  · exact ⟨h0, h1⟩

/-- The publisher's sample leaves the satellite status as it is. -/
theorem timer_sample_sv_status (s : GpsState) :
    (gps_timer_sample s).1.reader.sv_status = s.reader.sv_status := by
  unfold gps_timer_sample
  simp only
  split_ifs <;> rfl

/-- C7: in every reader state reachable from `nmea_reader_init` by any sequence
of parsed sentences, the satellite count `sv_status.num_svs` lies between 0 and
`GPS_MAX_SVS`. -/
theorem num_svs_bounded (r : NmeaReader) (h : Reachable r) :
    0 ≤ r.sv_status.num_svs ∧ r.sv_status.num_svs ≤ (GPS_MAX_SVS : Int) := by
  induction h with
  | init env => simp [nmea_reader_init, GPS_MAX_SVS]
  | line r buf pos overflow _ ih => exact ih
  | parse env r _ ih => exact parse_num_svs_bounded env r ih.1 ih.2
  | sample s _ ih => rw [timer_sample_sv_status]; exact ih

theorem num_svs_bounded_witness :
    0 ≤ (nmea_reader_parse stdEnv
        { nmea_reader_init stdEnv with inb := gsvLine1, pos := gsvLine1.length, overflow := 0 }
      ).sv_status.num_svs ∧
    (nmea_reader_parse stdEnv
        { nmea_reader_init stdEnv with inb := gsvLine1, pos := gsvLine1.length, overflow := 0 }
      ).sv_status.num_svs ≤ (GPS_MAX_SVS : Int) :=
  num_svs_bounded _
    (Reachable.parse stdEnv _
      (Reachable.line _ gsvLine1 gsvLine1.length 0 (Reachable.init stdEnv)))

/-- Every state that `nmea_reader_addc` produces from a reachable one is
reachable. -/
theorem addc_reachable (env : Env) (r : NmeaReader) (c : Nat) (h : Reachable r) :
    Reachable (nmea_reader_addc env r c).1 := by
  unfold nmea_reader_addc
  by_cases h1 : r.overflow ≠ 0
  · rw [if_pos h1]
    exact Reachable.line r r.inb r.pos _ h
  · rw [if_neg h1]
    by_cases h2 : r.pos ≥ NMEA_MAX_SIZE + 1 - 1
    · rw [if_pos h2]
      exact Reachable.line r r.inb 0 1 h
    · rw [if_neg h2]
      by_cases h3 : c = CH_NL
      · simp only [h3, if_true]
        exact Reachable.line _ _ 0 _ (Reachable.parse env _
          (Reachable.line r (r.inb.set r.pos CH_NL) (r.pos + 1) r.overflow h))
      · simp only [h3, if_false]
        exact Reachable.line r (r.inb.set r.pos c) (r.pos + 1) r.overflow h

/-- The parser dispatches a GSV sentence to the GSV branch. -/
theorem parse_of_isGsv (env : Env) (r : NmeaReader) (buf : List Nat) (pos : Nat) (bd : Bool)
    (total idx n : Int) (h : IsGsv buf pos bd total idx n) :
    nmea_reader_parse env (r.setLine buf pos)
      = parse_gsv env bd (nmea_tokenizer_init buf 0 pos) (r.setLine buf pos) := by
  obtain ⟨h9, h5, hbd, hty, _, _, _⟩ := h
  unfold lineTok at h5 hbd hty
  have hspan : readSpan (nmea_tokenizer_get (nmea_tokenizer_init buf 0 pos) 0).mem
      ((nmea_tokenizer_get (nmea_tokenizer_init buf 0 pos) 0).p + 2)
      ((nmea_tokenizer_get (nmea_tokenizer_init buf 0 pos) 0).p + 2 + 3) = [71, 83, 86] := by
    simpa [memcmp_eq] using hty
  unfold nmea_reader_parse
  simp only [NmeaReader.setLine, reader_tzer]
  have h9' : ¬ pos < 9 := by omega
  have h5' : ¬ (nmea_tokenizer_get (nmea_tokenizer_init buf 0 pos) 0).p + 5
      > (nmea_tokenizer_get (nmea_tokenizer_init buf 0 pos) 0).end_ := by omega
  simp only [h9', h5', if_false, hbd]
  simp [memcmp_eq, hspan]

/-- The count after a GSV sentence of the primary talker with index 1 and a
positive number of satellites declared. -/
theorem gsv_first_count (env : Env) (r : NmeaReader) (buf : List Nat) (pos : Nat)
    (total n : Int) (h : IsGsv buf pos false total 1 n) (hn : 1 ≤ n) :
    (nmea_reader_parse env (r.setLine buf pos)).sv_status.num_svs = min 4 n := by
  rw [parse_of_isGsv env r buf pos false total 1 n h]
  obtain ⟨_, _, _, _, _, hidx, hcnt⟩ := h
  unfold lineTok Token.int at hidx hcnt
  unfold parse_gsv parse_gsv_loop
  simp only [hidx, hcnt, NmeaReader.setLine]
  have hpos : n > 0 := by omega
  simp only [hpos, if_true]
  simp only [Bool.not_false, and_self, if_true, Bool.false_eq_true, and_false, if_false]
  rw [gsv_loop_num_svs env _ n 4 0 _ (le_refl _) (by simp [GPS_MAX_SVS])]
  simp only
  omega

/-- The count after a GSV sentence of the primary talker with an index other
than 1, when four more records fit. -/
theorem gsv_next_count (env : Env) (r : NmeaReader) (buf : List Nat) (pos : Nat)
    (total idx n : Int) (h : IsGsv buf pos false total idx n) (hn : 1 ≤ n) (hidx1 : idx ≠ 1)
    (h0 : 0 ≤ r.sv_status.num_svs) (h1 : r.sv_status.num_svs + 4 ≤ (GPS_MAX_SVS : Int)) :
    (nmea_reader_parse env (r.setLine buf pos)).sv_status.num_svs
      = max r.sv_status.num_svs (min (r.sv_status.num_svs + 4) n) := by
  rw [parse_of_isGsv env r buf pos false total idx n h]
  obtain ⟨_, _, _, _, _, hidx, hcnt⟩ := h
  unfold lineTok Token.int at hidx hcnt
  unfold parse_gsv parse_gsv_loop
  simp only [hidx, hcnt, NmeaReader.setLine]
  have hpos : n > 0 := by omega
  simp only [hpos, if_true, hidx1, false_and, if_false]
  simp only [Bool.false_eq_true, and_false, if_false]
  rw [gsv_loop_num_svs env _ n 4 0 _ h0 (by simpa using h1)]
  simp

/-- C8, as stated, fails in its second part: after the three sentences of a
primary-talker group the count is 11; the primary-talker sentence with index 1
that declares 0 satellites does not restart the count, which stays 11 and is not
min(4, 0) = 0. -/
theorem gsv_restart_counterexample :
    IsGsv gsvNoneLine gsvNoneLine.length false 1 1 0 ∧
    (nmea_reader_feed stdEnv (nmea_reader_init stdEnv)
      (gsvLine1 ++ gsvLine2 ++ gsvLine3)).1.sv_status.num_svs = 11 ∧
    (nmea_reader_feed stdEnv (nmea_reader_init stdEnv)
      (gsvLine1 ++ gsvLine2 ++ gsvLine3 ++ gsvNoneLine)).2
      = [gsvLine1, gsvLine2, gsvLine3, gsvNoneLine] ∧
    (nmea_reader_feed stdEnv (nmea_reader_init stdEnv)
      (gsvLine1 ++ gsvLine2 ++ gsvLine3 ++ gsvNoneLine)).1.sv_status.num_svs = 11 := by
  decide

/-- C8, amended: for a primary-talker GSV group of three sentences (total 3,
indices 1, 2, 3) declaring `n` satellites with 9 <= n <= 12, parsed from any
reader state, the satellite count after the sentences is 4, then 8, then `n`;
and a primary-talker sentence with index 1 that declares `m >= 1` satellites,
parsed from any reader state, leaves the count min(4, m). -/
theorem gsv_group_counts (env1 env2 env3 env4 : Env) (r : NmeaReader)
    (b1 b2 b3 b4 : List Nat) (p1 p2 p3 p4 : Nat) (n total m : Int)
    (hn9 : 9 ≤ n) (hn12 : n ≤ 12)
    (h1 : IsGsv b1 p1 false 3 1 n) (h2 : IsGsv b2 p2 false 3 2 n)
    (h3 : IsGsv b3 p3 false 3 3 n)
    (h4 : IsGsv b4 p4 false total 1 m) (hm : 1 ≤ m) :
    (nmea_reader_parse env1 (r.setLine b1 p1)).sv_status.num_svs = 4 ∧
    (nmea_reader_parse env2
      ((nmea_reader_parse env1 (r.setLine b1 p1)).setLine b2 p2)).sv_status.num_svs = 8 ∧
    (nmea_reader_parse env3
      ((nmea_reader_parse env2
        ((nmea_reader_parse env1 (r.setLine b1 p1)).setLine b2 p2)).setLine b3 p3)
      ).sv_status.num_svs = n ∧
    ∀ q : NmeaReader, (nmea_reader_parse env4 (q.setLine b4 p4)).sv_status.num_svs = min 4 m := by
  have c1 : (nmea_reader_parse env1 (r.setLine b1 p1)).sv_status.num_svs = 4 := by
    rw [gsv_first_count env1 r b1 p1 3 n h1 (by omega)]
    omega
  have c2 : (nmea_reader_parse env2
      ((nmea_reader_parse env1 (r.setLine b1 p1)).setLine b2 p2)).sv_status.num_svs = 8 := by
    rw [gsv_next_count env2 _ b2 p2 3 2 n h2 (by omega) (by decide)
      (by rw [c1]; decide) (by rw [c1]; decide), c1]
    omega
  refine ⟨c1, c2, ?_, ?_⟩
  · rw [gsv_next_count env3 _ b3 p3 3 3 n h3 (by omega) (by decide)
      (by rw [c2]; decide) (by rw [c2]; decide), c2]
    omega
  · intro q
    exact gsv_first_count env4 q b4 p4 total m h4 hm

theorem gsv_group_counts_witness :
    (nmea_reader_parse stdEnv
      ((nmea_reader_init stdEnv).setLine gsvLine1 gsvLine1.length)).sv_status.num_svs = 4 ∧
    (nmea_reader_parse stdEnv
      ((nmea_reader_parse stdEnv
        ((nmea_reader_init stdEnv).setLine gsvLine1 gsvLine1.length)).setLine
          gsvLine2 gsvLine2.length)).sv_status.num_svs = 8 ∧
    (nmea_reader_parse stdEnv
      ((nmea_reader_parse stdEnv
        ((nmea_reader_parse stdEnv
          ((nmea_reader_init stdEnv).setLine gsvLine1 gsvLine1.length)).setLine
            gsvLine2 gsvLine2.length)).setLine gsvLine3 gsvLine3.length)
      ).sv_status.num_svs = 11 ∧
    ∀ q : NmeaReader,
      (nmea_reader_parse stdEnv (q.setLine gsvLine1 gsvLine1.length)).sv_status.num_svs
        = min 4 11 :=
  gsv_group_counts stdEnv stdEnv stdEnv stdEnv (nmea_reader_init stdEnv)
    gsvLine1 gsvLine2 gsvLine3 gsvLine1 gsvLine1.length gsvLine2.length gsvLine3.length
    gsvLine1.length 11 3 11 (by decide) (by decide) (by decide) (by decide) (by decide)
    (by decide) (by decide)

/-! ## Publisher -/

/-- C9: with the location and satellite-status callbacks set, for every state,
two samples of the publisher in a row (nothing parsed in between) hand the fix
to the host at most once and the satellite status at most once: after the first
sample the position-valid bit and the changed flag are clear, and the second
sample makes no callback. -/
theorem timer_sample_twice (s : GpsState)
    (hloc : s.callbacks.location_cb = true) (hsv : s.callbacks.sv_status_cb = true) :
    (gps_timer_sample s).1.reader.fix.flags &&& GPS_LOCATION_HAS_LAT_LONG = 0 ∧
    (gps_timer_sample s).1.reader.sv_status_changed = 0 ∧
    (gps_timer_sample (gps_timer_sample s).1).2 = [] ∧
    locationCount ((gps_timer_sample s).2 ++ (gps_timer_sample (gps_timer_sample s).1).2) ≤ 1 ∧
    svStatusCount ((gps_timer_sample s).2 ++ (gps_timer_sample (gps_timer_sample s).1).2) ≤ 1 := by
  have key : (gps_timer_sample s).1.reader.fix.flags &&& GPS_LOCATION_HAS_LAT_LONG = 0 ∧
      (gps_timer_sample s).1.reader.sv_status_changed = 0 ∧
      (gps_timer_sample s).1.callbacks = s.callbacks ∧
      locationCount (gps_timer_sample s).2 ≤ 1 ∧ svStatusCount (gps_timer_sample s).2 ≤ 1 := by
    unfold gps_timer_sample
    simp only [hloc, hsv, if_true]
    by_cases hf : s.reader.fix.flags &&& GPS_LOCATION_HAS_LAT_LONG = 0 <;>
      by_cases hc : s.reader.sv_status_changed = 0 <;>
      by_cases hq : s.fix_freq = 0 <;>
      simp [hf, hc, hq, hsv, locationCount, svStatusCount]
  obtain ⟨k1, k2, k3, k4, k5⟩ := key
  have second : (gps_timer_sample (gps_timer_sample s).1).2 = [] := by
    generalize (gps_timer_sample s).1 = s1 at k1 k2 k3
    unfold gps_timer_sample
    simp [k1, k2]
  refine ⟨k1, k2, second, ?_, ?_⟩
  · rw [second, List.append_nil]; exact k4
  · rw [second, List.append_nil]; exact k5

theorem timer_sample_twice_witness :
    (gps_timer_sample pendingState).1.reader.fix.flags &&& GPS_LOCATION_HAS_LAT_LONG = 0 ∧
    (gps_timer_sample pendingState).1.reader.sv_status_changed = 0 ∧
    (gps_timer_sample (gps_timer_sample pendingState).1).2 = [] ∧
    locationCount ((gps_timer_sample pendingState).2
      ++ (gps_timer_sample (gps_timer_sample pendingState).1).2) ≤ 1 ∧
    svStatusCount ((gps_timer_sample pendingState).2
      ++ (gps_timer_sample (gps_timer_sample pendingState).1).2) ≤ 1 :=
  timer_sample_twice pendingState (by decide) (by decide)

/-! ## Time map -/

/-- C10: `nmea_reader_update_timemap` returns -1 and sets `timemap.valid` to 0
whenever the local-clock token or the time token is empty; it returns 0 and sets
`timemap.valid` to 1 when both are non-empty, the time token has at least 6
bytes and a date is stored (`utc_year >= 0`); and an update that fails after one
that succeeded sets `timemap.valid` back to 0. -/
theorem update_timemap_valid (env env2 : Env) (r : NmeaReader)
    (systime_tok timestamp_tok systime_tok2 timestamp_tok2 : Token) :
    ((systime_tok.p ≥ systime_tok.end_ ∨ timestamp_tok.p ≥ timestamp_tok.end_) →
      (nmea_reader_update_timemap env r systime_tok timestamp_tok).1 = -1 ∧
      (nmea_reader_update_timemap env r systime_tok timestamp_tok).2.timemap.valid = 0) ∧
    (systime_tok.p < systime_tok.end_ → timestamp_tok.p + 6 ≤ timestamp_tok.end_ →
      0 ≤ r.utc_year →
      (nmea_reader_update_timemap env r systime_tok timestamp_tok).1 = 0 ∧
      (nmea_reader_update_timemap env r systime_tok timestamp_tok).2.timemap.valid = 1) ∧
    ((nmea_reader_update_timemap env r systime_tok timestamp_tok).1 = 0 →
      (nmea_reader_update_timemap env2
        (nmea_reader_update_timemap env r systime_tok timestamp_tok).2
        systime_tok2 timestamp_tok2).1 ≠ 0 →
      (nmea_reader_update_timemap env2
        (nmea_reader_update_timemap env r systime_tok timestamp_tok).2
        systime_tok2 timestamp_tok2).2.timemap.valid = 0) := by
  refine ⟨?_, ?_, ?_⟩
  · intro h
    unfold nmea_reader_update_timemap
    simp only [h, if_true, and_self]
  · intro h1 h2 h3
    have e1 : ¬ (systime_tok.p ≥ systime_tok.end_ ∨ timestamp_tok.p ≥ timestamp_tok.end_) := by
      omega
    have e2 : ¬ (timestamp_tok.p + 6 > timestamp_tok.end_) := by omega
    have e3 : ¬ (r.utc_year < 0) := by omega
    unfold nmea_reader_update_timemap nmea_reader_get_timestamp
    simp only [e1, e2, e3, if_false, and_self]
  · intro _ hfail
    generalize (nmea_reader_update_timemap env r systime_tok timestamp_tok).2 = r1 at hfail ⊢
    unfold nmea_reader_update_timemap at hfail ⊢
    by_cases hc : systime_tok2.p ≥ systime_tok2.end_ ∨ timestamp_tok2.p ≥ timestamp_tok2.end_
    · simp only [hc, if_true]
    · simp only [hc, if_false] at hfail ⊢
      cases hts : nmea_reader_get_timestamp env2 r1 timestamp_tok2 with
      | none => simp only [hts]
      | some v =>
        simp only [hts] at hfail
        exact absurd rfl hfail

theorem update_timemap_valid_witness :
    (nmea_reader_update_timemap stdEnv datedReader systimeTok timeTok).1 = 0 ∧
    (nmea_reader_update_timemap stdEnv datedReader systimeTok timeTok).2.timemap.valid = 1 ∧
    (nmea_reader_update_timemap stdEnv
      (nmea_reader_update_timemap stdEnv datedReader systimeTok timeTok).2
      systimeTok emptyTok).1 = -1 ∧
    (nmea_reader_update_timemap stdEnv
      (nmea_reader_update_timemap stdEnv datedReader systimeTok timeTok).2
      systimeTok emptyTok).2.timemap.valid = 0 :=
  ⟨((update_timemap_valid stdEnv stdEnv datedReader systimeTok timeTok systimeTok emptyTok).2.1
      (by decide) (by decide) (by decide)).1,
   ((update_timemap_valid stdEnv stdEnv datedReader systimeTok timeTok systimeTok emptyTok).2.1
      (by decide) (by decide) (by decide)).2,
   ((update_timemap_valid stdEnv stdEnv
      (nmea_reader_update_timemap stdEnv datedReader systimeTok timeTok).2
      systimeTok emptyTok systimeTok emptyTok).1 (Or.inr (by decide))).1,
   ((update_timemap_valid stdEnv stdEnv
      (nmea_reader_update_timemap stdEnv datedReader systimeTok timeTok).2
      systimeTok emptyTok systimeTok emptyTok).1 (Or.inr (by decide))).2⟩

/-! ## Where the tokens end -/

set_option maxRecDepth 1000000

/-- Every token that the loop of the tokenizer stores lies inside `[p, e)` and
ends at `e` or at a comma. -/
theorem tokenizer_loop_ends (buf : List Nat) (e : Nat) (fuel : Nat) :
    ∀ (p : Nat) (toks : List (Nat × Nat)),
      (∀ t ∈ toks, t.1 ≤ t.2 ∧ t.2 ≤ e ∧ (t.2 < e → readByte buf t.2 = CH_COMMA)) →
      ∀ t ∈ tokenizer_loop buf e fuel p toks,
        t.1 ≤ t.2 ∧ t.2 ≤ e ∧ (t.2 < e → readByte buf t.2 = CH_COMMA) := by
  induction fuel with
  | zero => intro p toks h; simpa [tokenizer_loop] using h
  | succ fuel ih =>
    intro p toks h
    unfold tokenizer_loop
    by_cases hpe : p < e
    · simp only [hpe, if_true]
      apply ih
      intro t ht
      split_ifs at ht with hcap
      · rcases List.mem_append.mp ht with h1 | h1
        · exact h t h1
        · simp only [List.mem_singleton] at h1
          subst h1
          cases hm : memchr buf CH_COMMA p (e - p) with
          | none => exact ⟨by simp only; omega, le_refl _, fun hlt => absurd hlt (lt_irrefl _)⟩
          | some q =>
            obtain ⟨hq1, hq2, hq3, _⟩ := memchr_some buf CH_COMMA (e - p) p q hm
            exact ⟨hq1, by simp only; omega, fun _ => hq3⟩
      · exact h t ht
    · simp only [hpe, if_false]
      exact h

/-- On a line that ends with `'\n'`, the end pointer left by the strips of
`nmea_tokenizer_init` points at `'\n'`, `'\r'` or `'*'`. -/
theorem strip_end_byte (buf : List Nat) (pos : Nat) (hpos : 1 ≤ pos)
    (hnl : readByte buf (pos - 1) = CH_NL) :
    (readByte buf (strip_checksum buf (strip_dollar buf 0 pos)
        (strip_newline buf (strip_dollar buf 0 pos) pos)) = CH_NL ∨
      readByte buf (strip_checksum buf (strip_dollar buf 0 pos)
        (strip_newline buf (strip_dollar buf 0 pos) pos)) = CH_CR ∨
      readByte buf (strip_checksum buf (strip_dollar buf 0 pos)
        (strip_newline buf (strip_dollar buf 0 pos) pos)) = CH_STAR) := by
  have hp1 : strip_dollar buf 0 pos < pos := by
    unfold strip_dollar
    split_ifs with h
    · -- the line starts with '$' and ends with '\n': at least two bytes
      have : pos ≠ 1 := by
        intro h1
        rw [h1] at hnl
        simp only [Nat.sub_self] at hnl
        rw [hnl] at h
        exact absurd h.2 (by decide)
      omega
    · omega
  generalize strip_dollar buf 0 pos = p1 at hp1 ⊢
  have hs : (strip_newline buf p1 pos = pos - 1 ∧ readByte buf (pos - 1) = CH_NL) ∨
      (strip_newline buf p1 pos = pos - 2 ∧ 2 ≤ pos ∧ readByte buf (pos - 2) = CH_CR) := by
    unfold strip_newline
    have : pos > p1 ∧ readByte buf (pos - 1) = CH_NL := ⟨hp1, hnl⟩
    rw [if_pos this]
    split_ifs with h2
    · exact Or.inr ⟨rfl, by omega, h2.2⟩
    · exact Or.inl ⟨rfl, hnl⟩
  generalize strip_newline buf p1 pos = e1 at hs ⊢
  unfold strip_checksum
  split_ifs with h3
  · exact Or.inr (Or.inr h3.2)
  · rcases hs with ⟨h, hb⟩ | ⟨h, _, hb⟩
    · rw [h]; exact Or.inl hb
    · rw [h]; exact Or.inr (Or.inl hb)

/-- On a line that ends with `'\n'`, the byte at the end of every token of the
line is `','`, `'\n'`, `'\r'` or `'*'`: no digit. -/
theorem token_end_byte (buf : List Nat) (pos i : Nat) (hpos : 1 ≤ pos)
    (hnl : readByte buf (pos - 1) = CH_NL) (p e : Nat)
    (ht : (nmea_tokenizer_init buf 0 pos).tokens.get? i = some (p, e)) :
    p ≤ e ∧ isDigitByte (readByte buf e) = false := by
  have hend := strip_end_byte buf pos hpos hnl
  unfold nmea_tokenizer_init at ht
  simp only at ht
  generalize strip_checksum buf (strip_dollar buf 0 pos)
    (strip_newline buf (strip_dollar buf 0 pos) pos) = e2 at hend ht
  have hmem := List.get?_mem ht
  obtain ⟨h1, h2, h3⟩ := tokenizer_loop_ends buf e2 _ _ [] (by simp) (p, e) hmem
  refine ⟨h1, ?_⟩
  simp only at h2 h3
  by_cases hlt : e < e2
  · rw [h3 hlt]; decide
  · have : e = e2 := by omega
    rw [this]
    rcases hend with h | h | h <;> rw [h] <;> decide

/-- A span that runs over a byte that is no digit does not decode. -/
theorem str2int_of_nondigit (mem : List Nat) (p e k : Nat) (hpk : p ≤ k) (hke : k < e)
    (hk : isDigitByte (readByte mem k) = false) : str2int mem p e = -1 := by
  obtain ⟨len, rfl⟩ : ∃ len, e = p + len := ⟨e - p, by omega⟩
  have hex : ∃ b ∈ readSpan mem p (p + len), isDigitByte b = false := by
    refine ⟨readByte mem k, ?_, hk⟩
    simp only [readSpan, List.mem_map, List.mem_range]
    exact ⟨k - p, by omega, by congr 1; omega⟩
  have hloop := str2int_loop_nondigit mem len p 0 hex
  have hl : ((p + len : Nat) : Int) - (p : Int) = (len : Int) := by push_cast; ring
  simp only [str2int, hl, Int.toNat_ofNat, hloop]
  split <;> rfl

/-- A token with a positive length is a token of the line, not the dummy. -/
theorem token_in_range (t : NmeaTokenizer) (i : Nat)
    (h : (nmea_tokenizer_get t i).p < (nmea_tokenizer_get t i).end_) :
    t.tokens.get? i = some ((nmea_tokenizer_get t i).p, (nmea_tokenizer_get t i).end_) ∧
    (nmea_tokenizer_get t i).mem = t.buf := by
  unfold nmea_tokenizer_get at h ⊢
  cases hg : t.tokens.get? i with
  | none =>
    rw [hg] at h
    simp [dummyToken] at h
  | some pe => simp

/-- The time update fails when no year is stored. -/
theorem update_time_of_no_year (env : Env) (r : NmeaReader) (tok : Token)
    (h : r.utc_year < 0) : nmea_reader_update_time env r tok = (-1, r) := by
  unfold nmea_reader_update_time nmea_reader_get_timestamp
  simp only [h, if_true]
  split_ifs <;> rfl

/-- Every ZDA sentence that `nmea_reader_addc` hands to the parser (a line that
ends with `'\n'`) and that has a day, a month and a year field of at least 2, 2
and 4 bytes leaves the stored year at -1: the span `tok_y.p .. tok_y.end+4`
always runs over the byte after the year field, which is no digit. -/
theorem zda_year_always_lost (env : Env) (r : NmeaReader)
    (hnl : readByte r.inb (r.pos - 1) = CH_NL) (h9 : 9 ≤ r.pos)
    (h5 : (nmea_tokenizer_get (reader_tzer r) 0).p + 5
      ≤ (nmea_tokenizer_get (reader_tzer r) 0).end_)
    (hty : memcmp_eq (nmea_tokenizer_get (reader_tzer r) 0) 2 [90, 68, 65] = true)
    (hy0 : (nmea_tokenizer_get (reader_tzer r) 4).at 0 ≠ 0)
    (hd : (nmea_tokenizer_get (reader_tzer r) 2).p + 2
      ≤ (nmea_tokenizer_get (reader_tzer r) 2).end_)
    (hm : (nmea_tokenizer_get (reader_tzer r) 3).p + 2
      ≤ (nmea_tokenizer_get (reader_tzer r) 3).end_)
    (hy : (nmea_tokenizer_get (reader_tzer r) 4).p + 4
      ≤ (nmea_tokenizer_get (reader_tzer r) 4).end_) :
    (nmea_reader_parse env r).utc_year = -1 := by
  -- the year token is a token of the line, and a non-digit follows it
  obtain ⟨hget, hmem⟩ := token_in_range (reader_tzer r) 4 (by omega)
  have hbuf : (reader_tzer r).buf = r.inb := rfl
  obtain ⟨_, hnd⟩ := token_end_byte r.inb r.pos 4 (by omega) hnl _ _ hget
  have hyear : str2int (nmea_tokenizer_get (reader_tzer r) 4).mem
      (nmea_tokenizer_get (reader_tzer r) 4).p
      ((nmea_tokenizer_get (reader_tzer r) 4).end_ + 4) = -1 := by
    rw [hmem, hbuf]
    exact str2int_of_nondigit _ _ _ _ (by omega) (by omega) hnd
  -- dispatch
  have hspan : readSpan (nmea_tokenizer_get (reader_tzer r) 0).mem
      ((nmea_tokenizer_get (reader_tzer r) 0).p + 2)
      ((nmea_tokenizer_get (reader_tzer r) 0).p + 2 + 3) = [90, 68, 65] := by
    simpa [memcmp_eq] using hty
  have h9' : ¬ r.pos < 9 := by omega
  have h5' : ¬ (nmea_tokenizer_get (reader_tzer r) 0).p + 5
      > (nmea_tokenizer_get (reader_tzer r) 0).end_ := by omega
  have hdisp : nmea_reader_parse env r = parse_zda env (reader_tzer r) r := by
    unfold nmea_reader_parse
    simp only [h9', h5', if_false]
    simp [memcmp_eq, hspan]
  rw [hdisp]
  unfold parse_zda
  simp only [hy0, ne_eq, not_false_eq_true, if_true]
  have hc : ¬ ((nmea_tokenizer_get (reader_tzer r) 2).p + 2
        > (nmea_tokenizer_get (reader_tzer r) 2).end_ ∨
      (nmea_tokenizer_get (reader_tzer r) 3).p + 2
        > (nmea_tokenizer_get (reader_tzer r) 3).end_ ∨
      (nmea_tokenizer_get (reader_tzer r) 4).p + 4
        > (nmea_tokenizer_get (reader_tzer r) 4).end_) := by omega
  have hcd : (nmea_reader_update_cdate r (nmea_tokenizer_get (reader_tzer r) 2)
      (nmea_tokenizer_get (reader_tzer r) 3) (nmea_tokenizer_get (reader_tzer r) 4)).2.utc_year
      = -1 := by
    unfold nmea_reader_update_cdate
    simp only [hc, if_false, hyear]
  split_ifs
  · exact hcd
  · rw [update_time_of_no_year env _ _ (by rw [hcd]; decide)]
    exact hcd

/-- The ZDA sentence of 4 July 2002 is such a sentence: parsed by a reader that
holds the year 2002, it leaves the year -1. -/
theorem zda_year_always_lost_example :
    (nmea_reader_parse stdEnv (datedReader.withLine zdaLine)).utc_year = -1 :=
  zda_year_always_lost stdEnv (datedReader.withLine zdaLine) (by decide) (by decide)
    (by decide) (by decide) (by decide) (by decide) (by decide) (by decide)

/-! ## Time of day -/

set_option maxRecDepth 1000000

/-- The time update fails on a token of fewer than 6 bytes. -/
theorem update_time_of_short (env : Env) (r : NmeaReader) (tok : Token)
    (h : tok.p + 6 > tok.end_) : nmea_reader_update_time env r tok = (-1, r) := by
  unfold nmea_reader_update_time nmea_reader_get_timestamp
  simp only [h, if_true]

/-- C11: for every reader whose date is unset (`utc_year < 0`, as right after
`nmea_reader_init`) and every time token, and for every time token shorter than
6 bytes whatever the date, `nmea_reader_update_time` returns -1 and leaves
`fix.timestamp` (and the whole reader) as it was. -/
theorem update_time_fails (env : Env) (r : NmeaReader) (tok : Token)
    (h : r.utc_year < 0 ∨ tok.p + 6 > tok.end_) :
    (nmea_reader_update_time env r tok).1 = -1 ∧
    (nmea_reader_update_time env r tok).2.fix.timestamp = r.fix.timestamp ∧
    (nmea_reader_update_time env r tok).2 = r ∧
    (nmea_reader_init env).utc_year < 0 := by
  have key : nmea_reader_update_time env r tok = (-1, r) := by
    rcases h with h | h
    · exact update_time_of_no_year env r tok h
    · exact update_time_of_short env r tok h
  rw [key]
  exact ⟨rfl, rfl, rfl, by simp [nmea_reader_init]⟩

theorem update_time_fails_witness :
    (nmea_reader_update_time stdEnv (nmea_reader_init stdEnv) timeTok).1 = -1 ∧
    (nmea_reader_update_time stdEnv (nmea_reader_init stdEnv) timeTok).2.fix.timestamp
      = (nmea_reader_init stdEnv).fix.timestamp ∧
    (nmea_reader_update_time stdEnv (nmea_reader_init stdEnv) timeTok).2
      = nmea_reader_init stdEnv ∧
    (nmea_reader_init stdEnv).utc_year < 0 :=
  update_time_fails stdEnv (nmea_reader_init stdEnv) timeTok (Or.inl (by decide))

/-! ## Decimal fields -/

/-- What `str2float` hands to `strtod` for a span `p <= end` of fewer than 31
bytes: the bytes of the span and the byte after it. -/
theorem str2float_eq (env : Env) (mem : List Nat) (p e : Nat) (hpe : p ≤ e) (hlen : e - p < 31) :
    str2float env mem p e = env.strtod (cstring (readSpan mem p (e + 1))) := by
  unfold str2float
  have h1 : ((e : Int) - (p : Int) + 1) = ((e + 1 - p : Nat) : Int) := by omega
  simp only [h1, Int.toNat_ofNat]
  have h2 : ¬ (((e + 1 - p : Nat) : Int) = 0) := by omega
  have h3 : ¬ (((e + 1 - p : Nat) : Int) ≥ 32) := by omega
  simp only [h2, h3, if_false]
  congr 3
  omega

/-- On an empty span `str2float` does not take its branch `len == 0`: `len` is
1, and the result is `strtod` of the one byte at `end`. -/
theorem str2float_empty_span (env : Env) (mem : List Nat) (p : Nat) :
    str2float env mem p p = env.strtod (cstring [readByte mem p]) := by
  rw [str2float_eq env mem p p (le_refl _) (by omega), readSpan_one]

/-- C13 fails on the code: on the empty field between the two commas of
`"12,,7"`, on the empty token that stands for a missing field, and on an empty
span in front of a digit, `str2float` returns 0, 0 and 7, not -1: with
`len = end - p + 1` the test `len == 0` never fires for a span, and the byte at
`end` is decoded. -/
theorem str2float_empty_not_sentinel :
    str2float stdEnv (bytes "12,,7") 3 3 = 0 ∧
    str2float stdEnv dummyToken.mem dummyToken.p dummyToken.end_ = 0 ∧
    str2float stdEnv (bytes "12,,7") 4 4 = 7 ∧
    str2float stdEnv (bytes "12,,7") 3 3 ≠ -1 := by
  have h1 : str2float stdEnv (bytes "12,,7") 3 3 = 0 := by
    rw [str2float_empty_span]
    have h : cstring [readByte (bytes "12,,7") 3] = [44] := by decide
    rw [h]
    simp [stdEnv, strtodDecimal, strtodUnsigned, isSpaceByte, isDigitByte, digitsValue]
  have h2 : str2float stdEnv dummyToken.mem dummyToken.p dummyToken.end_ = 0 := by
    have e : dummyToken.end_ = dummyToken.p := rfl
    rw [e, str2float_empty_span]
    have h : cstring [readByte dummyToken.mem dummyToken.p] = [] := by decide
    rw [h]
    simp [stdEnv, strtodDecimal, strtodUnsigned, isSpaceByte, isDigitByte, digitsValue]
  have h3 : str2float stdEnv (bytes "12,,7") 4 4 = 7 := by
    rw [str2float_empty_span]
    have h : cstring [readByte (bytes "12,,7") 4] = [55] := by decide
    rw [h]
    simp [stdEnv, strtodDecimal, strtodUnsigned, isSpaceByte, isDigitByte, digitsValue,
      Nat.ofDigits]
  refine ⟨h1, h2, h3, ?_⟩
  rw [h1]
  norm_num

/-! ## Coordinates -/

theorem or_one_and_one (x : Nat) : (x ||| 1) &&& 1 = 1 := by
  apply Nat.eq_of_testBit_eq
  intro i
  simp only [Nat.testBit_and, Nat.testBit_or]
  cases Nat.testBit 1 i <;> simp

/-- C14: if the latitude token or the longitude token is shorter than 6 bytes,
`nmea_reader_update_latlong` returns -1 and leaves `fix.flags`, `fix.latitude`
and `fix.longitude` (the whole reader) as they were, also when only one of the
two is too short; if both have at least 6 bytes it returns 0 and sets the
position-valid bit. -/
theorem update_latlong_short (env : Env) (r : NmeaReader) (latitude : Token)
    (latitudeHemi : Nat) (longitude : Token) (longitudeHemi : Nat) :
    ((latitude.p + 6 > latitude.end_ ∨ longitude.p + 6 > longitude.end_) →
      (nmea_reader_update_latlong env r latitude latitudeHemi longitude longitudeHemi).1 = -1 ∧
      (nmea_reader_update_latlong env r latitude latitudeHemi longitude longitudeHemi).2.fix.flags
        = r.fix.flags ∧
      (nmea_reader_update_latlong env r latitude latitudeHemi longitude
        longitudeHemi).2.fix.latitude = r.fix.latitude ∧
      (nmea_reader_update_latlong env r latitude latitudeHemi longitude
        longitudeHemi).2.fix.longitude = r.fix.longitude ∧
      (nmea_reader_update_latlong env r latitude latitudeHemi longitude longitudeHemi).2 = r) ∧
    (latitude.p + 6 ≤ latitude.end_ → longitude.p + 6 ≤ longitude.end_ →
      (nmea_reader_update_latlong env r latitude latitudeHemi longitude longitudeHemi).1 = 0 ∧
      (nmea_reader_update_latlong env r latitude latitudeHemi longitude longitudeHemi).2.fix.flags
        &&& GPS_LOCATION_HAS_LAT_LONG = GPS_LOCATION_HAS_LAT_LONG) := by
  constructor
  · intro h
    have key : nmea_reader_update_latlong env r latitude latitudeHemi longitude longitudeHemi
        = (-1, r) := by
      unfold nmea_reader_update_latlong
      by_cases h1 : latitude.p + 6 > latitude.end_
      · simp only [h1, if_true]
      · have h2 : longitude.p + 6 > longitude.end_ := by
          rcases h with h | h
          · exact absurd h h1
          · exact h
        simp only [h1, h2, if_false, if_true]
    rw [key]
    exact ⟨rfl, rfl, rfl, rfl, rfl⟩
  · intro h1 h2
    have e1 : ¬ (latitude.p + 6 > latitude.end_) := by omega
    have e2 : ¬ (longitude.p + 6 > longitude.end_) := by omega
    unfold nmea_reader_update_latlong
    simp only [e1, e2, if_false, GPS_LOCATION_HAS_LAT_LONG, or_one_and_one, and_self]

theorem update_latlong_short_witness :
    ((nmea_reader_update_latlong stdEnv (nmea_reader_init stdEnv) coordTok4845 78
        shortCoordTok 69).1 = -1 ∧
      (nmea_reader_update_latlong stdEnv (nmea_reader_init stdEnv) coordTok4845 78
        shortCoordTok 69).2.fix.flags = (nmea_reader_init stdEnv).fix.flags ∧
      (nmea_reader_update_latlong stdEnv (nmea_reader_init stdEnv) coordTok4845 78
        shortCoordTok 69).2.fix.latitude = (nmea_reader_init stdEnv).fix.latitude ∧
      (nmea_reader_update_latlong stdEnv (nmea_reader_init stdEnv) coordTok4845 78
        shortCoordTok 69).2.fix.longitude = (nmea_reader_init stdEnv).fix.longitude ∧
      (nmea_reader_update_latlong stdEnv (nmea_reader_init stdEnv) coordTok4845 78
        shortCoordTok 69).2 = nmea_reader_init stdEnv) ∧
    ((nmea_reader_update_latlong stdEnv (nmea_reader_init stdEnv) coordTok4845 78
        coordTok4805 69).1 = 0 ∧
      (nmea_reader_update_latlong stdEnv (nmea_reader_init stdEnv) coordTok4845 78
        coordTok4805 69).2.fix.flags &&& GPS_LOCATION_HAS_LAT_LONG
        = GPS_LOCATION_HAS_LAT_LONG) :=
  ⟨(update_latlong_short stdEnv (nmea_reader_init stdEnv) coordTok4845 78 shortCoordTok 69).1
      (Or.inr (by decide)),
   (update_latlong_short stdEnv (nmea_reader_init stdEnv) coordTok4845 78 coordTok4805 69).2
      (by decide) (by decide)⟩

/-- The value that `convert_from_hhmm` gives for a field of value `v` when the
`int` `(int)(floor(v) / 100)` is `d`. -/
theorem convert_from_hhmm_eval (env : Env) (tok : Token) (v : ℚ) (d : Int)
    (hv : str2float env tok.mem tok.p tok.end_ = v)
    (hd : doubleToInt env ((⌊v⌋ : ℚ) / 100) = d) :
    convert_from_hhmm env tok = (d : ℚ) + (v - (d : ℚ) * 100) / 60 := by
  unfold convert_from_hhmm
  simp only [hv, hd]

/-- The `int` `(int)(floor(v) / 100)` for `v = 100 * d + x` with `0 <= x < 100`
and `d` in the range of `int`: the whole hundreds `d`. -/
theorem doubleToInt_hundreds (env : Env) (d : Nat) (x : ℚ) (h0 : 0 ≤ x) (h1 : x < 100)
    (hd : d < 2147483648) :
    doubleToInt env ((⌊(100 : ℚ) * (d : ℚ) + x⌋ : ℚ) / 100) = (d : Int) := by
  have e : (100 : ℚ) * (d : ℚ) + x = (((100 * d : Nat) : Int) : ℚ) + x := by push_cast; ring
  have f0 : 0 ≤ ⌊x⌋ := Int.floor_nonneg.mpr h0
  have f1 : ⌊x⌋ < 100 := Int.floor_lt.mpr (by exact_mod_cast h1)
  have q0 : (0 : ℚ) ≤ ((⌊x⌋ : Int) : ℚ) := by exact_mod_cast f0
  have q1 : ((⌊x⌋ : Int) : ℚ) < 100 := by exact_mod_cast f1
  have qd : (0 : ℚ) ≤ (d : ℚ) := Nat.cast_nonneg d
  rw [e, Int.floor_int_add]
  have ht : truncToInt (((((100 * d : Nat) : Int) + ⌊x⌋ : Int) : ℚ) / 100) = (d : Int) := by
    unfold truncToInt
    have hnn : (0 : ℚ) ≤ ((((100 * d : Nat) : Int) + ⌊x⌋ : Int) : ℚ) / 100 := by
      push_cast
      linarith
    rw [if_pos hnn, Int.floor_eq_iff]
    push_cast
    constructor
    · linarith
    · linarith
  unfold doubleToInt
  rw [ht, if_pos ⟨by omega, by omega⟩]

/-- C12, as stated, fails: the field for 48 degrees and 45 minutes has the value
4845 and decodes to 48 + 45/60; the field for 47 degrees and 45 + 60 minutes has
the value 100 * 47 + 105 = 4805 and decodes to 48 + 5/60. -/
theorem convert_from_hhmm_shift_counterexample :
    str2float stdEnv coordTok4845.mem coordTok4845.p coordTok4845.end_ = 100 * 48 + 45 ∧
    str2float stdEnv coordTok4805.mem coordTok4805.p coordTok4805.end_
      = 100 * (48 - 1) + (45 + 60) ∧
    convert_from_hhmm stdEnv coordTok4845 = 48 + 45 / 60 ∧
    convert_from_hhmm stdEnv coordTok4805 = 48 + 5 / 60 ∧
    convert_from_hhmm stdEnv coordTok4845 ≠ convert_from_hhmm stdEnv coordTok4805 := by
  have v1 : str2float stdEnv coordTok4845.mem coordTok4845.p coordTok4845.end_ = 4845 := by
    rw [str2float_eq _ _ _ _ (by decide) (by decide)]
    have h : cstring (readSpan coordTok4845.mem coordTok4845.p (coordTok4845.end_ + 1))
        = [52, 56, 52, 53, 46, 48, 48, 48, 44] := by decide
    rw [h]
    simp [stdEnv, strtodDecimal, strtodUnsigned, isSpaceByte, isDigitByte, digitsValue,
      Nat.ofDigits]
    norm_num
  have v2 : str2float stdEnv coordTok4805.mem coordTok4805.p coordTok4805.end_ = 4805 := by
    rw [str2float_eq _ _ _ _ (by decide) (by decide)]
    have h : cstring (readSpan coordTok4805.mem coordTok4805.p (coordTok4805.end_ + 1))
        = [52, 56, 48, 53, 46, 48, 48, 48, 44] := by decide
    rw [h]
    simp [stdEnv, strtodDecimal, strtodUnsigned, isSpaceByte, isDigitByte, digitsValue,
      Nat.ofDigits]
    norm_num
  have c1 : convert_from_hhmm stdEnv coordTok4845 = 48 + 45 / 60 := by
    rw [convert_from_hhmm_eval stdEnv coordTok4845 4845 48 v1
      (by have := doubleToInt_hundreds stdEnv 48 45 (by norm_num) (by norm_num) (by norm_num)
          norm_num at this ⊢; exact this)]
    norm_num
  have c2 : convert_from_hhmm stdEnv coordTok4805 = 48 + 5 / 60 := by
    rw [convert_from_hhmm_eval stdEnv coordTok4805 4805 48 v2
      (by have := doubleToInt_hundreds stdEnv 48 5 (by norm_num) (by norm_num) (by norm_num)
          norm_num at this ⊢; exact this)]
    norm_num
  refine ⟨by rw [v1]; norm_num, by rw [v2]; norm_num, c1, c2, ?_⟩
  rw [c1, c2]
  norm_num

/-- C12, amended: for whole degrees `d >= 1` that fit the `int` `degrees`
(`d <= 2147483647`, as every degree value of a coordinate does) and minutes `m`
with 0 <= m < 40, `convert_from_hhmm` decodes a field of value `100 * d + m` and
a field of value `100 * (d - 1) + (m + 60)` to the same value `d + m / 60`, which
is floor(value/100) + (value - 100 * floor(value/100)) / 60 in exact
arithmetic. -/
theorem convert_from_hhmm_shift (env : Env) (t1 t2 : Token) (d : Nat) (m : ℚ)
    (hd : 1 ≤ d) (hfit : d ≤ 2147483647) (hm0 : 0 ≤ m) (hm : m < 40)
    (h1 : str2float env t1.mem t1.p t1.end_ = 100 * (d : ℚ) + m)
    (h2 : str2float env t2.mem t2.p t2.end_ = 100 * ((d : ℚ) - 1) + (m + 60)) :
    convert_from_hhmm env t1 = convert_from_hhmm env t2 ∧
    convert_from_hhmm env t1 = (d : ℚ) + m / 60 ∧
    convert_from_hhmm env t1
      = (⌊(100 * (d : ℚ) + m) / 100⌋ : ℚ)
        + ((100 * (d : ℚ) + m) - 100 * (⌊(100 * (d : ℚ) + m) / 100⌋ : ℚ)) / 60 := by
  obtain ⟨k, rfl⟩ : ∃ k, d = k + 1 := ⟨d - 1, by omega⟩
  have c1 : convert_from_hhmm env t1 = ((k + 1 : Nat) : ℚ) + m / 60 := by
    rw [convert_from_hhmm_eval env t1 _ ((k + 1 : Nat) : Int) h1
      (doubleToInt_hundreds env (k + 1) m hm0 (by linarith) (by omega))]
    push_cast
    ring
  have h2' : str2float env t2.mem t2.p t2.end_ = 100 * (k : ℚ) + (m + 60) := by
    rw [h2]; push_cast; ring
  have c2 : convert_from_hhmm env t2 = ((k + 1 : Nat) : ℚ) + m / 60 := by
    rw [convert_from_hhmm_eval env t2 _ (k : Int) h2'
      (doubleToInt_hundreds env k (m + 60) (by linarith) (by linarith) (by omega))]
    push_cast
    ring
  have hfl : ⌊(100 * ((k + 1 : Nat) : ℚ) + m) / 100⌋ = ((k + 1 : Nat) : Int) := by
    rw [Int.floor_eq_iff]
    push_cast
    constructor
    · linarith
    · linarith
  refine ⟨by rw [c1, c2], c1, ?_⟩
  rw [c1, hfl]
  push_cast
  ring

theorem convert_from_hhmm_shift_witness :
    convert_from_hhmm stdEnv coordTok4815 = convert_from_hhmm stdEnv coordTok4775 ∧
    convert_from_hhmm stdEnv coordTok4815 = ((48 : Nat) : ℚ) + 15 / 60 ∧
    convert_from_hhmm stdEnv coordTok4815
      = (⌊(100 * ((48 : Nat) : ℚ) + 15) / 100⌋ : ℚ)
        + ((100 * ((48 : Nat) : ℚ) + 15) - 100 * (⌊(100 * ((48 : Nat) : ℚ) + 15) / 100⌋ : ℚ))
          / 60 :=
  convert_from_hhmm_shift stdEnv coordTok4815 coordTok4775 48 15 (by decide) (by decide)
    (by norm_num) (by norm_num)
    (by
      rw [str2float_eq _ _ _ _ (by decide) (by decide)]
      have h : cstring (readSpan coordTok4815.mem coordTok4815.p (coordTok4815.end_ + 1))
          = [52, 56, 49, 53, 46, 48, 48, 48, 44] := by decide
      rw [h]
      simp [stdEnv, strtodDecimal, strtodUnsigned, isSpaceByte, isDigitByte, digitsValue,
        Nat.ofDigits]
      norm_num)
    (by
      rw [str2float_eq _ _ _ _ (by decide) (by decide)]
      have h : cstring (readSpan coordTok4775.mem coordTok4775.p (coordTok4775.end_ + 1))
          = [52, 55, 55, 53, 46, 48, 48, 48, 44] := by decide
      rw [h]
      simp [stdEnv, strtodDecimal, strtodUnsigned, isSpaceByte, isDigitByte, digitsValue,
        Nat.ofDigits]
      norm_num)

/-! ## Recommended minimum data: the date -/

set_option maxRecDepth 1000000

/-- C15 fails on the code: the RMC sentence with status `A` and the date field
`2303x4` is handed to the parser, and the reader that held the date 4 July 2002
(or no date) holds day 23, month 3 and year 1999 afterwards: `str2int` gives -1
for the year digits `x4`, 2000 is added before the test `(day|mon|year) < 0`,
and the date is stored. -/
theorem rmc_bad_year_stored :
    (lineTok rmcBadYearLine rmcBadYearLine.length 2).bytes = bytes "A" ∧
    (lineTok rmcBadYearLine rmcBadYearLine.length 9).bytes = bytes "2303x4" ∧
    (nmea_reader_feed stdEnv datedReader rmcBadYearLine).2 = [rmcBadYearLine] ∧
    datedReader.utc_year = 2002 ∧ datedReader.utc_mon = 7 ∧ datedReader.utc_day = 4 ∧
    (nmea_reader_feed stdEnv datedReader rmcBadYearLine).1.utc_year = 1999 ∧
    (nmea_reader_feed stdEnv datedReader rmcBadYearLine).1.utc_mon = 3 ∧
    (nmea_reader_feed stdEnv datedReader rmcBadYearLine).1.utc_day = 23 ∧
    (nmea_reader_feed stdEnv (nmea_reader_init stdEnv) rmcBadYearLine).1.utc_year = 1999 := by
  decide

/-! ## Satellites in view: the auxiliary talker -/

/-- C17 fails on the code: after the primary-talker group of 4 satellites the
count is 4; the auxiliary-talker group declares 8 satellites in two sentences of
four records each, and 4 + 8 <= GPS_MAX_SVS. The count is 8 after its first
sentence and still 8 after its second, not 12: only the first sentence adds the
count so far to the number declared, so the second sentence, which compares the
count 8 with the 8 declared, stores nothing. -/
theorem bd_gsv_group_not_appended :
    IsGsv gpGsvLine gpGsvLine.length false 1 1 4 ∧
    IsGsv bdGsvLine1 bdGsvLine1.length true 2 1 8 ∧
    IsGsv bdGsvLine2 bdGsvLine2.length true 2 2 8 ∧
    (nmea_reader_feed stdEnv (nmea_reader_init stdEnv)
      (gpGsvLine ++ bdGsvLine1 ++ bdGsvLine2)).2 = [gpGsvLine, bdGsvLine1, bdGsvLine2] ∧
    (nmea_reader_feed stdEnv (nmea_reader_init stdEnv) gpGsvLine).1.sv_status.num_svs = 4 ∧
    (nmea_reader_feed stdEnv (nmea_reader_init stdEnv)
      (gpGsvLine ++ bdGsvLine1)).1.sv_status.num_svs = 8 ∧
    (nmea_reader_feed stdEnv (nmea_reader_init stdEnv)
      (gpGsvLine ++ bdGsvLine1 ++ bdGsvLine2)).1.sv_status.num_svs = 8 ∧
    (4 : Int) + 8 ≤ (GPS_MAX_SVS : Int) := by
  decide

/-- A GSV sentence with an index other than 1 stores nothing when the count has
reached the number it declares, whatever the talker: a second sentence of the
auxiliary talker never appends after a primary group that is as large as the
number the auxiliary group declares minus 4. -/
theorem gsv_later_sentence_adds_nothing (env : Env) (r : NmeaReader) (buf : List Nat)
    (pos : Nat) (bd : Bool) (total idx n : Int) (h : IsGsv buf pos bd total idx n)
    (hidx : idx ≠ 1) (hfull : n ≤ r.sv_status.num_svs) :
    (nmea_reader_parse env (r.setLine buf pos)).sv_status.num_svs = r.sv_status.num_svs := by
  rw [parse_of_isGsv env r buf pos bd total idx n h]
  obtain ⟨_, _, _, _, _, hi, hc⟩ := h
  unfold lineTok Token.int at hi hc
  unfold parse_gsv parse_gsv_loop
  simp only [hi, hc, NmeaReader.setLine, hidx, false_and, if_false]
  have hlt : ¬ (r.sv_status.num_svs < n) := by omega
  split_ifs <;> simp [gsv_loop, hlt]

/-! ## Active satellites -/

theorem gsa_prn_step_mask (b : Bool) (tzer : NmeaTokenizer) (r : NmeaReader) (i : Nat) :
    (gsa_prn_step b tzer r i).sv_status.used_in_fix_mask
      = r.sv_status.used_in_fix_mask ||| gsaIdBit (nmea_tokenizer_get tzer i).int := by
  unfold gsa_prn_step gsaIdBit Token.int
  simp only
  by_cases h : str2int (nmea_tokenizer_get tzer i).mem (nmea_tokenizer_get tzer i).p
      (nmea_tokenizer_get tzer i).end_ > 0 ∧
      str2int (nmea_tokenizer_get tzer i).mem (nmea_tokenizer_get tzer i).p
        (nmea_tokenizer_get tzer i).end_ < 33
  · have h' : 1 ≤ str2int (nmea_tokenizer_get tzer i).mem (nmea_tokenizer_get tzer i).p
        (nmea_tokenizer_get tzer i).end_ ∧
        str2int (nmea_tokenizer_get tzer i).mem (nmea_tokenizer_get tzer i).p
          (nmea_tokenizer_get tzer i).end_ ≤ 32 := by omega
    simp only [h, h', and_self, if_true, Nat.one_shiftLeft]
    split_ifs <;> rfl
  · have h' : ¬ (1 ≤ str2int (nmea_tokenizer_get tzer i).mem (nmea_tokenizer_get tzer i).p
        (nmea_tokenizer_get tzer i).end_ ∧
        str2int (nmea_tokenizer_get tzer i).mem (nmea_tokenizer_get tzer i).p
          (nmea_tokenizer_get tzer i).end_ ≤ 32) := by omega
    simp only [h, h', if_false, Nat.or_zero]

theorem gsa_prn_fold_mask (b : Bool) (tzer : NmeaTokenizer) (l : List Nat) :
    ∀ r, (l.foldl (gsa_prn_step b tzer) r).sv_status.used_in_fix_mask
      = r.sv_status.used_in_fix_mask |||
        (l.map (fun i => gsaIdBit (nmea_tokenizer_get tzer i).int)).foldr
          (fun b m => b ||| m) 0 := by
  induction l with
  | nil => intro r; simp
  | cons i l ih =>
    intro r
    rw [List.foldl_cons, ih, gsa_prn_step_mask, List.map_cons, List.foldr_cons, Nat.or_assoc]

/-- The parser dispatches a GSA sentence to the GSA branch. -/
theorem parse_of_isGsaFix (env : Env) (r : NmeaReader) (buf : List Nat) (pos : Nat) (bd : Bool)
    (h : IsGsaFix buf pos bd) :
    nmea_reader_parse env (r.setLine buf pos)
      = parse_gsa env bd (nmea_tokenizer_init buf 0 pos) (r.setLine buf pos) := by
  obtain ⟨h9, h5, hbd, hty, _, _⟩ := h
  unfold lineTok at h5 hbd hty
  have hspan : readSpan (nmea_tokenizer_get (nmea_tokenizer_init buf 0 pos) 0).mem
      ((nmea_tokenizer_get (nmea_tokenizer_init buf 0 pos) 0).p + 2)
      ((nmea_tokenizer_get (nmea_tokenizer_init buf 0 pos) 0).p + 2 + 3) = [71, 83, 65] := by
    simpa [memcmp_eq] using hty
  unfold nmea_reader_parse
  simp only [NmeaReader.setLine, reader_tzer]
  have h9' : ¬ pos < 9 := by omega
  have h5' : ¬ (nmea_tokenizer_get (nmea_tokenizer_init buf 0 pos) 0).p + 5
      > (nmea_tokenizer_get (nmea_tokenizer_init buf 0 pos) 0).end_ := by omega
  simp only [h9', h5', if_false, hbd]
  simp [memcmp_eq, hspan]

/-- C16: for every GSA sentence whose fix-mode field indicates a fix, parsed
from any reader state, the used-in-fix bitmask afterwards is the previous mask
(for the auxiliary talker `BD`) or 0 (for any other talker), OR-ed with the bits
`id - 1` of exactly those satellite-ID fields 3 .. 14 that `str2int` decodes to
an `id` with 1 <= id <= 32; every other ID field (empty, not numeric, out of
range) contributes no bit. -/
theorem gsa_used_in_fix_mask (env : Env) (r : NmeaReader) (buf : List Nat) (pos : Nat)
    (bd : Bool) (h : IsGsaFix buf pos bd) :
    (nmea_reader_parse env (r.setLine buf pos)).sv_status.used_in_fix_mask
      = (if bd then r.sv_status.used_in_fix_mask else 0) ||| gsaIdMask buf pos := by
  rw [parse_of_isGsaFix env r buf pos bd h]
  obtain ⟨_, _, _, _, hm0, hm1⟩ := h
  unfold lineTok at hm0 hm1
  unfold parse_gsa
  simp only [hm0, hm1, ne_eq, not_false_eq_true, and_self, if_true]
  rw [gsa_prn_fold_mask]
  unfold gsaIdMask lineTok
  cases bd with
  | true =>
    simp only [Bool.not_true, Bool.false_eq_true, if_false, if_true]
    rw [(update_accuracy_frame env _ _).sv_status]
    rfl
  | false =>
    simp only [Bool.not_false, if_true, Bool.false_eq_true, if_false]

theorem gsa_used_in_fix_mask_witness :
    (nmea_reader_parse stdEnv
      ((nmea_reader_init stdEnv).setLine gsaLine gsaLine.length)).sv_status.used_in_fix_mask
      = (if false then (nmea_reader_init stdEnv).sv_status.used_in_fix_mask else 0)
        ||| gsaIdMask gsaLine gsaLine.length :=
  gsa_used_in_fix_mask stdEnv (nmea_reader_init stdEnv) gsaLine gsaLine.length false
    (by decide)

/-- The mask of the example: the bits 3, 4, 8, 11 and 23. -/
theorem gsaIdMask_example :
    gsaIdMask gsaLine gsaLine.length = 2 ^ 3 + 2 ^ 4 + 2 ^ 8 + 2 ^ 11 + 2 ^ 23 := by
  decide

/-! ## The lines handed to the parser -/

set_option maxRecDepth 1000000

theorem linesFrom_newline (cur s : List Nat) :
    linesFrom cur (10 :: s) = (cur ++ [10]) :: linesFrom [] s := by
  simp [linesFrom]

theorem linesFrom_other (cur s : List Nat) (c : Nat) (h : c ≠ 10) :
    linesFrom cur (c :: s) = linesFrom (cur ++ [c]) s := by
  simp [linesFrom, h]

/-- Every member of `linesFrom cur s` is one line of the stream `cur ++ s`: it
starts at the start of the stream or after a `'\n'`, ends with `'\n'` and holds
no other `'\n'`. -/
theorem mem_linesFrom (s : List Nat) :
    ∀ (cur l : List Nat), 10 ∉ cur → l ∈ linesFrom cur s →
      ∃ pre post body, cur ++ s = pre ++ l ++ post ∧ l = body ++ [10] ∧ 10 ∉ body ∧
        (pre = [] ∨ pre.getLast? = some 10) := by
  induction s with
  | nil => intro cur l _ h; simp [linesFrom] at h
  | cons c s ih =>
    intro cur l hcur h
    by_cases hc : c = 10
    · subst hc
      rw [linesFrom_newline] at h
      rcases List.mem_cons.mp h with h1 | h1
      · exact ⟨[], s, cur, by rw [h1]; simp, h1, hcur, Or.inl rfl⟩
      · obtain ⟨pre, post, body, e1, e2, e3, e4⟩ := ih [] l (by simp) h1
        refine ⟨cur ++ [10] ++ pre, post, body, ?_, e2, e3, Or.inr ?_⟩
        · rw [List.nil_append] at e1
          rw [e1]
          simp
        · rcases e4 with e4 | e4
          · rw [e4]; simp
          · rw [List.getLast?_append_of_ne_nil _ (by intro h0; rw [h0] at e4; simp at e4)]
            exact e4
    · rw [linesFrom_other cur s c hc] at h
      have hcur' : 10 ∉ cur ++ [c] := by
        simp only [List.mem_append, List.mem_singleton, not_or]
        exact ⟨hcur, fun h0 => hc h0.symm⟩
      obtain ⟨pre, post, body, e1, e2, e3, e4⟩ := ih (cur ++ [c]) l hcur' h
      exact ⟨pre, post, body, by rw [← e1]; simp, e2, e3, e4⟩

theorem feed_cons_snd (env : Env) (r : NmeaReader) (c : Nat) (s : List Nat) :
    (nmea_reader_feed env r (c :: s)).2
      = (nmea_reader_addc env r c).2.toList
        ++ (nmea_reader_feed env (nmea_reader_addc env r c).1 s).2 := by
  simp [nmea_reader_feed]

/-- The lines that `nmea_reader_addc` hands to the parser are complete lines of
the stream, in their order: while bytes are stored the buffer holds the line
under way, and while the overflow flag is set the line under way is skipped. -/
theorem feed_sublist_lines (env : Env) (s : List Nat) :
    ∀ (r : NmeaReader) (cur : List Nat), r.inb.length = NMEA_MAX_SIZE + 1 →
      ((r.overflow = 0 ∧ readSpan r.inb 0 r.pos = cur) ∨ (r.overflow ≠ 0 ∧ r.pos = 0)) →
      List.Sublist (nmea_reader_feed env r s).2 (linesFrom cur s) := by
  induction s with
  | nil => intro r cur _ _; simp [nmea_reader_feed, linesFrom]
  | cons c s ih =>
    intro r cur hbuf hst
    rw [feed_cons_snd]
    simp only [NMEA_MAX_SIZE] at hbuf
    by_cases hov : r.overflow = 0
    · have hcur : readSpan r.inb 0 r.pos = cur := by
        rcases hst with h | h
        · exact h.2
        · exact absurd hov h.1
      by_cases hfull : r.pos ≥ NMEA_MAX_SIZE + 1 - 1
      · -- the buffer is full: the byte sets the overflow flag
        have hstep : nmea_reader_addc env r c = ({ r with overflow := 1, pos := 0 }, none) := by
          simp only [nmea_reader_addc, hov, hfull, ne_eq, not_true_eq_false, if_false, if_true]
        rw [hstep]
        simp only [Option.toList, List.nil_append]
        by_cases hc : c = 10
        · subst hc
          rw [linesFrom_newline]
          exact List.Sublist.cons _
            (ih _ [] (by simpa [NMEA_MAX_SIZE] using hbuf) (Or.inr ⟨by simp, rfl⟩))
        · rw [linesFrom_other cur s c hc]
          exact ih _ _ (by simpa [NMEA_MAX_SIZE] using hbuf) (Or.inr ⟨by simp, rfl⟩)
      · -- the byte is stored
        have hpos : r.pos < 83 := by simp only [NMEA_MAX_SIZE] at hfull; omega
        have hline : readSpan (r.inb.set r.pos c) 0 (r.pos + 1) = cur ++ [c] := by
          rw [readSpan_snoc _ 0 (r.pos + 1) (by omega)]
          simp only [Nat.add_sub_cancel]
          rw [readSpan_set_before _ _ _ _ _ (le_refl _), readByte_set_eq _ _ _ (by omega), hcur]
        by_cases hc : c = 10
        · subst hc
          have hstep : nmea_reader_addc env r 10
              = ({ nmea_reader_parse env { r with inb := r.inb.set r.pos 10, pos := r.pos + 1 }
                    with pos := 0 },
                 some (readSpan (r.inb.set r.pos 10) 0 (r.pos + 1))) := by
            simp only [nmea_reader_addc, hov, hfull, CH_NL, ne_eq, not_true_eq_false, if_false,
              if_true]
          rw [hstep, hline, linesFrom_newline]
          simp only [Option.toList, List.singleton_append]
          refine List.Sublist.cons₂ _ (ih _ [] ?_ (Or.inl ⟨?_, ?_⟩))
          · simp only
            rw [(parse_line_frame env _).inb]
            simp [NMEA_MAX_SIZE, hbuf]
          · simp only
            rw [(parse_line_frame env _).overflow]
            exact hov
          · simp only
            exact readSpan_nil _ 0 0 (le_refl _)
        · have hstep : nmea_reader_addc env r c
              = ({ r with inb := r.inb.set r.pos c, pos := r.pos + 1 }, none) := by
            simp only [nmea_reader_addc, hov, hfull, CH_NL, hc, ne_eq, not_true_eq_false,
              if_false]
          rw [hstep, linesFrom_other cur s c hc]
          simp only [Option.toList, List.nil_append]
          exact ih _ _ (by simp [NMEA_MAX_SIZE, hbuf]) (Or.inl ⟨hov, hline⟩)
    · -- the overflow flag is set: the byte is dropped
      have hp0 : r.pos = 0 := by
        rcases hst with h | h
        · exact absurd h.1 hov
        · exact h.2
      by_cases hc : c = 10
      · subst hc
        have hstep : nmea_reader_addc env r 10 = ({ r with overflow := 0 }, none) := by
          simp only [nmea_reader_addc, hov, CH_NL, ne_eq, not_false_eq_true, not_true_eq_false,
            if_true, if_false]
        rw [hstep, linesFrom_newline]
        simp only [Option.toList, List.nil_append]
        refine List.Sublist.cons _ (ih _ [] (by simpa [NMEA_MAX_SIZE] using hbuf)
          (Or.inl ⟨rfl, ?_⟩))
        simp only [hp0]
        exact readSpan_nil _ 0 0 (le_refl _)
      · have hstep : nmea_reader_addc env r c = ({ r with overflow := 1 }, none) := by
          simp only [nmea_reader_addc, hov, CH_NL, hc, ne_eq, not_false_eq_true, if_true]
        rw [hstep, linesFrom_other cur s c hc]
        simp only [Option.toList, List.nil_append]
        exact ih _ _ (by simpa [NMEA_MAX_SIZE] using hbuf) (Or.inr ⟨by simp, hp0⟩)

/-- C18: for every byte stream fed byte by byte to `nmea_reader_addc` from a
state with cursor 0 and the overflow flag clear, the buffers handed to the
parser are complete lines of the stream, in the order of the stream and each
line at most once; every one of them is the run of bytes that follows a `'\n'`
of the stream (or starts the stream) up to and including the next `'\n'`. -/
theorem parsed_lines_are_complete_lines (env : Env) (r : NmeaReader) (s : List Nat)
    (hpos : r.pos = 0) (hov : r.overflow = 0) (hbuf : r.inb.length = NMEA_MAX_SIZE + 1) :
    List.Sublist (nmea_reader_feed env r s).2 (completeLines s) ∧
    ∀ l ∈ (nmea_reader_feed env r s).2,
      ∃ pre post body, s = pre ++ l ++ post ∧ l = body ++ [10] ∧ 10 ∉ body ∧
        (pre = [] ∨ pre.getLast? = some 10) := by
  have hsub : List.Sublist (nmea_reader_feed env r s).2 (completeLines s) :=
    feed_sublist_lines env s r [] hbuf
      (Or.inl ⟨hov, by rw [hpos]; exact readSpan_nil _ 0 0 (le_refl _)⟩)
  refine ⟨hsub, ?_⟩
  intro l hl
  have hmem : l ∈ linesFrom [] s := hsub.subset hl
  simpa using mem_linesFrom s [] l (by simp) hmem

theorem parsed_lines_are_complete_lines_witness :
    List.Sublist
      (nmea_reader_feed stdEnv (nmea_reader_init stdEnv)
        (List.replicate 83 65 ++ [10] ++ ggaLine ++ zdaLine)).2
      (completeLines (List.replicate 83 65 ++ [10] ++ ggaLine ++ zdaLine)) ∧
    ∀ l ∈ (nmea_reader_feed stdEnv (nmea_reader_init stdEnv)
        (List.replicate 83 65 ++ [10] ++ ggaLine ++ zdaLine)).2,
      ∃ pre post body, List.replicate 83 65 ++ [10] ++ ggaLine ++ zdaLine = pre ++ l ++ post ∧
        l = body ++ [10] ∧ 10 ∉ body ∧ (pre = [] ∨ pre.getLast? = some 10) :=
  parsed_lines_are_complete_lines stdEnv (nmea_reader_init stdEnv)
    (List.replicate 83 65 ++ [10] ++ ggaLine ++ zdaLine) (by decide) (by decide) (by decide)

/-- In the stream of the example the line of 83 bytes and the line after it are
dropped whole, and the third line is parsed. -/
theorem parsed_lines_example :
    (nmea_reader_feed stdEnv (nmea_reader_init stdEnv)
      (List.replicate 83 65 ++ [10] ++ ggaLine ++ zdaLine)).2 = [zdaLine] := by
  decide

/-! ## Sentinel, line ending and checksum around a body -/

set_option maxRecDepth 1000000

theorem readSpan_shift (buf1 buf2 : List Nat) (k a b : Nat)
    (h : ∀ i, a ≤ i → i < b → readByte buf1 (i + k) = readByte buf2 i) :
    readSpan buf1 (a + k) (b + k) = readSpan buf2 a b := by
  unfold readSpan
  have e : b + k - (a + k) = b - a := by omega
  rw [e]
  apply List.map_congr_left
  intro i hi
  rw [List.mem_range] at hi
  have := h (a + i) (by omega) (by omega)
  rw [← this]
  congr 1
  omega

theorem memchr_shift (buf1 buf2 : List Nat) (c k : Nat) (n : Nat) :
    ∀ p, (∀ i, p ≤ i → i < p + n → readByte buf1 (i + k) = readByte buf2 i) →
      memchr buf1 c (p + k) n = (memchr buf2 c p n).map (fun q => q + k) := by
  induction n with
  | zero => intro p _; simp [memchr]
  | succ n ih =>
    intro p h
    unfold memchr
    rw [h p (le_refl _) (by omega)]
    split_ifs
    · rfl
    · have := ih (p + 1) (fun i h1 h2 => h i (by omega) (by omega))
      rw [← this]
      congr 1
      omega

/-- The loop of the tokenizer sees only the bytes between its two pointers: on
two buffers that agree there up to a shift, it stores tokens with the same
contents. -/
theorem tokenizer_loop_shift (buf1 buf2 : List Nat) (k e : Nat) (fuel : Nat) :
    ∀ (p : Nat) (toks1 toks2 : List (Nat × Nat)),
      (∀ i, p ≤ i → i < e → readByte buf1 (i + k) = readByte buf2 i) →
      toks1.map (fun s => readSpan buf1 s.1 s.2) = toks2.map (fun s => readSpan buf2 s.1 s.2) →
      (tokenizer_loop buf1 (e + k) fuel (p + k) toks1).map (fun s => readSpan buf1 s.1 s.2)
        = (tokenizer_loop buf2 e fuel p toks2).map (fun s => readSpan buf2 s.1 s.2) := by
  induction fuel with
  | zero => intro p toks1 toks2 _ h; simpa [tokenizer_loop] using h
  | succ fuel ih =>
    intro p toks1 toks2 hag h
    have hlen : toks1.length = toks2.length := by
      have := congrArg List.length h
      simpa using this
    unfold tokenizer_loop
    by_cases hpe : p < e
    · have hpe' : p + k < e + k := by omega
      have hsub : e + k - (p + k) = e - p := by omega
      have hmc := memchr_shift buf1 buf2 CH_COMMA k (e - p) p
        (fun i h1 h2 => hag i h1 (by omega))
      simp only [hpe, hpe', if_true, hsub, hmc, hlen]
      cases hm : memchr buf2 CH_COMMA p (e - p) with
      | none =>
        simp only [Option.map_none', lt_irrefl, if_false]
        have e1 : e + k < e + k ↔ False := by simp
        apply ih e _ _ (fun i h1 h2 => hag i (by omega) h2)
        split_ifs
        · rw [List.map_append, List.map_append, h]
          simp only [List.map_cons, List.map_nil]
          rw [readSpan_shift buf1 buf2 k p e hag]
        · exact h
      | some q =>
        obtain ⟨hq1, hq2, _, _⟩ := memchr_some buf2 CH_COMMA (e - p) p q hm
        have hqe : q < e := by omega
        have hqe' : q + k < e + k := by omega
        simp only [Option.map_some', hqe, hqe', if_true]
        have e2 : q + k + 1 = q + 1 + k := by omega
        rw [e2]
        apply ih (q + 1) _ _ (fun i h1 h2 => hag i (by omega) h2)
        split_ifs
        · rw [List.map_append, List.map_append, h]
          simp only [List.map_cons, List.map_nil]
          rw [readSpan_shift buf1 buf2 k p q (fun i h1 h2 => hag i h1 (by omega))]
        · exact h
    · have hpe' : ¬ p + k < e + k := by omega
      simp only [hpe, hpe', if_false]
      exact h

theorem readByte_cons_succ (c : Nat) (l : List Nat) (i : Nat) :
    readByte (c :: l) (i + 1) = readByte l i := by
  simp [readByte]

theorem readByte_append_left (a b : List Nat) (i : Nat) (h : i < a.length) :
    readByte (a ++ b) i = readByte a i := by
  simp [readByte, List.getD_eq_getElem?_getD, List.getElem?_append_left h]

theorem readByte_append_right (a b : List Nat) (j : Nat) :
    readByte (a ++ b) (a.length + j) = readByte b j := by
  simp [readByte, List.getD_eq_getElem?_getD, List.getElem?_append_right]

theorem readByte_of_get (l : List Nat) (i c : Nat) (h : i < l.length) :
    readByte l i = c ↔ l.get? i = some c := by
  simp [readByte, List.getD_eq_getElem?_getD, List.getElem?_eq_getElem h]

/-- The pointers that the strips of `nmea_tokenizer_init` leave on a wrapped
body: the body itself. -/
theorem strip_wrapSentence (body : List Nat) (x y : Nat) :
    strip_dollar (wrapSentence body x y) 0 (wrapSentence body x y).length = 1 ∧
    strip_checksum (wrapSentence body x y) 1
      (strip_newline (wrapSentence body x y) 1 (wrapSentence body x y).length)
      = body.length + 1 := by
  have hlen : (wrapSentence body x y).length = body.length + 6 := by
    simp [wrapSentence]
  have b0 : readByte (wrapSentence body x y) 0 = 36 := by simp [wrapSentence, readByte]
  have bs : ∀ j, readByte (wrapSentence body x y) (body.length + 1 + j)
      = readByte [42, x, y, 13, 10] j := by
    intro j
    unfold wrapSentence
    rw [show body.length + 1 + j = (body.length + j) + 1 by omega, readByte_cons_succ,
      readByte_append_right]
  have b1 : readByte (wrapSentence body x y) (body.length + 1) = 42 := by
    have := bs 0; simpa [readByte] using this
  have b4 : readByte (wrapSentence body x y) (body.length + 4) = 13 := by
    have := bs 3; simpa [readByte] using this
  have b5 : readByte (wrapSentence body x y) (body.length + 5) = 10 := by
    have := bs 4; simpa [readByte] using this
  rw [hlen]
  refine ⟨?_, ?_⟩
  · simp [strip_dollar, b0, CH_DOLLAR]
  · have e1 : strip_newline (wrapSentence body x y) 1 (body.length + 6) = body.length + 4 := by
      unfold strip_newline
      have c1 : body.length + 6 > 1 ∧
          readByte (wrapSentence body x y) (body.length + 6 - 1) = CH_NL :=
        ⟨by omega, by rw [show body.length + 6 - 1 = body.length + 5 by omega]; exact b5⟩
      have c2 : body.length + 6 - 1 > 1 ∧
          readByte (wrapSentence body x y) (body.length + 6 - 2) = CH_CR :=
        ⟨by omega, by rw [show body.length + 6 - 2 = body.length + 4 by omega]; exact b4⟩
      rw [if_pos c1, if_pos c2]
      omega
    rw [e1]
    unfold strip_checksum
    have c3 : body.length + 4 ≥ 1 + 3 ∧
        readByte (wrapSentence body x y) (body.length + 4 - 3) = CH_STAR :=
      ⟨by omega, by rw [show body.length + 4 - 3 = body.length + 1 by omega]; exact b1⟩
    rw [if_pos c3]
    omega

/-- The strips of `nmea_tokenizer_init` leave a body alone that has no sentinel,
no line ending and no checksum suffix. -/
theorem strip_plain_body (body : List Nat) (h1 : body.head? ≠ some 36)
    (h2 : body.getLast? ≠ some 10)
    (h3 : 3 ≤ body.length → body.get? (body.length - 3) ≠ some 42) :
    strip_dollar body 0 body.length = 0 ∧
    strip_checksum body 0 (strip_newline body 0 body.length) = body.length := by
  have d : strip_dollar body 0 body.length = 0 := by
    unfold strip_dollar
    split_ifs with h
    · exfalso
      apply h1
      have := (readByte_of_get body 0 36 h.1).mp h.2
      cases body with
      | nil => simp at h
      | cons c t => simpa using this
    · rfl
  have n : strip_newline body 0 body.length = body.length := by
    unfold strip_newline
    split_ifs with h h'
    · exfalso
      apply h2
      have hl := (readSpan_getLast body 0 body.length 10).mpr ⟨h.1, h.2⟩
      rwa [readSpan_full] at hl
    · exfalso
      apply h2
      have hl := (readSpan_getLast body 0 body.length 10).mpr ⟨h.1, h.2⟩
      rwa [readSpan_full] at hl
    · rfl
  refine ⟨d, ?_⟩
  rw [n]
  unfold strip_checksum
  split_ifs with h
  · exfalso
    exact h3 (by omega) ((readByte_of_get body _ 42 (by omega)).mp h.2)
  · rfl

/-- C19: for every body `B` that does not begin with `'$'`, does not end with
`'\n'` and whose third-from-last byte is not `'*'`, and for every two bytes `X`
and `Y`, `nmea_tokenizer_init` on `'$' B '*' X Y '\r' '\n'` yields tokens with
the same contents, in the same number, as on `B` alone. -/
theorem checksum_wrapper_same_tokens (body : List Nat) (x y : Nat)
    (h1 : body.head? ≠ some 36) (h2 : body.getLast? ≠ some 10)
    (h3 : 3 ≤ body.length → body.get? (body.length - 3) ≠ some 42) :
    tokenContents (nmea_tokenizer_init (wrapSentence body x y) 0 (wrapSentence body x y).length)
      = tokenContents (nmea_tokenizer_init body 0 body.length) ∧
    (nmea_tokenizer_init (wrapSentence body x y) 0 (wrapSentence body x y).length).count
      = (nmea_tokenizer_init body 0 body.length).count := by
  obtain ⟨w1, w2⟩ := strip_wrapSentence body x y
  obtain ⟨p1, p2⟩ := strip_plain_body body h1 h2 h3
  have hag : ∀ i, 0 ≤ i → i < body.length →
      readByte (wrapSentence body x y) (i + 1) = readByte body i := by
    intro i _ hi
    unfold wrapSentence
    rw [readByte_cons_succ, readByte_append_left _ _ _ hi]
  have key : tokenContents
      (nmea_tokenizer_init (wrapSentence body x y) 0 (wrapSentence body x y).length)
      = tokenContents (nmea_tokenizer_init body 0 body.length) := by
    unfold tokenContents nmea_tokenizer_init
    simp only [w1, w2, p1, p2, Nat.add_sub_cancel, Nat.sub_zero]
    have := tokenizer_loop_shift (wrapSentence body x y) body 1 body.length body.length 0 [] []
      hag rfl
    simpa using this
  refine ⟨key, ?_⟩
  have := congrArg List.length key
  simpa [tokenContents, NmeaTokenizer.count] using this

theorem checksum_wrapper_same_tokens_witness :
    tokenContents (nmea_tokenizer_init (wrapSentence (bytes "GPGLL,4916.45,N,,W,225444,A") 49 68)
        0 (wrapSentence (bytes "GPGLL,4916.45,N,,W,225444,A") 49 68).length)
      = tokenContents (nmea_tokenizer_init (bytes "GPGLL,4916.45,N,,W,225444,A") 0
          (bytes "GPGLL,4916.45,N,,W,225444,A").length) ∧
    (nmea_tokenizer_init (wrapSentence (bytes "GPGLL,4916.45,N,,W,225444,A") 49 68) 0
        (wrapSentence (bytes "GPGLL,4916.45,N,,W,225444,A") 49 68).length).count
      = (nmea_tokenizer_init (bytes "GPGLL,4916.45,N,,W,225444,A") 0
          (bytes "GPGLL,4916.45,N,,W,225444,A").length).count :=
  checksum_wrapper_same_tokens (bytes "GPGLL,4916.45,N,,W,225444,A") 49 68
    (by decide) (by decide) (by decide)

/-! ## Course and speed over ground -/

set_option maxRecDepth 1000000

/-- A field that the tokenizer has no token for is the empty dummy token, whose
first byte is NUL. -/
theorem absent_token_at_zero (t : NmeaTokenizer) (i : Nat) (h : t.count ≤ i) :
    (nmea_tokenizer_get t i).at 0 = 0 := by
  unfold nmea_tokenizer_get
  have : t.tokens.get? i = none := List.get?_eq_none.mpr h
  rw [this]
  rfl

/-- On a line of sentence type VTG the parser either returns at once or runs the
VTG branch. -/
theorem parse_of_vtg (env : Env) (r : NmeaReader)
    (hty : memcmp_eq (nmea_tokenizer_get (reader_tzer r) 0) 2 [86, 84, 71] = true) :
    nmea_reader_parse env r = r ∨
    nmea_reader_parse env r = parse_vtg env (reader_tzer r) r := by
  have hspan : readSpan (nmea_tokenizer_get (reader_tzer r) 0).mem
      ((nmea_tokenizer_get (reader_tzer r) 0).p + 2)
      ((nmea_tokenizer_get (reader_tzer r) 0).p + 2 + 3) = [86, 84, 71] := by
    simpa [memcmp_eq] using hty
  unfold nmea_reader_parse
  simp only
  split_ifs with h9 h5
  · exact Or.inl rfl
  · exact Or.inl rfl
  all_goals first
    | exact Or.inr rfl
    | (exfalso; simp_all [memcmp_eq])

/-- C20, as stated, fails: in this VTG sentence field 9 is present (the line has
11 fields) and empty; the byte at its start is the `','` that follows it, which
is neither NUL nor `'N'`, so the parser updates bearing and speed: the flags go
from 0 to 12 (bearing and speed valid). -/
theorem vtg_empty_mode_counterexample :
    IsSentence vtgEmptyModeLine vtgEmptyModeLine.length [86, 84, 71] ∧
    lineTokCount vtgEmptyModeLine vtgEmptyModeLine.length = 11 ∧
    (lineTok vtgEmptyModeLine vtgEmptyModeLine.length 9).bytes = [] ∧
    (lineTok vtgEmptyModeLine vtgEmptyModeLine.length 9).at 0 = 44 ∧
    (nmea_reader_init stdEnv).fix.flags = 0 ∧
    (nmea_reader_parse stdEnv
      ((nmea_reader_init stdEnv).withLine vtgEmptyModeLine)).fix.flags
      = GPS_LOCATION_HAS_BEARING ||| GPS_LOCATION_HAS_SPEED ∧
    (nmea_reader_feed stdEnv (nmea_reader_init stdEnv) vtgEmptyModeLine).1.fix.flags = 12 := by
  decide

/-- C20, amended: for every VTG sentence whose mode-indicator field (field 9) is
absent (the tokenizer has no token for it, as when it is empty and ends the
body) or begins with `'N'`, `nmea_reader_parse` leaves the reader unchanged; and
the reader changes only when field 9 is present and the byte at its start (its
first byte, or for an empty field the `','` after it) is neither NUL nor
`'N'`. -/
theorem vtg_mode_gate (env : Env) (r : NmeaReader)
    (hty : memcmp_eq (nmea_tokenizer_get (reader_tzer r) 0) 2 [86, 84, 71] = true) :
    (((reader_tzer r).count ≤ 9 ∨ (nmea_tokenizer_get (reader_tzer r) 9).at 0 = 78) →
      nmea_reader_parse env r = r) ∧
    (nmea_reader_parse env r ≠ r →
      9 < (reader_tzer r).count ∧ (nmea_tokenizer_get (reader_tzer r) 9).at 0 ≠ 78 ∧
      (nmea_tokenizer_get (reader_tzer r) 9).at 0 ≠ 0) := by
  have shut : ((nmea_tokenizer_get (reader_tzer r) 9).at 0 = 0 ∨
      (nmea_tokenizer_get (reader_tzer r) 9).at 0 = 78) → nmea_reader_parse env r = r := by
    intro h
    rcases parse_of_vtg env r hty with h0 | h0
    · exact h0
    · rw [h0]
      unfold parse_vtg
      have : ¬ ((nmea_tokenizer_get (reader_tzer r) 9).at 0 ≠ 0 ∧
          (nmea_tokenizer_get (reader_tzer r) 9).at 0 ≠ 78) := by
        rintro ⟨a, b⟩
        rcases h with h | h
        · exact a h
        · exact b h
      simp only [this, if_false]
  constructor
  · rintro (h | h)
    · exact shut (Or.inl (absent_token_at_zero _ 9 h))
    · exact shut (Or.inr h)
  · intro hne
    refine ⟨?_, ?_, ?_⟩
    · by_contra hc
      exact hne (shut (Or.inl (absent_token_at_zero _ 9 (by omega))))
    · intro h
      exact hne (shut (Or.inr h))
    · intro h
      exact hne (shut (Or.inl h))

theorem vtg_mode_gate_witness :
    lineTokCount vtgEmptyLastLine vtgEmptyLastLine.length = 9 ∧
    nmea_reader_parse stdEnv ((nmea_reader_init stdEnv).withLine vtgEmptyLastLine)
      = (nmea_reader_init stdEnv).withLine vtgEmptyLastLine ∧
    lineTokCount vtgNoFixLine vtgNoFixLine.length = 10 ∧
    nmea_reader_parse stdEnv ((nmea_reader_init stdEnv).withLine vtgNoFixLine)
      = (nmea_reader_init stdEnv).withLine vtgNoFixLine :=
  ⟨by decide,
   (vtg_mode_gate stdEnv ((nmea_reader_init stdEnv).withLine vtgEmptyLastLine) (by decide)).1
     (Or.inl (by decide)),
   by decide,
   (vtg_mode_gate stdEnv ((nmea_reader_init stdEnv).withLine vtgNoFixLine) (by decide)).1
     (Or.inr (by decide))⟩

/-! ## Dispatch on the sentence type -/

set_option maxRecDepth 1000000

/-- The bytes `mem[a+k .. b)` are the bytes `mem[a .. b)` without the first `k`. -/
theorem readSpan_drop (mem : List Nat) (a b k : Nat) :
    (readSpan mem a b).drop k = readSpan mem (a + k) b := by
  apply List.ext_get?
  intro i
  rw [List.get?_eq_getElem?, List.get?_eq_getElem?, List.getElem?_drop,
    ← List.get?_eq_getElem?, ← List.get?_eq_getElem?]
  by_cases h : k + i < b - a
  · rw [readSpan_get mem a b (k + i) h, readSpan_get mem (a + k) b i (by omega)]
    congr 2
    omega
  · rw [List.get?_eq_none.mpr (by rw [readSpan_length]; omega),
      List.get?_eq_none.mpr (by rw [readSpan_length]; omega)]

/-- The sentence-type characters are the three bytes that the parser compares
with `memcmp(tok.p + 2, ..., 3)`, when the first field has at least 5 bytes. -/
theorem sentenceType_eq (buf : List Nat) (pos : Nat)
    (h5 : 5 ≤ (lineTok buf pos 0).bytes.length) :
    sentenceType buf pos = readSpan (lineTok buf pos 0).mem ((lineTok buf pos 0).p + 2)
      ((lineTok buf pos 0).p + 2 + 3) := by
  unfold sentenceType
  unfold Token.bytes at h5 ⊢
  rw [readSpan_length] at h5
  rw [readSpan_drop, readSpan_take _ _ _ _ (by omega)]

/-- C21: for every line of at least 9 bytes whose first field has at least 5
characters and whose sentence-type characters (3rd to 5th of the first field)
are none of GGA, GLL, GSA, GSV, RMC, VTG, ZDA, `nmea_reader_parse` returns the
reader as it was: fix, validity bits, stored date, satellite status,
used-in-fix mask, dirty flag and time map are all unchanged. -/
theorem unknown_type_unchanged (env : Env) (r : NmeaReader) (h9 : 9 ≤ r.pos)
    (h5 : 5 ≤ (lineTok r.inb r.pos 0).bytes.length)
    (hty : sentenceType r.inb r.pos ∉ knownSentenceTypes) :
    nmea_reader_parse env r = r := by
  rw [sentenceType_eq _ _ h5] at hty
  unfold knownSentenceTypes at hty
  simp only [List.mem_cons, List.mem_singleton, List.not_mem_nil, or_false, not_or] at hty
  obtain ⟨t1, t2, t3, t4, t5, t6, t7⟩ := hty
  unfold nmea_reader_parse
  have e9 : ¬ r.pos < 9 := by omega
  simp only [e9, if_false]
  unfold lineTok at t1 t2 t3 t4 t5 t6 t7
  unfold reader_tzer memcmp_eq
  simp only [List.length_cons, List.length_nil, t1, t2, t3, t4, t5, t6, t7, decide_False,
    Bool.false_eq_true, if_false, ite_self]

theorem unknown_type_unchanged_witness :
    9 ≤ ((nmea_reader_init stdEnv).withLine gbsLine).pos ∧
    sentenceType gbsLine gbsLine.length = [71, 66, 83] ∧
    nmea_reader_parse stdEnv ((nmea_reader_init stdEnv).withLine gbsLine)
      = (nmea_reader_init stdEnv).withLine gbsLine :=
  ⟨by decide, by decide,
   unknown_type_unchanged stdEnv ((nmea_reader_init stdEnv).withLine gbsLine) (by decide)
     (by decide) (by decide)⟩

/-! ## Hemispheres -/

/-- C23: when both coordinate tokens have at least 6 bytes (the case in which
`nmea_reader_update_latlong` stores), the latitude stored is the decoded
latitude negated if the latitude hemisphere character is `'S'` and the decoded
latitude itself for any other character, and the longitude stored is the
decoded longitude negated if the longitude hemisphere character is `'W'` and
the decoded longitude itself for any other character (the byte found for an
empty hemisphere field included); so, for a decoded value other than zero, the
stored value is the negated one if and only if the character is `'S'`
(`'W'`). -/
theorem update_latlong_hemisphere (env : Env) (r : NmeaReader) (latitude : Token)
    (latitudeHemi : Nat) (longitude : Token) (longitudeHemi : Nat)
    (h1 : latitude.p + 6 ≤ latitude.end_) (h2 : longitude.p + 6 ≤ longitude.end_) :
    (nmea_reader_update_latlong env r latitude latitudeHemi longitude longitudeHemi).2.fix.latitude
      = (if latitudeHemi = 83 then -convert_from_hhmm env latitude
         else convert_from_hhmm env latitude) ∧
    (nmea_reader_update_latlong env r latitude latitudeHemi longitude longitudeHemi).2.fix.longitude
      = (if longitudeHemi = 87 then -convert_from_hhmm env longitude
         else convert_from_hhmm env longitude) ∧
    (convert_from_hhmm env latitude ≠ 0 →
      ((nmea_reader_update_latlong env r latitude latitudeHemi longitude
          longitudeHemi).2.fix.latitude = -convert_from_hhmm env latitude ↔ latitudeHemi = 83)) ∧
    (convert_from_hhmm env longitude ≠ 0 →
      ((nmea_reader_update_latlong env r latitude latitudeHemi longitude
          longitudeHemi).2.fix.longitude = -convert_from_hhmm env longitude
        ↔ longitudeHemi = 87)) := by
  have e1 : ¬ (latitude.p + 6 > latitude.end_) := by omega
  have e2 : ¬ (longitude.p + 6 > longitude.end_) := by omega
  have neg_ne : ∀ x : ℚ, x ≠ 0 → x ≠ -x := by
    intro x hx hxx
    apply hx
    linarith
  unfold nmea_reader_update_latlong
  simp only [e1, e2, if_false, CH_S, CH_W]
  refine ⟨trivial, trivial, ?_, ?_⟩
  · intro hne
    by_cases c : latitudeHemi = 83
    · simp only [c, if_true]
    · simp only [c, if_false, iff_false]
      exact neg_ne _ hne
  · intro hne
    by_cases c : longitudeHemi = 87
    · simp only [c, if_true]
    · simp only [c, if_false, iff_false]
      exact neg_ne _ hne

theorem update_latlong_hemisphere_witness :
    latHemiTok.at 0 = 83 ∧ lonHemiTok.at 0 = 44 ∧
    (nmea_reader_update_latlong stdEnv (nmea_reader_init stdEnv) latTok (latHemiTok.at 0) lonTok
      (lonHemiTok.at 0)).2.fix.latitude = -convert_from_hhmm stdEnv latTok ∧
    (nmea_reader_update_latlong stdEnv (nmea_reader_init stdEnv) latTok (latHemiTok.at 0) lonTok
      (lonHemiTok.at 0)).2.fix.longitude = convert_from_hhmm stdEnv lonTok :=
  ⟨by decide, by decide,
   (update_latlong_hemisphere stdEnv (nmea_reader_init stdEnv) latTok (latHemiTok.at 0) lonTok
      (lonHemiTok.at 0) (by decide) (by decide)).1.trans (if_pos (by decide)),
   (update_latlong_hemisphere stdEnv (nmea_reader_init stdEnv) latTok (latHemiTok.at 0) lonTok
      (lonHemiTok.at 0) (by decide) (by decide)).2.1.trans (if_neg (by decide))⟩

/-! ## Bounds of the line buffer -/

/-- One call of `nmea_reader_addc` keeps the cursor within `0 .. 83` and the
buffer at its size, and hands the parser a line of 1 to 83 bytes if any. -/
theorem addc_bounds (env : Env) (r : NmeaReader) (c : Nat) (hpos : r.pos ≤ NMEA_MAX_SIZE)
    (hlen : r.inb.length = NMEA_MAX_SIZE + 1) :
    (nmea_reader_addc env r c).1.pos ≤ NMEA_MAX_SIZE ∧
    (nmea_reader_addc env r c).1.inb.length = NMEA_MAX_SIZE + 1 ∧
    ∀ l, (nmea_reader_addc env r c).2 = some l → 1 ≤ l.length ∧ l.length ≤ NMEA_MAX_SIZE := by
  unfold nmea_reader_addc
  unfold NMEA_MAX_SIZE at *
  by_cases h1 : r.overflow ≠ 0
  · rw [if_pos h1]
    exact ⟨hpos, hlen, fun l hl => by cases hl⟩
  · rw [if_neg h1]
    by_cases h2 : r.pos ≥ 83 + 1 - 1
    · rw [if_pos h2]
      exact ⟨by simp, hlen, fun l hl => by cases hl⟩
    · rw [if_neg h2]
      by_cases h3 : c = CH_NL
      · simp only [h3, if_true]
        refine ⟨by simp, ?_, ?_⟩
        · rw [(parse_line_frame env _).inb]
          simp [hlen]
        · intro l hl
          simp only [Option.some.injEq] at hl
          rw [← hl, readSpan_length]
          omega
      · simp only [h3, if_false]
        refine ⟨by omega, by simp [hlen], fun l hl => by cases hl⟩

/-- Feeding bytes keeps the bounds of `addc_bounds` from any reader that has
them. -/
theorem feed_bounds (env : Env) (s : List Nat) :
    ∀ r : NmeaReader, r.pos ≤ NMEA_MAX_SIZE → r.inb.length = NMEA_MAX_SIZE + 1 →
      (nmea_reader_feed env r s).1.pos ≤ NMEA_MAX_SIZE ∧
      (nmea_reader_feed env r s).1.inb.length = NMEA_MAX_SIZE + 1 ∧
      ∀ l ∈ (nmea_reader_feed env r s).2, 1 ≤ l.length ∧ l.length ≤ NMEA_MAX_SIZE := by
  induction s with
  | nil =>
    intro r hpos hlen
    exact ⟨hpos, hlen, fun l hl => by cases hl⟩
  | cons c cs ih =>
    intro r hpos hlen
    obtain ⟨a1, a2, a3⟩ := addc_bounds env r c hpos hlen
    obtain ⟨b1, b2, b3⟩ := ih (nmea_reader_addc env r c).1 a1 a2
    have e : nmea_reader_feed env r (c :: cs)
        = ((nmea_reader_feed env (nmea_reader_addc env r c).1 cs).1,
           (nmea_reader_addc env r c).2.toList
             ++ (nmea_reader_feed env (nmea_reader_addc env r c).1 cs).2) := rfl
    rw [e]
    refine ⟨b1, b2, ?_⟩
    intro l hl
    rcases List.mem_append.mp hl with h | h
    · apply a3
      cases hh : (nmea_reader_addc env r c).2 with
      | none => rw [hh] at h; cases h
      | some x =>
        rw [hh] at h
        simp only [Option.toList, List.mem_singleton] at h
        rw [h]
    · exact b3 l h

/-- The store of `nmea_reader_addc`, when the call reaches it, puts the byte at
the index `addc_store_index`; a call that does not reach it leaves the buffer as
it is. -/
theorem addc_store (env : Env) (r : NmeaReader) (c : Nat) :
    (nmea_reader_addc env r c).1.inb
      = (match addc_store_index r with
         | some i => r.inb.set i c
         | none => r.inb) := by
  unfold nmea_reader_addc addc_store_index
  by_cases h1 : r.overflow ≠ 0
  · rw [if_pos h1, if_pos h1]
  · rw [if_neg h1, if_neg h1]
    by_cases h2 : r.pos ≥ NMEA_MAX_SIZE + 1 - 1
    · rw [if_pos h2, if_pos h2]
    · rw [if_neg h2, if_neg h2]
      by_cases h3 : c = CH_NL
      · rw [if_pos h3]
        exact (parse_line_frame env _).inb
      · rw [if_neg h3]

/-- C29: in every state reached from `nmea_reader_init` by a sequence of
`nmea_reader_addc` calls (the bytes `s`), the cursor is at most 83
(`sizeof(in) - 1`; it is never negative), the buffer has its 84 bytes, the next
call stores, if it stores, at an index below 83, and every line the parser was
invoked on had `1 <= pos <= 83`. -/
theorem line_buffer_bounds (env : Env) (s : List Nat) :
    (nmea_reader_feed env (nmea_reader_init env) s).1.pos ≤ NMEA_MAX_SIZE ∧
    (nmea_reader_feed env (nmea_reader_init env) s).1.inb.length = NMEA_MAX_SIZE + 1 ∧
    (∀ i, addc_store_index (nmea_reader_feed env (nmea_reader_init env) s).1 = some i →
      i < NMEA_MAX_SIZE) ∧
    (∀ l ∈ (nmea_reader_feed env (nmea_reader_init env) s).2,
      1 ≤ l.length ∧ l.length ≤ NMEA_MAX_SIZE) := by
  obtain ⟨b1, b2, b3⟩ := feed_bounds env s (nmea_reader_init env) (by simp [nmea_reader_init])
    (by simp [nmea_reader_init])
  refine ⟨b1, b2, ?_, b3⟩
  intro i hi
  unfold addc_store_index at hi
  unfold NMEA_MAX_SIZE at *
  split_ifs at hi with h1 h2
  simp only [Option.some.injEq] at hi
  omega

/-! ## The used-in-fix mask and the flag `gsa_fixed` -/

set_option maxRecDepth 1000000

/-- One step of the satellite-ID loop keeps "`gsa_fixed = 0` implies an empty
mask": it either sets `gsa_fixed` or changes nothing. -/
theorem gsa_prn_step_fixed (b : Bool) (tzer : NmeaTokenizer) (r : NmeaReader) (i : Nat)
    (h : r.gsa_fixed = 0 → r.sv_status.used_in_fix_mask = 0) :
    (gsa_prn_step b tzer r i).gsa_fixed = 0 →
      (gsa_prn_step b tzer r i).sv_status.used_in_fix_mask = 0 := by
  unfold gsa_prn_step
  simp only
  split_ifs
  · intro h1
    exact absurd h1 one_ne_zero
  · intro h1
    exact absurd h1 one_ne_zero
  · exact h

theorem gsa_prn_fold_fixed (b : Bool) (tzer : NmeaTokenizer) (l : List Nat) :
    ∀ r : NmeaReader, (r.gsa_fixed = 0 → r.sv_status.used_in_fix_mask = 0) →
      (l.foldl (gsa_prn_step b tzer) r).gsa_fixed = 0 →
        (l.foldl (gsa_prn_step b tzer) r).sv_status.used_in_fix_mask = 0 := by
  induction l with
  | nil => intro r h; exact h
  | cons i l ih =>
    intro r h
    rw [List.foldl_cons]
    exact ih _ (gsa_prn_step_fixed b tzer r i h)

theorem parse_gsa_fixed (env : Env) (b : Bool) (tzer : NmeaTokenizer) (r : NmeaReader)
    (h : r.gsa_fixed = 0 → r.sv_status.used_in_fix_mask = 0) :
    (parse_gsa env b tzer r).gsa_fixed = 0 →
      (parse_gsa env b tzer r).sv_status.used_in_fix_mask = 0 := by
  unfold parse_gsa
  simp only
  split_ifs
  · apply gsa_prn_fold_fixed
    intro _
    rfl
  · apply gsa_prn_fold_fixed
    rw [(update_accuracy_frame env r _).gsa_fixed, (update_accuracy_frame env r _).sv_status]
    exact h
  · exact h
  · intro _
    rfl
  · exact h

theorem parse_gsv_fixed (env : Env) (b : Bool) (tzer : NmeaTokenizer) (r : NmeaReader) :
    (parse_gsv env b tzer r).gsa_fixed = r.gsa_fixed ∧
    (parse_gsv env b tzer r).sv_status.used_in_fix_mask = r.sv_status.used_in_fix_mask := by
  unfold parse_gsv parse_gsv_loop
  simp only
  split_ifs <;> exact ⟨rfl, rfl⟩

/-- One call of the parser that stores every satellite record inside `sv_list`
keeps "`gsa_fixed = 0` implies an empty mask". -/
theorem parse_gsa_fixed_mask (env : Env) (r : NmeaReader)
    (_hin : ∀ w ∈ parse_sv_writes env r, 0 ≤ w ∧ w < (GPS_MAX_SVS : Int))
    (h : r.gsa_fixed = 0 → r.sv_status.used_in_fix_mask = 0) :
    (nmea_reader_parse env r).gsa_fixed = 0 →
      (nmea_reader_parse env r).sv_status.used_in_fix_mask = 0 := by
  unfold nmea_reader_parse
  simp only
  split_ifs
  · exact h
  · exact h
  · rw [(parse_gga_frame env _ r).sv_status, (parse_gga_frame env _ r).gsa_fixed]; exact h
  · rw [(parse_gll_frame env _ r).sv_status, (parse_gll_frame env _ r).gsa_fixed]; exact h
  · exact parse_gsa_fixed env _ _ r h
  · rw [(parse_gsv_fixed env _ _ r).1, (parse_gsv_fixed env _ _ r).2]; exact h
  · rw [(parse_rmc_frame env _ r).sv_status, (parse_rmc_frame env _ r).gsa_fixed]; exact h
  · rw [(parse_vtg_frame env _ r).sv_status, (parse_vtg_frame env _ r).gsa_fixed]; exact h
  · rw [(parse_zda_frame env _ r).sv_status, (parse_zda_frame env _ r).gsa_fixed]; exact h
  · exact h

/-- The publisher's sample leaves `gsa_fixed` as it is. -/
theorem timer_sample_gsa_fixed (s : GpsState) :
    (gps_timer_sample s).1.reader.gsa_fixed = s.reader.gsa_fixed := by
  unfold gps_timer_sample
  simp only
  split_ifs <;> rfl

/-- In every reader of a session that stores every satellite record inside
`sv_list`, `gsa_fixed = 0` implies an empty used-in-fix mask. -/
theorem inbounds_gsa_fixed_mask (r : NmeaReader) (h : InBoundsReachable r) :
    r.gsa_fixed = 0 → r.sv_status.used_in_fix_mask = 0 := by
  induction h with
  | init env => intro _; rfl
  | line r buf pos overflow _ ih => exact ih
  | parse env r _ hin ih => exact parse_gsa_fixed_mask env r hin ih
  | sample s _ ih => rw [timer_sample_sv_status, timer_sample_gsa_fixed]; exact ih

/-- Feeding bytes to a reachable reader gives a reachable reader. -/
theorem feed_reachable (env : Env) (s : List Nat) :
    ∀ r : NmeaReader, Reachable r → Reachable (nmea_reader_feed env r s).1 := by
  induction s with
  | nil => intro r h; exact h
  | cons c cs ih =>
    intro r h
    exact ih _ (addc_reachable env r c h)

/-- The parser dispatches a primary-talker GSA sentence that reports no fix to
the no-fix arm of the GSA branch. -/
theorem parse_of_isGsaNoFix (env : Env) (r : NmeaReader) (buf : List Nat) (pos : Nat)
    (h : IsGsaNoFix buf pos) :
    nmea_reader_parse env (r.setLine buf pos)
      = (if r.gsa_fixed ≠ 0 then
          { r.setLine buf pos with
            sv_status := { r.sv_status with used_in_fix_mask := 0 }, gsa_fixed := 0 }
         else r.setLine buf pos) := by
  obtain ⟨⟨h9, h5, hty⟩, hbd, hfix⟩ := h
  unfold talkerIsBD at hbd
  unfold lineTok at h5 hbd hty hfix
  have hspan : readSpan (nmea_tokenizer_get (nmea_tokenizer_init buf 0 pos) 0).mem
      ((nmea_tokenizer_get (nmea_tokenizer_init buf 0 pos) 0).p + 2)
      ((nmea_tokenizer_get (nmea_tokenizer_init buf 0 pos) 0).p + 2 + 3) = [71, 83, 65] := by
    unfold memcmp_eq at hty
    simpa using hty
  have hat : (nmea_tokenizer_get (nmea_tokenizer_init buf 0 pos) 2).at 0 = 0 ∨
      (nmea_tokenizer_get (nmea_tokenizer_init buf 0 pos) 2).at 0 = 49 := by
    rcases hfix with c | c
    · exact Or.inl (absent_token_at_zero _ 2 c)
    · exact Or.inr c
  have e9 : ¬ pos < 9 := by omega
  have e5 : ¬ ((nmea_tokenizer_get (nmea_tokenizer_init buf 0 pos) 0).p + 5
      > (nmea_tokenizer_get (nmea_tokenizer_init buf 0 pos) 0).end_) := by omega
  have egate : ¬ ((nmea_tokenizer_get (nmea_tokenizer_init buf 0 pos) 2).at 0 ≠ 0 ∧
      (nmea_tokenizer_get (nmea_tokenizer_init buf 0 pos) 2).at 0 ≠ 49) := by
    rintro ⟨c1, c2⟩
    rcases hat with c | c
    · exact c1 c
    · exact c2 c
  unfold nmea_reader_parse reader_tzer NmeaReader.setLine
  simp only [e9, e5, if_false]
  unfold memcmp_eq
  simp only [List.length_cons, List.length_nil, hspan]
  simp only [show ([71, 83, 65] : List Nat) ≠ [71, 71, 65] by decide,
    show ([71, 83, 65] : List Nat) ≠ [71, 76, 76] by decide, decide_False, decide_True,
    Bool.false_eq_true, if_false, if_true]
  unfold parse_gsa
  simp only [egate, if_false]
  unfold memcmp_eq at hbd
  simp only [List.length_cons, List.length_nil] at hbd
  simp only [hbd, Bool.false_eq_true, if_false]

/-- C30, as stated, fails: the GSA sentence of the primary talker
`gsaEmptyModeLine` has an empty fix-mode field (no byte between the commas);
the code tests the byte at the start of the field, the `','` that follows, takes
the sentence as a fix and sets the bits of the satellites 04 and 05: parsed from
`nmea_reader_init`, where `gsa_fixed = 0` and the mask is empty, it leaves the
used-in-fix mask at 24. -/
theorem gsa_empty_mode_counterexample :
    IsSentence gsaEmptyModeLine gsaEmptyModeLine.length [71, 83, 65] ∧
    talkerIsBD gsaEmptyModeLine gsaEmptyModeLine.length = false ∧
    (lineTok gsaEmptyModeLine gsaEmptyModeLine.length 2).bytes = [] ∧
    (lineTok gsaEmptyModeLine gsaEmptyModeLine.length 2).at 0 = 44 ∧
    (nmea_reader_init stdEnv).gsa_fixed = 0 ∧
    (nmea_reader_init stdEnv).sv_status.used_in_fix_mask = 0 ∧
    (nmea_reader_feed stdEnv (nmea_reader_init stdEnv) gsaEmptyModeLine).2 = [gsaEmptyModeLine] ∧
    (nmea_reader_feed stdEnv (nmea_reader_init stdEnv)
      gsaEmptyModeLine).1.sv_status.used_in_fix_mask = 24 := by
  decide

/-- C30, amended: in every reader state of a session that starts from
`nmea_reader_init` and stores every satellite record inside `sv_list` (lines
put in the buffer, sentences parsed, samples of the publisher), `gsa_fixed = 0`
implies `used_in_fix_mask = 0`; and after `nmea_reader_parse` in such a state on
any GSA sentence of the primary talker whose fix-mode field is absent (the
sentence has no field 2) or begins with `'1'` the used-in-fix mask is zero. -/
theorem gsa_no_fix_mask_zero (r : NmeaReader) (h : InBoundsReachable r) :
    (r.gsa_fixed = 0 → r.sv_status.used_in_fix_mask = 0) ∧
    ∀ (env : Env) (buf : List Nat) (pos : Nat), IsGsaNoFix buf pos →
      (nmea_reader_parse env (r.setLine buf pos)).sv_status.used_in_fix_mask = 0 := by
  refine ⟨inbounds_gsa_fixed_mask r h, ?_⟩
  intro env buf pos hl
  rw [parse_of_isGsaNoFix env r buf pos hl]
  by_cases c : r.gsa_fixed ≠ 0
  · rw [if_pos c]
  · rw [if_neg c]
    exact inbounds_gsa_fixed_mask r h (not_not.mp c)

theorem gsa_no_fix_mask_zero_witness :
    (nmea_reader_parse stdEnv ((nmea_reader_init stdEnv).withLine gsaLine)).gsa_fixed = 1 ∧
    (nmea_reader_parse stdEnv
      ((nmea_reader_init stdEnv).withLine gsaLine)).sv_status.used_in_fix_mask = 8390936 ∧
    IsGsaNoFix gsaNoFixLine gsaNoFixLine.length ∧
    (nmea_reader_parse stdEnv
      ((nmea_reader_parse stdEnv ((nmea_reader_init stdEnv).withLine gsaLine)).setLine
        gsaNoFixLine gsaNoFixLine.length)).sv_status.used_in_fix_mask = 0 :=
  ⟨by decide, by decide, by decide,
   (gsa_no_fix_mask_zero (nmea_reader_parse stdEnv ((nmea_reader_init stdEnv).withLine gsaLine))
      (InBoundsReachable.parse stdEnv ((nmea_reader_init stdEnv).withLine gsaLine)
        (InBoundsReachable.line (nmea_reader_init stdEnv) gsaLine gsaLine.length
          (nmea_reader_init stdEnv).overflow (InBoundsReachable.init stdEnv))
        (by decide))).2 stdEnv gsaNoFixLine gsaNoFixLine.length (by decide)⟩

/-! ## Stores into the satellite list -/

set_option maxRecDepth 1000000

/-- The loop of the GSV branch stores at indices between 0 and `GPS_MAX_SVS`,
the bound included, when it starts with `curr` in that range. -/
theorem gsv_loop_writes (env : Env) (tzer : NmeaTokenizer) (noSat : Int) (k : Nat) :
    ∀ (i : Nat) (st : GsvLoop), 0 ≤ st.curr → st.curr ≤ (GPS_MAX_SVS : Int) →
      (∀ w ∈ st.writes, 0 ≤ w ∧ w ≤ (GPS_MAX_SVS : Int)) →
      ∀ w ∈ (gsv_loop env tzer noSat k i st).writes, 0 ≤ w ∧ w ≤ (GPS_MAX_SVS : Int) := by
  induction k with
  | zero => intro i st _ _ hw; exact hw
  | succ k ih =>
    intro i st h0 h1 hw
    simp only [GPS_MAX_SVS, Nat.cast_ofNat] at h1 hw ih ⊢
    unfold gsv_loop
    simp only [GPS_MAX_SVS, Nat.cast_ofNat]
    by_cases hlt : st.num_svs < noSat
    · simp only [hlt, if_true]
      apply ih
      · simp only
        split_ifs with hc
        · omega
        · unfold wrap32 at hc ⊢; omega
      · simp only
        split_ifs with hc
        · omega
        · omega
      · intro w hmem
        simp only [List.mem_append, List.mem_singleton] at hmem
        rcases hmem with c | c
        · exact hw w c
        · rw [c]; exact ⟨h0, h1⟩
    · simp only [hlt, if_false]
      exact hw

/-- The stores of the parser on a GSV sentence are those of the loop of the GSV
branch. -/
theorem parse_sv_writes_of_isGsv (env : Env) (r : NmeaReader) (buf : List Nat) (pos : Nat)
    (bd : Bool) (total idx n : Int) (h : IsGsv buf pos bd total idx n) :
    parse_sv_writes env (r.setLine buf pos)
      = (if n > 0 then
          (parse_gsv_loop env bd (nmea_tokenizer_init buf 0 pos) (r.setLine buf pos) n idx).2.writes
         else []) := by
  obtain ⟨h9, h5, hbd, hty, _, hidx, hn⟩ := h
  unfold Token.int at hidx hn
  unfold lineTok at h5 hbd hty hidx hn
  have hspan : readSpan (nmea_tokenizer_get (nmea_tokenizer_init buf 0 pos) 0).mem
      ((nmea_tokenizer_get (nmea_tokenizer_init buf 0 pos) 0).p + 2)
      ((nmea_tokenizer_get (nmea_tokenizer_init buf 0 pos) 0).p + 2 + 3) = [71, 83, 86] := by
    unfold memcmp_eq at hty
    simpa using hty
  have e9 : ¬ pos < 9 := by omega
  have e5 : ¬ ((nmea_tokenizer_get (nmea_tokenizer_init buf 0 pos) 0).p + 5
      > (nmea_tokenizer_get (nmea_tokenizer_init buf 0 pos) 0).end_) := by omega
  unfold parse_sv_writes reader_tzer NmeaReader.setLine
  simp only [e9, e5, if_false, hidx, hn, hbd]
  unfold memcmp_eq
  simp only [List.length_cons, List.length_nil, hspan]
  simp only [show ([71, 83, 86] : List Nat) ≠ [71, 71, 65] by decide,
    show ([71, 83, 86] : List Nat) ≠ [71, 76, 76] by decide,
    show ([71, 83, 86] : List Nat) ≠ [71, 83, 65] by decide, decide_False, decide_True,
    Bool.false_eq_true, if_false, if_true]

/-- In every reachable reader the parser stores satellite records at indices
between 0 and `GPS_MAX_SVS`, the bound included. -/
theorem parse_sv_writes_le (env : Env) (r : NmeaReader) (h : Reachable r) :
    ∀ w ∈ parse_sv_writes env r, 0 ≤ w ∧ w ≤ (GPS_MAX_SVS : Int) := by
  have hb := num_svs_bounded r h
  have nil_ok : ∀ w ∈ ([] : List Int), 0 ≤ w ∧ w ≤ (GPS_MAX_SVS : Int) := by
    intro w hw; cases hw
  unfold parse_sv_writes parse_gsv_loop
  simp only
  split_ifs <;>
    first
    | exact nil_ok
    | exact gsv_loop_writes env _ _ 4 0 _ hb.1 hb.2 nil_ok
    | exact gsv_loop_writes env _ _ 4 0 _ (le_refl _) (by simp [GPS_MAX_SVS]) nil_ok

/-- The reader on which `nmea_reader_addc` calls the parser is the one
`addc_parse_state` gives. -/
theorem addc_parses (env : Env) (r : NmeaReader) (h0 : r.overflow = 0)
    (hpos : r.pos < NMEA_MAX_SIZE) :
    (nmea_reader_addc env r CH_NL).1
      = { nmea_reader_parse env (addc_parse_state r) with pos := 0 } := by
  unfold nmea_reader_addc addc_parse_state
  unfold NMEA_MAX_SIZE at *
  rw [if_neg (by rw [h0]; decide), if_neg (by omega), if_pos rfl]

/-- C28 fails on the code: the eight sentences `gsvLine36 1 .. 8` of a group that
declares 36 satellites, fed from `nmea_reader_init`, are all parsed and leave
the count at 32 = `GPS_MAX_SVS`; when the `'\n'` of the ninth sentence arrives
(overflow clear, cursor at 69) the parser runs on that sentence, the loop runs
four times (32 < 36) and each time stores a record at index 32, one past the
last entry of `sv_list`: the test `++curr > GPS_MAX_SVS` lets `curr` reach
`GPS_MAX_SVS`. -/
theorem gsv_store_past_end :
    (nmea_reader_feed stdEnv (nmea_reader_init stdEnv) gsvStream36).2
      = [gsvLine36 1, gsvLine36 2, gsvLine36 3, gsvLine36 4, gsvLine36 5, gsvLine36 6,
         gsvLine36 7, gsvLine36 8] ∧
    (nmea_reader_feed stdEnv (nmea_reader_init stdEnv) gsvStream36).1.sv_status.num_svs = 32 ∧
    (nmea_reader_feed stdEnv (nmea_reader_init stdEnv) gsvStream36).1.sv_status.sv_list.length
      = GPS_MAX_SVS ∧
    IsGsv (gsvLine36 9) (gsvLine36 9).length false 9 9 36 ∧
    (nmea_reader_feed stdEnv (nmea_reader_init stdEnv) gsvStream36Open).1.overflow = 0 ∧
    (nmea_reader_feed stdEnv (nmea_reader_init stdEnv) gsvStream36Open).1.pos = 69 ∧
    readSpan (addc_parse_state
        (nmea_reader_feed stdEnv (nmea_reader_init stdEnv) gsvStream36Open).1).inb 0 70
      = gsvLine36 9 ∧
    parse_sv_writes stdEnv
      (addc_parse_state (nmea_reader_feed stdEnv (nmea_reader_init stdEnv) gsvStream36Open).1)
      = [32, 32, 32, 32] ∧
    ¬ ((32 : Int) < (GPS_MAX_SVS : Int)) := by
  decide

/-! ## The talker ID -/

set_option maxRecDepth 1000000

/-- The end pointer after the two strips is at most the end of the line. -/
theorem strip_le (buf : List Nat) (p e : Nat) :
    strip_checksum buf p (strip_newline buf p e) ≤ e := by
  unfold strip_checksum strip_newline
  split_ifs <;> omega

/-- The first comma found from `p` on depends only on the bytes from `p` on. -/
theorem memchr_agree (b1 b2 : List Nat) (c : Nat) (n : Nat) :
    ∀ p, (∀ i, p ≤ i → readByte b1 i = readByte b2 i) → memchr b1 c p n = memchr b2 c p n := by
  induction n with
  | zero => intro p _; rfl
  | succ n ih =>
    intro p h
    unfold memchr
    rw [h p (le_refl p), ih (p + 1) (fun i hi => h i (by omega))]

/-- The tokens found from `p` on depend only on the bytes from `p` on. -/
theorem tokenizer_loop_agree (b1 b2 : List Nat) (e : Nat) (fuel : Nat) :
    ∀ (p : Nat) (toks : List (Nat × Nat)), (∀ i, p ≤ i → readByte b1 i = readByte b2 i) →
      tokenizer_loop b1 e fuel p toks = tokenizer_loop b2 e fuel p toks := by
  induction fuel with
  | zero => intro p toks _; rfl
  | succ fuel ih =>
    intro p toks h
    unfold tokenizer_loop
    rw [memchr_agree b1 b2 CH_COMMA (e - p) p h]
    by_cases hp : p < e
    · simp only [hp, if_true]
      cases hm : memchr b2 CH_COMMA p (e - p) with
      | none =>
        simp only
        apply ih
        intro i hi
        apply h
        split_ifs at hi <;> omega
      | some q =>
        simp only
        have hq := (memchr_some b2 CH_COMMA (e - p) p q hm).1
        apply ih
        intro i hi
        apply h
        split_ifs at hi <;> omega
    · simp only [hp, if_false]

/-- One round of the loop of the tokenizer with `p < end`: the token found ends
at the first comma from `p` on, or at `end`. -/
theorem tokenizer_loop_step (buf : List Nat) (e fuel p : Nat) (toks : List (Nat × Nat))
    (hp : p < e) :
    ∃ q, p ≤ q ∧ q ≤ e ∧ (∀ i, p ≤ i → i < q → readByte buf i ≠ CH_COMMA) ∧
      tokenizer_loop buf e (fuel + 1) p toks
        = tokenizer_loop buf e fuel (if q < e then q + 1 else q)
            (if toks.length < MAX_NMEA_TOKENS then toks ++ [(p, q)] else toks) := by
  conv =>
    enter [1, q, 2, 2, 2, 1]
    rw [tokenizer_loop]
  simp only [hp, if_true]
  cases hm : memchr buf CH_COMMA p (e - p) with
  | none =>
    refine ⟨e, by omega, le_refl _, ?_, rfl⟩
    intro i h1 h2
    exact memchr_none buf CH_COMMA (e - p) p hm i h1 (by omega)
  | some q =>
    obtain ⟨a1, a2, _, a4⟩ := memchr_some buf CH_COMMA (e - p) p q hm
    exact ⟨q, a1, by omega, a4, rfl⟩

/-- The loop of the tokenizer keeps the tokens it has, and the tokens it adds
start at or after its start pointer. -/
theorem tokenizer_loop_prefix (buf : List Nat) (e : Nat) (fuel : Nat) :
    ∀ (p : Nat) (toks : List (Nat × Nat)),
      ∃ rest, tokenizer_loop buf e fuel p toks = toks ++ rest ∧ ∀ t ∈ rest, p ≤ t.1 := by
  induction fuel with
  | zero => intro p toks; exact ⟨[], by simp [tokenizer_loop], fun t ht => by cases ht⟩
  | succ fuel ih =>
    intro p toks
    by_cases hp : p < e
    · obtain ⟨q, hq, _, _, heq⟩ := tokenizer_loop_step buf e fuel p toks hp
      rw [heq]
      obtain ⟨rest, h1, h2⟩ := ih (if q < e then q + 1 else q)
        (if toks.length < MAX_NMEA_TOKENS then toks ++ [(p, q)] else toks)
      have h2' : ∀ t ∈ rest, p ≤ t.1 := by
        intro t ht
        have := h2 t ht
        split_ifs at this <;> omega
      by_cases hc : toks.length < MAX_NMEA_TOKENS
      · simp only [hc, if_true] at h1 ⊢
        refine ⟨(p, q) :: rest, by rw [h1]; simp, ?_⟩
        intro t ht
        rcases List.mem_cons.mp ht with c | c
        · rw [c]
        · exact h2' t c
      · simp only [hc, if_false] at h1 ⊢
        exact ⟨rest, h1, h2'⟩
    · unfold tokenizer_loop
      simp only [hp, if_false]
      exact ⟨[], by simp, fun t ht => by cases ht⟩

/-- The first round of the loop of the tokenizer: the first token starts at the
start pointer and ends before the first comma, and the further tokens start at
or after its end. -/
theorem tokenizer_loop_first (buf : List Nat) (e p : Nat) (hp : p < e) (fuel : Nat) :
    ∃ q rest, tokenizer_loop buf e (fuel + 1) p [] = (p, q) :: rest ∧ p ≤ q ∧ q ≤ e ∧
      (∀ i, p ≤ i → i < q → readByte buf i ≠ CH_COMMA) ∧ (∀ t ∈ rest, q ≤ t.1) := by
  obtain ⟨q, hq1, hq2, hq3, heq⟩ := tokenizer_loop_step buf e fuel p [] hp
  rw [heq]
  simp only [List.length_nil, MAX_NMEA_TOKENS, List.nil_append, show (0 : Nat) < 32 by decide,
    if_true]
  obtain ⟨rest, h1, h2⟩ := tokenizer_loop_prefix buf e fuel (if q < e then q + 1 else q) [(p, q)]
  rw [h1]
  refine ⟨q, rest, rfl, hq1, hq2, hq3, ?_⟩
  intro t ht
  have := h2 t ht
  split_ifs at this <;> omega

/-- The tokens of a line whose first field has at least 5 bytes: the first token
starts where the strip of `'$'` ends and has no comma among its first five bytes,
and every further token starts at least 5 bytes later. -/
theorem first_token (buf : List Nat) (pos : Nat)
    (h : (lineTok buf pos 0).p + 5 ≤ (lineTok buf pos 0).end_) :
    ∃ q rest, (nmea_tokenizer_init buf 0 pos).tokens = (strip_dollar buf 0 pos, q) :: rest ∧
      strip_dollar buf 0 pos + 5 ≤ q ∧
      q ≤ strip_checksum buf (strip_dollar buf 0 pos)
        (strip_newline buf (strip_dollar buf 0 pos) pos) ∧
      (∀ i, strip_dollar buf 0 pos ≤ i → i < q → readByte buf i ≠ CH_COMMA) ∧
      (∀ t ∈ rest, q ≤ t.1) := by
  unfold lineTok nmea_tokenizer_get at h
  unfold nmea_tokenizer_init at h ⊢
  simp only at h ⊢
  generalize strip_dollar buf 0 pos = p1 at h ⊢
  generalize strip_checksum buf p1 (strip_newline buf p1 pos) = e2 at h ⊢
  by_cases hp : p1 < e2
  · obtain ⟨n, hn⟩ : ∃ n, e2 - p1 = n + 1 := ⟨e2 - p1 - 1, by omega⟩
    rw [hn] at h ⊢
    obtain ⟨q, rest, h1, h2, h3, h4, h5⟩ := tokenizer_loop_first buf e2 p1 hp n
    rw [h1] at h ⊢
    simp only [List.get?_cons_zero] at h
    exact ⟨q, rest, rfl, h, h3, h4, h5⟩
  · have hz : e2 - p1 = 0 := by omega
    rw [hz] at h
    simp [tokenizer_loop, dummyToken] at h

/-- The tokens from `d` on are the same in two buffers that agree from `d + 2`
on and have no comma at `d` and `d + 1`. -/
theorem tokenizer_loop_talker (b1 b2 : List Nat) (e d fuel : Nat) (hd : d + 2 ≤ e)
    (hag : ∀ i, d + 2 ≤ i → readByte b1 i = readByte b2 i)
    (c1 : readByte b1 d ≠ CH_COMMA) (c1' : readByte b1 (d + 1) ≠ CH_COMMA)
    (c2 : readByte b2 d ≠ CH_COMMA) (c2' : readByte b2 (d + 1) ≠ CH_COMMA) :
    tokenizer_loop b1 e fuel d [] = tokenizer_loop b2 e fuel d [] := by
  cases fuel with
  | zero => rfl
  | succ fuel =>
    have hm : memchr b1 CH_COMMA d (e - d) = memchr b2 CH_COMMA d (e - d) := by
      obtain ⟨n, hn⟩ : ∃ n, e - d = n + 2 := ⟨e - d - 2, by omega⟩
      rw [hn]
      unfold memchr
      rw [if_neg c1, if_neg c2]
      unfold memchr
      rw [if_neg c1', if_neg c2']
      exact memchr_agree b1 b2 CH_COMMA n (d + 1 + 1) (fun i hi => hag i (by omega))
    have hp : d < e := by omega
    unfold tokenizer_loop
    simp only [hp, if_true]
    rw [hm]
    cases hm2 : memchr b2 CH_COMMA d (e - d) with
    | none =>
      simp only
      apply tokenizer_loop_agree
      intro i hi
      apply hag
      split_ifs at hi <;> omega
    | some q =>
      simp only
      obtain ⟨a1, _, a3, _⟩ := memchr_some b2 CH_COMMA (e - d) d q hm2
      have hq : d + 2 ≤ q := by
        by_contra hlt
        have : q = d ∨ q = d + 1 := by omega
        rcases this with c | c
        · rw [c] at a3; exact c2 a3
        · rw [c] at a3; exact c2' a3
      apply tokenizer_loop_agree
      intro i hi
      apply hag
      split_ifs at hi <;> omega

/-- Two lines that are the same but for the talker ID have the same tokens: the
first starts at the talker ID and has at least 5 bytes, the others start after
it, and the lines agree from the third byte of the first token on. -/
theorem same_but_talker_tokens (buf1 buf2 : List Nat) (pos : Nat)
    (h : SameButTalker buf1 buf2 pos) :
    ∃ d q rest, (nmea_tokenizer_init buf1 0 pos).tokens = (d, q) :: rest ∧
      (nmea_tokenizer_init buf2 0 pos).tokens = (d, q) :: rest ∧
      d + 5 ≤ q ∧ (∀ t ∈ rest, d + 2 ≤ t.1) ∧
      (∀ i, d + 2 ≤ i → readByte buf1 i = readByte buf2 i) := by
  obtain ⟨hp, h1, h2, hag⟩ := h
  obtain ⟨q1, rest1, t1, a1, a2, a3, a4⟩ := first_token buf1 pos h1
  obtain ⟨q2, rest2, t2, b1, b2, b3, _⟩ := first_token buf2 pos h2
  have p1 : (lineTok buf1 pos 0).p = strip_dollar buf1 0 pos := by
    unfold lineTok nmea_tokenizer_get
    rw [t1]
    rfl
  have p2 : (lineTok buf2 pos 0).p = strip_dollar buf2 0 pos := by
    unfold lineTok nmea_tokenizer_get
    rw [t2]
    rfl
  rw [p1] at hag
  rw [p1, p2] at hp
  have hag2 : ∀ i, strip_dollar buf1 0 pos + 2 ≤ i → readByte buf1 i = readByte buf2 i :=
    fun i hi => hag i (by omega) (by omega)
  have le1 := strip_le buf1 (strip_dollar buf1 0 pos) pos
  have hnl : strip_newline buf2 (strip_dollar buf2 0 pos) pos
      = strip_newline buf1 (strip_dollar buf1 0 pos) pos := by
    rw [← hp]
    unfold strip_newline
    rw [hag2 (pos - 1) (by omega), hag2 (pos - 2) (by omega)]
  have hle : strip_checksum buf1 (strip_dollar buf1 0 pos)
      (strip_newline buf1 (strip_dollar buf1 0 pos) pos)
        ≤ strip_newline buf1 (strip_dollar buf1 0 pos) pos := by
    unfold strip_checksum
    split_ifs <;> omega
  have hck : strip_checksum buf2 (strip_dollar buf2 0 pos)
      (strip_newline buf2 (strip_dollar buf2 0 pos) pos)
        = strip_checksum buf1 (strip_dollar buf1 0 pos)
          (strip_newline buf1 (strip_dollar buf1 0 pos) pos) := by
    rw [hnl, ← hp]
    unfold strip_checksum
    rw [hag2 (strip_newline buf1 (strip_dollar buf1 0 pos) pos - 3) (by omega)]
  have htok : (nmea_tokenizer_init buf2 0 pos).tokens = (nmea_tokenizer_init buf1 0 pos).tokens := by
    unfold nmea_tokenizer_init
    simp only
    rw [hck, ← hp]
    symm
    apply tokenizer_loop_talker buf1 buf2 _ _ _ (by omega) hag2
    · exact a3 _ (le_refl _) (by omega)
    · exact a3 _ (by omega) (by omega)
    · rw [hp]; exact b3 _ (le_refl _) (by omega)
    · rw [hp]; exact b3 _ (by omega) (by omega)
  refine ⟨strip_dollar buf1 0 pos, q1, rest1, t1, by rw [htok, t1], a1, ?_, hag2⟩
  intro t ht
  have := a4 t ht
  omega

/-! ## What the decoders read -/

set_option maxRecDepth 1000000

/-- The bytes `mem[p .. e)` depend only on the bytes from `p` on. -/
theorem readSpan_agree (m1 m2 : List Nat) (p e : Nat)
    (h : ∀ i, p ≤ i → readByte m1 i = readByte m2 i) : readSpan m1 p e = readSpan m2 p e := by
  unfold readSpan
  apply List.map_congr_left
  intro i _
  exact h (p + i) (by omega)

theorem str2int_loop_agree (m1 m2 : List Nat) (e : Nat) (len : Nat) :
    ∀ (p : Nat) (res : Int), (∀ i, p ≤ i → readByte m1 i = readByte m2 i) →
      str2int_loop m1 e len p res = str2int_loop m2 e len p res := by
  induction len with
  | zero => intro p res _; rfl
  | succ len ih =>
    intro p res h
    unfold str2int_loop
    rw [h p (le_refl p)]
    simp only
    split_ifs
    · rfl
    · rfl
    · exact ih (p + 1) _ (fun i hi => h i (by omega))

/-- The value `str2int(p, end)` depends only on the bytes from `p` on. -/
theorem str2int_agree (m1 m2 : List Nat) (p e : Nat)
    (h : ∀ i, p ≤ i → readByte m1 i = readByte m2 i) : str2int m1 p e = str2int m2 p e := by
  have hl := fun len => str2int_loop_agree m1 m2 e len p 0 h
  unfold str2int
  simp only [hl]

/-- The value `str2float(p, end)` depends only on the bytes from `p` on. -/
theorem str2float_agree (env : Env) (m1 m2 : List Nat) (p e : Nat)
    (h : ∀ i, p ≤ i → readByte m1 i = readByte m2 i) :
    str2float env m1 p e = str2float env m2 p e := by
  have hl := fun e1 => readSpan_agree m1 m2 p e1 h
  unfold str2float
  simp only [hl]

theorem TokSim.at_eq {t1 t2 : Token} (h : TokSim t1 t2) (j : Nat) : t1.at j = t2.at j := by
  unfold Token.at
  rw [← h.p]
  exact h.mem _ (by omega)

theorem TokSim.int_eq {t1 t2 : Token} (h : TokSim t1 t2) :
    str2int t1.mem t1.p t1.end_ = str2int t2.mem t2.p t2.end_ := by
  rw [← h.p, ← h.end_]
  exact str2int_agree _ _ _ _ h.mem

theorem TokSim.float_eq {t1 t2 : Token} (h : TokSim t1 t2) (env : Env) :
    str2float env t1.mem t1.p t1.end_ = str2float env t2.mem t2.p t2.end_ := by
  rw [← h.p, ← h.end_]
  exact str2float_agree env _ _ _ _ h.mem

theorem TokSim.simRefl (t : Token) : TokSim t t := ⟨rfl, rfl, fun _ _ => rfl⟩

/-! ## The updates read the tokens, not the line buffer -/

theorem update_time_sim (env : Env) (r : NmeaReader) (t1 t2 : Token) (b : List Nat) (pos : Nat)
    (h : TokSim t1 t2) :
    (nmea_reader_update_time env (r.setLine b pos) t1).2
      = (nmea_reader_update_time env r t2).2.setLine b pos := by
  obtain ⟨mem1, p1, e1⟩ := t1
  obtain ⟨mem2, p2, e2⟩ := t2
  obtain ⟨hp, he, hm⟩ := h
  simp only at hp he hm
  subst hp he
  have i1 := str2int_agree mem1 mem2 p1 (p1 + 2) hm
  have i2 := str2int_agree mem1 mem2 (p1 + 2) (p1 + 4) (fun i hi => hm i (by omega))
  have i3 := str2float_agree env mem1 mem2 (p1 + 4) e1 (fun i hi => hm i (by omega))
  unfold nmea_reader_update_time nmea_reader_get_timestamp NmeaReader.setLine
  simp only [i1, i2, i3]
  split_ifs <;> rfl

theorem update_cdate_sim (r : NmeaReader) (d1 d2 m1 m2 y1 y2 : Token) (b : List Nat) (pos : Nat)
    (hd : TokSim d1 d2) (hm : TokSim m1 m2) (hy : TokSim y1 y2) :
    (nmea_reader_update_cdate (r.setLine b pos) d1 m1 y1).2
      = (nmea_reader_update_cdate r d2 m2 y2).2.setLine b pos := by
  obtain ⟨dm1, dp1, de1⟩ := d1
  obtain ⟨dm2, dp2, de2⟩ := d2
  obtain ⟨mm1, mp1, me1⟩ := m1
  obtain ⟨mm2, mp2, me2⟩ := m2
  obtain ⟨ym1, yp1, ye1⟩ := y1
  obtain ⟨ym2, yp2, ye2⟩ := y2
  obtain ⟨hdp, hde, hdm⟩ := hd
  obtain ⟨hmp, hme, hmm⟩ := hm
  obtain ⟨hyp, hye, hym⟩ := hy
  simp only at hdp hde hdm hmp hme hmm hyp hye hym
  subst hdp hde hmp hme hyp hye
  have i1 := str2int_agree dm1 dm2 dp1 (dp1 + 2) hdm
  have i2 := str2int_agree mm1 mm2 mp1 (mp1 + 2) hmm
  have i3 := str2int_agree ym1 ym2 yp1 (ye1 + 4) hym
  unfold nmea_reader_update_cdate NmeaReader.setLine
  simp only [i1, i2, i3]
  split_ifs <;> rfl

theorem update_date_sim (env : Env) (r : NmeaReader) (d1 d2 t1 t2 : Token) (b : List Nat)
    (pos : Nat) (hd : TokSim d1 d2) (ht : TokSim t1 t2) :
    (nmea_reader_update_date env (r.setLine b pos) d1 t1).2
      = (nmea_reader_update_date env r d2 t2).2.setLine b pos := by
  obtain ⟨dm1, dp1, de1⟩ := d1
  obtain ⟨dm2, dp2, de2⟩ := d2
  obtain ⟨hdp, hde, hdm⟩ := hd
  simp only at hdp hde hdm
  subst hdp hde
  have i1 := str2int_agree dm1 dm2 dp1 (dp1 + 2) hdm
  have i2 := str2int_agree dm1 dm2 (dp1 + 2) (dp1 + 4) (fun i hi => hdm i (by omega))
  have i3 := str2int_agree dm1 dm2 (dp1 + 4) (dp1 + 6) (fun i hi => hdm i (by omega))
  unfold nmea_reader_update_date
  simp only [i1, i2, i3]
  split_ifs
  · rfl
  · exact update_time_sim env
      { r with
        utc_year := wrap32 (str2int dm2 (dp1 + 4) (dp1 + 6) + 2000)
        utc_mon := str2int dm2 (dp1 + 2) (dp1 + 4)
        utc_day := str2int dm2 dp1 (dp1 + 2) } t1 t2 b pos ht

theorem convert_from_hhmm_sim (env : Env) (t1 t2 : Token) (h : TokSim t1 t2) :
    convert_from_hhmm env t1 = convert_from_hhmm env t2 := by
  unfold convert_from_hhmm
  rw [h.float_eq env]

theorem update_latlong_sim (env : Env) (r : NmeaReader) (a1 a2 o1 o2 : Token) (ha hb : Nat)
    (b : List Nat) (pos : Nat) (h1 : TokSim a1 a2) (h2 : TokSim o1 o2) :
    (nmea_reader_update_latlong env (r.setLine b pos) a1 ha o1 hb).2
      = (nmea_reader_update_latlong env r a2 ha o2 hb).2.setLine b pos := by
  unfold nmea_reader_update_latlong NmeaReader.setLine
  rw [convert_from_hhmm_sim env a1 a2 h1, convert_from_hhmm_sim env o1 o2 h2, h1.p, h1.end_,
    h2.p, h2.end_]
  split_ifs <;> rfl

theorem update_altitude_sim (env : Env) (r : NmeaReader) (a1 a2 u1 u2 : Token) (b : List Nat)
    (pos : Nat) (h : TokSim a1 a2) :
    (nmea_reader_update_altitude env (r.setLine b pos) a1 u1).2
      = (nmea_reader_update_altitude env r a2 u2).2.setLine b pos := by
  unfold nmea_reader_update_altitude NmeaReader.setLine
  rw [h.float_eq env, h.p, h.end_]
  split_ifs <;> rfl

theorem update_accuracy_sim (env : Env) (r : NmeaReader) (a1 a2 : Token) (b : List Nat)
    (pos : Nat) (h : TokSim a1 a2) :
    (nmea_reader_update_accuracy env (r.setLine b pos) a1).2
      = (nmea_reader_update_accuracy env r a2).2.setLine b pos := by
  unfold nmea_reader_update_accuracy NmeaReader.setLine
  rw [h.float_eq env, h.p, h.end_]
  simp only
  split_ifs <;> rfl

theorem update_bearing_sim (env : Env) (r : NmeaReader) (a1 a2 : Token) (b : List Nat)
    (pos : Nat) (h : TokSim a1 a2) :
    (nmea_reader_update_bearing env (r.setLine b pos) a1).2
      = (nmea_reader_update_bearing env r a2).2.setLine b pos := by
  unfold nmea_reader_update_bearing NmeaReader.setLine
  rw [h.float_eq env, h.p, h.end_]
  split_ifs <;> rfl

theorem update_speed_sim (env : Env) (r : NmeaReader) (a1 a2 : Token) (b : List Nat)
    (pos : Nat) (h : TokSim a1 a2) :
    (nmea_reader_update_speed env (r.setLine b pos) a1).2
      = (nmea_reader_update_speed env r a2).2.setLine b pos := by
  unfold nmea_reader_update_speed NmeaReader.setLine
  rw [h.float_eq env, h.p, h.end_]
  split_ifs <;> rfl

/-! ## The branches read the fields after the first -/

set_option maxRecDepth 1000000

theorem parse_gga_sim (env : Env) (T1 T2 : NmeaTokenizer) (r : NmeaReader) (b : List Nat)
    (pos : Nat)
    (hs : ∀ i, 1 ≤ i → TokSim (nmea_tokenizer_get T1 i) (nmea_tokenizer_get T2 i)) :
    parse_gga env T1 (r.setLine b pos) = (parse_gga env T2 r).setLine b pos := by
  unfold parse_gga
  simp only
  rw [(hs 6 (by omega)).at_eq 0, (hs 3 (by omega)).at_eq 0, (hs 5 (by omega)).at_eq 0]
  by_cases c : charToInt env ((nmea_tokenizer_get T2 6).at 0) > 48
  · rw [if_pos c, if_pos c, update_time_sim env r _ _ b pos (hs 1 (by omega)),
      update_latlong_sim env _ _ _ _ _ _ _ b pos (hs 2 (by omega)) (hs 4 (by omega)),
      update_altitude_sim env _ _ _ _ (nmea_tokenizer_get T2 10) b pos (hs 9 (by omega))]
  · rw [if_neg c, if_neg c]

theorem parse_gll_sim (env : Env) (T1 T2 : NmeaTokenizer) (r : NmeaReader) (b : List Nat)
    (pos : Nat)
    (hs : ∀ i, 1 ≤ i → TokSim (nmea_tokenizer_get T1 i) (nmea_tokenizer_get T2 i)) :
    parse_gll env T1 (r.setLine b pos) = (parse_gll env T2 r).setLine b pos := by
  unfold parse_gll
  simp only
  rw [(hs 6 (by omega)).at_eq 0, (hs 2 (by omega)).at_eq 0, (hs 4 (by omega)).at_eq 0]
  by_cases c : (nmea_tokenizer_get T2 6).at 0 = 65
  · rw [if_pos c, if_pos c, update_time_sim env r _ _ b pos (hs 5 (by omega)),
      update_latlong_sim env _ _ _ _ _ _ _ b pos (hs 1 (by omega)) (hs 3 (by omega))]
  · rw [if_neg c, if_neg c]

theorem parse_rmc_sim (env : Env) (T1 T2 : NmeaTokenizer) (r : NmeaReader) (b : List Nat)
    (pos : Nat)
    (hs : ∀ i, 1 ≤ i → TokSim (nmea_tokenizer_get T1 i) (nmea_tokenizer_get T2 i)) :
    parse_rmc env T1 (r.setLine b pos) = (parse_rmc env T2 r).setLine b pos := by
  unfold parse_rmc
  simp only
  rw [(hs 2 (by omega)).at_eq 0, (hs 4 (by omega)).at_eq 0, (hs 6 (by omega)).at_eq 0]
  by_cases c : (nmea_tokenizer_get T2 2).at 0 = 65
  · rw [if_pos c, if_pos c,
      update_date_sim env r _ _ _ _ b pos (hs 9 (by omega)) (hs 1 (by omega)),
      update_latlong_sim env _ _ _ _ _ _ _ b pos (hs 3 (by omega)) (hs 5 (by omega)),
      update_bearing_sim env _ _ _ b pos (hs 8 (by omega)),
      update_speed_sim env _ _ _ b pos (hs 7 (by omega))]
  · rw [if_neg c, if_neg c]

theorem parse_vtg_sim (env : Env) (T1 T2 : NmeaTokenizer) (r : NmeaReader) (b : List Nat)
    (pos : Nat)
    (hs : ∀ i, 1 ≤ i → TokSim (nmea_tokenizer_get T1 i) (nmea_tokenizer_get T2 i)) :
    parse_vtg env T1 (r.setLine b pos) = (parse_vtg env T2 r).setLine b pos := by
  unfold parse_vtg
  simp only
  rw [(hs 9 (by omega)).at_eq 0]
  by_cases c : (nmea_tokenizer_get T2 9).at 0 ≠ 0 ∧ (nmea_tokenizer_get T2 9).at 0 ≠ 78
  · rw [if_pos c, if_pos c, update_bearing_sim env _ _ _ b pos (hs 1 (by omega)),
      update_speed_sim env _ _ _ b pos (hs 5 (by omega))]
  · rw [if_neg c, if_neg c]

theorem parse_zda_sim (env : Env) (T1 T2 : NmeaTokenizer) (r : NmeaReader) (b : List Nat)
    (pos : Nat)
    (hs : ∀ i, 1 ≤ i → TokSim (nmea_tokenizer_get T1 i) (nmea_tokenizer_get T2 i)) :
    parse_zda env T1 (r.setLine b pos) = (parse_zda env T2 r).setLine b pos := by
  unfold parse_zda
  simp only
  rw [(hs 4 (by omega)).at_eq 0, (hs 1 (by omega)).at_eq 0]
  have e1 : (if (nmea_tokenizer_get T2 4).at 0 ≠ 0 then
        (nmea_reader_update_cdate (r.setLine b pos) (nmea_tokenizer_get T1 2)
          (nmea_tokenizer_get T1 3) (nmea_tokenizer_get T1 4)).2
      else r.setLine b pos)
      = (if (nmea_tokenizer_get T2 4).at 0 ≠ 0 then
        (nmea_reader_update_cdate r (nmea_tokenizer_get T2 2)
          (nmea_tokenizer_get T2 3) (nmea_tokenizer_get T2 4)).2
      else r).setLine b pos := by
    by_cases c : (nmea_tokenizer_get T2 4).at 0 ≠ 0
    · rw [if_pos c, if_pos c, update_cdate_sim r _ _ _ _ _ _ b pos (hs 2 (by omega))
        (hs 3 (by omega)) (hs 4 (by omega))]
    · rw [if_neg c, if_neg c]
  rw [e1]
  by_cases c : (nmea_tokenizer_get T2 1).at 0 ≠ 0
  · rw [if_pos c, if_pos c, update_time_sim env _ _ _ b pos (hs 1 (by omega))]
  · rw [if_neg c, if_neg c]

theorem gsa_prn_step_sim (bd : Bool) (T1 T2 : NmeaTokenizer) (r : NmeaReader) (b : List Nat)
    (pos : Nat) (i : Nat) (h : TokSim (nmea_tokenizer_get T1 i) (nmea_tokenizer_get T2 i)) :
    gsa_prn_step bd T1 (r.setLine b pos) i = (gsa_prn_step bd T2 r i).setLine b pos := by
  unfold gsa_prn_step NmeaReader.setLine
  simp only
  rw [h.int_eq]
  split_ifs <;> rfl

theorem gsa_prn_fold_sim (bd : Bool) (T1 T2 : NmeaTokenizer) (b : List Nat) (pos : Nat)
    (l : List Nat) :
    (∀ i ∈ l, TokSim (nmea_tokenizer_get T1 i) (nmea_tokenizer_get T2 i)) →
    ∀ r : NmeaReader, l.foldl (gsa_prn_step bd T1) (r.setLine b pos)
      = (l.foldl (gsa_prn_step bd T2) r).setLine b pos := by
  induction l with
  | nil => intro _ r; rfl
  | cons i l ih =>
    intro h r
    rw [List.foldl_cons, List.foldl_cons,
      gsa_prn_step_sim bd T1 T2 r b pos i (h i (List.mem_cons_self _ _))]
    exact ih (fun j hj => h j (List.mem_cons_of_mem _ hj)) _

theorem parse_gsa_sim (env : Env) (bd : Bool) (T1 T2 : NmeaTokenizer) (r : NmeaReader)
    (b : List Nat) (pos : Nat)
    (hs : ∀ i, 1 ≤ i → TokSim (nmea_tokenizer_get T1 i) (nmea_tokenizer_get T2 i)) :
    parse_gsa env bd T1 (r.setLine b pos) = (parse_gsa env bd T2 r).setLine b pos := by
  have hl : ∀ i ∈ List.range' 3 12,
      TokSim (nmea_tokenizer_get T1 i) (nmea_tokenizer_get T2 i) := by
    intro i hi
    apply hs
    rw [List.mem_range'_1] at hi
    omega
  unfold parse_gsa
  simp only
  rw [(hs 2 (by omega)).at_eq 0]
  by_cases c : (nmea_tokenizer_get T2 2).at 0 ≠ 0 ∧ (nmea_tokenizer_get T2 2).at 0 ≠ 49
  · rw [if_pos c, if_pos c, update_accuracy_sim env r _ _ b pos (hs 15 (by omega))]
    cases bd with
    | false =>
      simp only [Bool.not_false, if_true]
      exact gsa_prn_fold_sim false T1 T2 b pos _ hl
        { (nmea_reader_update_accuracy env r (nmea_tokenizer_get T2 15)).2 with
          sv_status := { (nmea_reader_update_accuracy env r
            (nmea_tokenizer_get T2 15)).2.sv_status with used_in_fix_mask := 0 } }
    | true =>
      simp only [Bool.not_true, Bool.false_eq_true, if_false]
      exact gsa_prn_fold_sim true T1 T2 b pos _ hl _
  · rw [if_neg c, if_neg c]
    unfold NmeaReader.setLine
    split_ifs <;> rfl

theorem gsv_loop_sim (env : Env) (T1 T2 : NmeaTokenizer) (noSat : Int) (k : Nat)
    (hs : ∀ i, 1 ≤ i → TokSim (nmea_tokenizer_get T1 i) (nmea_tokenizer_get T2 i)) :
    ∀ (i : Nat) (st : GsvLoop), gsv_loop env T1 noSat k i st = gsv_loop env T2 noSat k i st := by
  induction k with
  | zero => intro i st; rfl
  | succ k ih =>
    intro i st
    unfold gsv_loop
    simp only
    rw [(hs (i * 4 + 4) (by omega)).int_eq, (hs (i * 4 + 5) (by omega)).float_eq env,
      (hs (i * 4 + 6) (by omega)).float_eq env, (hs (i * 4 + 7) (by omega)).float_eq env, ih]

theorem parse_gsv_sim (env : Env) (bd : Bool) (T1 T2 : NmeaTokenizer) (r : NmeaReader)
    (b : List Nat) (pos : Nat)
    (hs : ∀ i, 1 ≤ i → TokSim (nmea_tokenizer_get T1 i) (nmea_tokenizer_get T2 i)) :
    parse_gsv env bd T1 (r.setLine b pos) = (parse_gsv env bd T2 r).setLine b pos := by
  unfold parse_gsv parse_gsv_loop NmeaReader.setLine
  simp only
  rw [(hs 3 (by omega)).int_eq, (hs 2 (by omega)).int_eq, (hs 1 (by omega)).int_eq]
  simp only [gsv_loop_sim env T1 T2 _ 4 hs]
  split_ifs <;> rfl

/-! ## Dispatch and field handling do not depend on the talker ID -/

set_option maxRecDepth 1000000

/-- The fields after the first of two lines that are the same but for the talker
ID are the same tokens over the same bytes. -/
theorem same_but_talker_sim (buf1 buf2 : List Nat) (pos : Nat)
    (h : SameButTalker buf1 buf2 pos) :
    ∃ d q, nmea_tokenizer_get (nmea_tokenizer_init buf1 0 pos) 0
        = { mem := buf1, p := d, end_ := q } ∧
      nmea_tokenizer_get (nmea_tokenizer_init buf2 0 pos) 0
        = { mem := buf2, p := d, end_ := q } ∧
      d + 5 ≤ q ∧ (∀ i, d + 2 ≤ i → readByte buf1 i = readByte buf2 i) ∧
      ∀ i, 1 ≤ i → TokSim (nmea_tokenizer_get (nmea_tokenizer_init buf2 0 pos) i)
        (nmea_tokenizer_get (nmea_tokenizer_init buf1 0 pos) i) := by
  obtain ⟨d, q, rest, t1, t2, hq, hrest, hag⟩ := same_but_talker_tokens buf1 buf2 pos h
  have b1 : (nmea_tokenizer_init buf1 0 pos).buf = buf1 := rfl
  have b2 : (nmea_tokenizer_init buf2 0 pos).buf = buf2 := rfl
  refine ⟨d, q, ?_, ?_, hq, hag, ?_⟩
  · unfold nmea_tokenizer_get
    rw [t1, b1]
    rfl
  · unfold nmea_tokenizer_get
    rw [t2, b2]
    rfl
  · intro i hi
    obtain ⟨j, hj⟩ : ∃ j, i = j + 1 := ⟨i - 1, by omega⟩
    unfold nmea_tokenizer_get
    rw [t1, t2, b1, b2, hj, List.get?_cons_succ]
    cases hg : rest.get? j with
    | none => exact TokSim.simRefl _
    | some t =>
      obtain ⟨p, e⟩ := t
      have hmem : (p, e) ∈ rest := List.get?_mem hg
      have hp := hrest (p, e) hmem
      exact ⟨rfl, rfl, fun k hk => (hag k (by simp only at hp hk; omega)).symm⟩

/-- The dispatch of `nmea_reader_parse` on a line of at least 9 bytes whose first
field has at least 5. -/
theorem parse_dispatch (env : Env) (r : NmeaReader) (buf : List Nat) (pos : Nat)
    (h9 : ¬ pos < 9)
    (h5 : ¬ ((nmea_tokenizer_get (nmea_tokenizer_init buf 0 pos) 0).p + 5
      > (nmea_tokenizer_get (nmea_tokenizer_init buf 0 pos) 0).end_)) :
    nmea_reader_parse env (r.setLine buf pos)
      = (if memcmp_eq (nmea_tokenizer_get (nmea_tokenizer_init buf 0 pos) 0) 2 [71, 71, 65] then
          parse_gga env (nmea_tokenizer_init buf 0 pos) (r.setLine buf pos)
        else if memcmp_eq (nmea_tokenizer_get (nmea_tokenizer_init buf 0 pos) 0) 2 [71, 76, 76]
          then parse_gll env (nmea_tokenizer_init buf 0 pos) (r.setLine buf pos)
        else if memcmp_eq (nmea_tokenizer_get (nmea_tokenizer_init buf 0 pos) 0) 2 [71, 83, 65]
          then parse_gsa env
            (memcmp_eq (nmea_tokenizer_get (nmea_tokenizer_init buf 0 pos) 0) 0 [66, 68])
            (nmea_tokenizer_init buf 0 pos) (r.setLine buf pos)
        else if memcmp_eq (nmea_tokenizer_get (nmea_tokenizer_init buf 0 pos) 0) 2 [71, 83, 86]
          then parse_gsv env
            (memcmp_eq (nmea_tokenizer_get (nmea_tokenizer_init buf 0 pos) 0) 0 [66, 68])
            (nmea_tokenizer_init buf 0 pos) (r.setLine buf pos)
        else if memcmp_eq (nmea_tokenizer_get (nmea_tokenizer_init buf 0 pos) 0) 2 [82, 77, 67]
          then parse_rmc env (nmea_tokenizer_init buf 0 pos) (r.setLine buf pos)
        else if memcmp_eq (nmea_tokenizer_get (nmea_tokenizer_init buf 0 pos) 0) 2 [86, 84, 71]
          then parse_vtg env (nmea_tokenizer_init buf 0 pos) (r.setLine buf pos)
        else if memcmp_eq (nmea_tokenizer_get (nmea_tokenizer_init buf 0 pos) 0) 2 [90, 68, 65]
          then parse_zda env (nmea_tokenizer_init buf 0 pos) (r.setLine buf pos)
        else r.setLine buf pos) := by
  unfold nmea_reader_parse
  rw [if_neg (show ¬ (r.setLine buf pos).pos < 9 from h9)]
  exact if_neg h5

/-- C22: for every accumulator state `r`, every environment (clock, time zone,
libc) and every two lines `buf1[0 .. pos)` and `buf2[0 .. pos)` that are the same
but for the two talker-ID characters of the first field, neither talker ID being
`BD`, `nmea_reader_parse` gives the same reader but for the line buffer, which
holds the line parsed: fix, validity bits, stored date, satellite status, flags
and time map are the same. -/
theorem talker_id_ignored (env : Env) (r : NmeaReader) (buf1 buf2 : List Nat) (pos : Nat)
    (h : SameButTalker buf1 buf2 pos) (hb1 : talkerIsBD buf1 pos = false)
    (hb2 : talkerIsBD buf2 pos = false) :
    nmea_reader_parse env (r.setLine buf2 pos)
      = (nmea_reader_parse env (r.setLine buf1 pos)).setLine buf2 pos := by
  have sl : r.setLine buf2 pos = (r.setLine buf1 pos).setLine buf2 pos := rfl
  by_cases h9 : pos < 9
  · have short : ∀ b, nmea_reader_parse env (r.setLine b pos) = r.setLine b pos := by
      intro b
      unfold nmea_reader_parse
      exact if_pos h9
    rw [short, short]
    exact sl
  · obtain ⟨d, q, k1, k2, hq, hag, hs⟩ := same_but_talker_sim buf1 buf2 pos h
    unfold talkerIsBD lineTok at hb1 hb2
    have hty : ∀ ty : List Nat,
        memcmp_eq (nmea_tokenizer_get (nmea_tokenizer_init buf2 0 pos) 0) 2 ty
          = memcmp_eq (nmea_tokenizer_get (nmea_tokenizer_init buf1 0 pos) 0) 2 ty := by
      intro ty
      unfold memcmp_eq
      rw [k1, k2]
      simp only
      rw [readSpan_agree buf1 buf2 (d + 2) _ hag]
    have e1 : ¬ ((nmea_tokenizer_get (nmea_tokenizer_init buf1 0 pos) 0).p + 5
        > (nmea_tokenizer_get (nmea_tokenizer_init buf1 0 pos) 0).end_) := by
      rw [k1]; simp only; omega
    have e2 : ¬ ((nmea_tokenizer_get (nmea_tokenizer_init buf2 0 pos) 0).p + 5
        > (nmea_tokenizer_get (nmea_tokenizer_init buf2 0 pos) 0).end_) := by
      rw [k2]; simp only; omega
    rw [parse_dispatch env r buf2 pos h9 e2, parse_dispatch env r buf1 pos h9 e1, hb1, hb2,
      hty, hty, hty, hty, hty, hty, hty]
    split_ifs
    · rw [sl]; exact parse_gga_sim env _ _ _ buf2 pos hs
    · rw [sl]; exact parse_gll_sim env _ _ _ buf2 pos hs
    · rw [sl]; exact parse_gsa_sim env false _ _ _ buf2 pos hs
    · rw [sl]; exact parse_gsv_sim env false _ _ _ buf2 pos hs
    · rw [sl]; exact parse_rmc_sim env _ _ _ buf2 pos hs
    · rw [sl]; exact parse_vtg_sim env _ _ _ buf2 pos hs
    · rw [sl]; exact parse_zda_sim env _ _ _ buf2 pos hs
    · exact sl

/-- The sentence `ggaLineGN` is `ggaLine` but for the talker ID. -/
theorem ggaLine_same_but_talker : SameButTalker ggaLine ggaLineGN ggaLine.length := by
  have hp : (lineTok ggaLine ggaLine.length 0).p = 1 := by decide
  refine ⟨by decide, by decide, by decide, ?_⟩
  rw [hp]
  intro i h1 h2
  rcases Nat.lt_or_ge i 67 with hlt | hge
  · interval_cases i <;> first | exact absurd rfl h1 | exact absurd rfl h2 | decide
  · unfold readByte
    rw [List.getD_eq_default _ _ (by
        have : ggaLine.length = 67 := by decide
        omega),
      List.getD_eq_default _ _ (by
        have : ggaLineGN.length = 67 := by decide
        omega)]

theorem talker_id_ignored_witness :
    talkerIsBD ggaLine ggaLine.length = false ∧ talkerIsBD ggaLineGN ggaLine.length = false ∧
    ggaLine ≠ ggaLineGN ∧
    nmea_reader_parse stdEnv ((nmea_reader_init stdEnv).setLine ggaLineGN ggaLine.length)
      = (nmea_reader_parse stdEnv
          ((nmea_reader_init stdEnv).setLine ggaLine ggaLine.length)).setLine ggaLineGN
          ggaLine.length :=
  ⟨by decide, by decide, by decide,
   talker_id_ignored stdEnv (nmea_reader_init stdEnv) ggaLine ggaLineGN ggaLine.length
     ggaLine_same_but_talker (by decide) (by decide)⟩

/-! ## Session: start, stop, interval, shutdown -/

set_option maxRecDepth 1000000

/-- `gps_closetty` leaves the descriptor at -1 and touches nothing else. -/
theorem closetty_state (s : GpsState) : (gps_closetty s).1 = { s with fd := -1 } := by
  unfold gps_closetty
  by_cases h : s.fd ≠ -1
  · rw [if_pos h]
  · rw [if_neg h]
    have e : s.fd = -1 := not_not.mp h
    cases s
    simp only at e
    subst e
    rfl

/-- `gps_closetty` closes the descriptor when there is one. -/
theorem closetty_events (s : GpsState) :
    (gps_closetty s).2
      = (if s.fd ≠ -1 then [SysEvent.epoll_del s.fd, SysEvent.close_fd s.fd] else []) := by
  unfold gps_closetty
  by_cases h : s.fd ≠ -1
  · rw [if_pos h, if_pos h]
  · rw [if_neg h, if_neg h]

/-- `gps_opentty` stores what `open` gives in `fd` and touches nothing else; it
returns -1 exactly when that value is negative. -/
theorem opentty_state (sys : Sys) (s : GpsState) :
    (gps_opentty sys s).2.1 = { s with fd := sys.open_fd } ∧
    (gps_opentty sys s).1 = (if sys.open_fd < 0 then -1 else 0) ∧
    (gps_opentty sys s).2.2
      = (if s.fd ≠ -1 then [SysEvent.epoll_del s.fd, SysEvent.close_fd s.fd] else [])
        ++ (if sys.open_fd < 0 then [SysEvent.open_tty]
            else [SysEvent.open_tty, SysEvent.epoll_add sys.open_fd]) := by
  unfold gps_opentty gps_closetty
  by_cases h : s.fd ≠ -1 <;> by_cases h2 : sys.open_fd < 0 <;> simp [h, h2]

/-- `gps_checkstate` on a session that is not in state 0 returns 0 and does
nothing. -/
theorem checkstate_of_init (sys : Sys) (s : Session) (h : s.state.init ≠ 0) :
    gps_checkstate sys s = (0, s, []) := by
  unfold gps_checkstate
  rw [if_neg h]

/-- `gps_checkstate` on a session in state 0 with no callbacks registered
returns -1 and does nothing. -/
theorem checkstate_of_quit (sys : Sys) (s : Session) (h : s.state.init = 0)
    (hcb : s.g_gpscallback = none) : gps_checkstate sys s = (-1, s, []) := by
  unfold gps_checkstate
  rw [if_pos h, hcb]
  simp only [h, if_true]

/-- `locosys_gps_start` on a session that is not in state 0. -/
theorem start_of_init (sys : Sys) (s : Session) (h : s.state.init ≠ 0) :
    locosys_gps_start sys s
      = (0, { s with state := { s.state with fd := sys.open_fd } },
         (gps_opentty sys s.state).2.2 ++ [SysEvent.write_cmd CMD_START]
           ++ gps_status_cb s.state.callbacks GpsStatusValue.SESSION_BEGIN) := by
  unfold locosys_gps_start
  rw [checkstate_of_init sys s h]
  simp only [show ¬ ((0 : Int) = -1) by decide, if_false, List.nil_append, gps_state_start]
  rw [(opentty_state sys s.state).1]

/-- `locosys_gps_stop` on a session that is not in state 0. -/
theorem stop_of_init (sys : Sys) (s : Session) (h : s.state.init ≠ 0) :
    locosys_gps_stop sys s
      = (0, { s with state := { s.state with fd := -1 } },
         (gps_closetty s.state).2 ++ [SysEvent.write_cmd CMD_STOP]
           ++ gps_status_cb s.state.callbacks GpsStatusValue.SESSION_END) := by
  unfold locosys_gps_stop
  rw [checkstate_of_init sys s h]
  simp only [show ¬ ((0 : Int) = -1) by decide, if_false, List.nil_append, gps_state_stop]
  rw [closetty_state s.state]

/-- C24 fails on the code: on a session that is initialized (state other than
0), when the serial device cannot be opened (`open` leaves a negative value in
`fd`, `gps_opentty` returns -1), `locosys_gps_start` still returns 0 and still
writes `CMD_START` to the control socket; `fd` holds the negative value; and the
controller, on that command, moves a session that was not started to
`STATE_START`. -/
theorem start_ignores_open_failure (sys : Sys) (s : Session) (hinit : s.state.init ≠ 0)
    (hfail : sys.open_fd < 0) :
    (gps_opentty sys s.state).1 = -1 ∧
    (locosys_gps_start sys s).1 = 0 ∧
    SysEvent.write_cmd CMD_START ∈ (locosys_gps_start sys s).2.2 ∧
    (locosys_gps_start sys s).2.1.state.fd = sys.open_fd ∧
    (s.started = 0 →
      (gps_state_thread_cmd sys.env (locosys_gps_start sys s).2.1 CMD_START).state.init
        = STATE_START ∧
      (gps_state_thread_cmd sys.env (locosys_gps_start sys s).2.1 CMD_START).started = 1) := by
  rw [start_of_init sys s hinit, (opentty_state sys s.state).2.1, if_pos hfail]
  refine ⟨rfl, rfl, ?_, rfl, ?_⟩
  · simp
  · intro h0
    unfold gps_state_thread_cmd
    simp [CMD_START, CMD_QUIT, h0]

theorem start_ignores_open_failure_witness :
    initSession.state.init = STATE_INIT ∧ initSession.started = 0 ∧
    initSession.state.fd = -1 ∧ noTtySys.open_fd = -1 ∧
    (gps_opentty noTtySys initSession.state).1 = -1 ∧
    (locosys_gps_start noTtySys initSession).1 = 0 ∧
    SysEvent.write_cmd CMD_START ∈ (locosys_gps_start noTtySys initSession).2.2 ∧
    (locosys_gps_start noTtySys initSession).2.1.state.fd = noTtySys.open_fd ∧
    (initSession.started = 0 →
      (gps_state_thread_cmd noTtySys.env (locosys_gps_start noTtySys initSession).2.1
        CMD_START).state.init = STATE_START ∧
      (gps_state_thread_cmd noTtySys.env (locosys_gps_start noTtySys initSession).2.1
        CMD_START).started = 1) :=
  ⟨by decide, by decide, by decide, by decide,
   start_ignores_open_failure noTtySys initSession (by decide) (by decide)⟩

/-- C25: `locosys_gps_set_position_mode` on a session in state 0 (uninitialized
or quit) returns -1 and leaves the session, the publish interval included, as it
was; on a session in any other state it returns 0 and sets the publish interval
`fix_freq` to max(1, min_interval / 1000), the integer quotient, leaving the
rest of the session as it was; for every `min_interval` of the type `uint32_t`
and every mode. -/
theorem set_position_mode_interval (s : Session) (mode recurrence : Int)
    (min_interval preferred_accuracy preferred_time : Nat) (h : min_interval < 4294967296) :
    (s.state.init = 0 →
      locosys_gps_set_position_mode s mode recurrence min_interval preferred_accuracy
        preferred_time = (-1, s)) ∧
    (s.state.init ≠ 0 →
      locosys_gps_set_position_mode s mode recurrence min_interval preferred_accuracy
        preferred_time
        = (0, { s with state := { s.state with
                  fix_freq := ((max 1 (min_interval / 1000) : Nat) : Int) } })) := by
  unfold locosys_gps_set_position_mode
  constructor
  · intro h0
    rw [if_pos h0]
  · intro h0
    rw [if_neg h0, Nat.mod_eq_of_lt h]
    have hq : wrap32 ((min_interval / 1000 : Nat) : Int) = ((min_interval / 1000 : Nat) : Int) := by
      apply wrap32_of_range
      · omega
      · omega
    simp only [hq]
    by_cases hz : min_interval / 1000 = 0
    · simp [hz]
    · have h1 : max 1 (min_interval / 1000) = min_interval / 1000 := by omega
      have h2 : ¬ ((0 : Int) = ((min_interval / 1000 : Nat) : Int)) := by omega
      rw [if_neg h2, h1]

theorem set_position_mode_interval_witness :
    quitSession.state.init = 0 ∧ initSession.state.init ≠ 0 ∧
    (locosys_gps_set_position_mode quitSession 0 0 5000 0 0).1 = -1 ∧
    (locosys_gps_set_position_mode quitSession 0 0 5000 0 0).2.state.fix_freq
      = quitSession.state.fix_freq ∧
    (locosys_gps_set_position_mode initSession 1 0 5999 0 0).1 = 0 ∧
    (locosys_gps_set_position_mode initSession 1 0 5999 0 0).2.state.fix_freq = 5 ∧
    (locosys_gps_set_position_mode initSession 0 0 999 0 0).2.state.fix_freq = 1 :=
  ⟨by decide, by decide,
   congrArg Prod.fst
     ((set_position_mode_interval quitSession 0 0 5000 0 0 (by decide)).1 (by decide)),
   congrArg (fun x => x.2.state.fix_freq)
     ((set_position_mode_interval quitSession 0 0 5000 0 0 (by decide)).1 (by decide)),
   congrArg Prod.fst
     ((set_position_mode_interval initSession 1 0 5999 0 0 (by decide)).2 (by decide)),
   congrArg (fun x => x.2.state.fix_freq)
     ((set_position_mode_interval initSession 1 0 5999 0 0 (by decide)).2 (by decide)),
   congrArg (fun x => x.2.state.fix_freq)
     ((set_position_mode_interval initSession 0 0 999 0 0 (by decide)).2 (by decide))⟩

/-- The controller's reaction to `CMD_START` on a started session and to
`CMD_STOP` on a session that is not started: nothing. -/
theorem thread_cmd_repeated (env : Env) (s : Session) :
    (s.started ≠ 0 → gps_state_thread_cmd env s CMD_START = s) ∧
    (s.started = 0 → gps_state_thread_cmd env s CMD_STOP = s) := by
  unfold gps_state_thread_cmd
  constructor
  · intro h
    simp [CMD_START, CMD_QUIT, h]
  · intro h
    simp [CMD_STOP, CMD_START, CMD_QUIT, h]

/-- C26, as stated, fails: `locosys_gps_start` on the started session, whose
serial device is open as descriptor 6, closes descriptor 6 and opens the device
again; the session holds the new descriptor 7. When the device cannot be opened
again the session stays in `STATE_START` with `fd = -1`. -/
theorem restart_reopens_counterexample :
    startedSession.state.init = STATE_START ∧ startedSession.started = 1 ∧
    startedSession.state.fd = 6 ∧
    (locosys_gps_start reopenSys startedSession).2.2
      = [SysEvent.epoll_del 6, SysEvent.close_fd 6, SysEvent.open_tty, SysEvent.epoll_add 7,
         SysEvent.write_cmd CMD_START, SysEvent.status GpsStatusValue.SESSION_BEGIN] ∧
    (gps_state_thread_cmd stdEnv (locosys_gps_start reopenSys startedSession).2.1
      CMD_START).state.fd = 7 ∧
    (gps_state_thread_cmd stdEnv (locosys_gps_start noTtySys startedSession).2.1
      CMD_START).state.fd = -1 ∧
    (gps_state_thread_cmd stdEnv (locosys_gps_start noTtySys startedSession).2.1
      CMD_START).state.init = STATE_START := by
  decide

/-- C26, amended: `locosys_gps_start` on a session that is already started
returns 0, and after it and the controller's reaction to `CMD_START` the session
is as before (state, `started`, reader with no reset, callbacks, interval)
except for the byte source, which is closed if it was open and opened again:
`fd` holds what `open` gives. `locosys_gps_stop` on an initialized session that is
not started returns 0, and after it and the controller's reaction to
`CMD_STOP` the session is as before except that the byte source is closed if it
was open; if it was not open (`fd = -1`) the session is unchanged and nothing
is closed. -/
theorem start_stop_repeated (sys : Sys) (s : Session) :
    (s.state.init = STATE_START → s.started = 1 →
      (locosys_gps_start sys s).1 = 0 ∧
      gps_state_thread_cmd sys.env (locosys_gps_start sys s).2.1 CMD_START
        = { s with state := { s.state with fd := sys.open_fd } } ∧
      (locosys_gps_start sys s).2.2
        = (if s.state.fd ≠ -1 then [SysEvent.epoll_del s.state.fd, SysEvent.close_fd s.state.fd]
           else [])
          ++ (if sys.open_fd < 0 then [SysEvent.open_tty]
              else [SysEvent.open_tty, SysEvent.epoll_add sys.open_fd])
          ++ [SysEvent.write_cmd CMD_START]
          ++ gps_status_cb s.state.callbacks GpsStatusValue.SESSION_BEGIN) ∧
    (s.state.init = STATE_INIT → s.started = 0 →
      (locosys_gps_stop sys s).1 = 0 ∧
      gps_state_thread_cmd sys.env (locosys_gps_stop sys s).2.1 CMD_STOP
        = { s with state := { s.state with fd := -1 } } ∧
      (locosys_gps_stop sys s).2.2
        = (if s.state.fd ≠ -1 then [SysEvent.epoll_del s.state.fd, SysEvent.close_fd s.state.fd]
           else [])
          ++ [SysEvent.write_cmd CMD_STOP]
          ++ gps_status_cb s.state.callbacks GpsStatusValue.SESSION_END ∧
      (s.state.fd = -1 →
        gps_state_thread_cmd sys.env (locosys_gps_stop sys s).2.1 CMD_STOP = s)) := by
  constructor
  · intro hi hs
    have h0 : s.state.init ≠ 0 := by rw [hi]; decide
    rw [start_of_init sys s h0, (opentty_state sys s.state).2.2]
    refine ⟨rfl, ?_, rfl⟩
    apply (thread_cmd_repeated sys.env _).1
    show s.started ≠ 0
    rw [hs]
    decide
  · intro hi hs
    have h0 : s.state.init ≠ 0 := by rw [hi]; decide
    rw [stop_of_init sys s h0, closetty_events]
    have e := (thread_cmd_repeated sys.env
      { s with state := { s.state with fd := -1 } }).2 hs
    refine ⟨rfl, e, rfl, ?_⟩
    intro hfd
    rw [e]
    obtain ⟨st, c0, c1, g, sd⟩ := s
    obtain ⟨i, fd, cb, ff, rd⟩ := st
    simp only at hfd
    subst hfd
    rfl

theorem start_stop_repeated_witness :
    startedSession.state.init = STATE_START ∧ startedSession.started = 1 ∧
    initSession.state.init = STATE_INIT ∧ initSession.started = 0 ∧
    initSession.state.fd = -1 ∧
    gps_state_thread_cmd reopenSys.env (locosys_gps_start reopenSys startedSession).2.1 CMD_START
      = { startedSession with state := { startedSession.state with fd := reopenSys.open_fd } } ∧
    gps_state_thread_cmd okSys.env (locosys_gps_stop okSys initSession).2.1 CMD_STOP
      = initSession :=
  ⟨by decide, by decide, by decide, by decide, by decide,
   ((start_stop_repeated reopenSys startedSession).1 (by decide) (by decide)).2.1,
   ((start_stop_repeated okSys initSession).2 (by decide) (by decide)).2.2.2 (by decide)⟩

/-- C27, as stated, fails: on the session that `locosys_gps_cleanup` left in
`STATE_QUIT`, `locosys_gps_init` runs `gps_state_init` again (`STATE_QUIT` is 0,
the value of a session never initialized) and the session is in `STATE_INIT`;
`locosys_gps_start` and the controller then take it to `STATE_START`. -/
theorem quit_left_by_init_counterexample :
    quitSession.state.init = STATE_QUIT ∧
    (locosys_gps_init okSys hostCallbacks quitSession).2.1.state.init = STATE_INIT ∧
    STATE_INIT ≠ STATE_QUIT ∧
    (gps_state_thread_cmd stdEnv
      (locosys_gps_start okSys (locosys_gps_init okSys hostCallbacks quitSession).2.1).2.1
      CMD_START).state.init = STATE_START := by
  decide

/-- C27, amended: the session that `gps_state_done` leaves is in `STATE_QUIT`
with no callbacks registered; on it `locosys_gps_start`, `locosys_gps_stop` and
`locosys_gps_set_position_mode` return -1, make no system call and leave the
session as it is, and `locosys_gps_cleanup` leaves it as it is; but
`locosys_gps_init` initializes it again: when the semaphore, the control socket
pair and the controller thread can be created, the session is in `STATE_INIT`
afterwards. -/
theorem quit_left_only_by_init (sys : Sys) (s0 : Session) :
    (gps_state_done s0).1.state.init = STATE_QUIT ∧
    (gps_state_done s0).1.g_gpscallback = none ∧
    locosys_gps_start sys (gps_state_done s0).1 = (-1, (gps_state_done s0).1, []) ∧
    locosys_gps_stop sys (gps_state_done s0).1 = (-1, (gps_state_done s0).1, []) ∧
    (∀ (mode recurrence : Int) (min_interval preferred_accuracy preferred_time : Nat),
      locosys_gps_set_position_mode (gps_state_done s0).1 mode recurrence min_interval
        preferred_accuracy preferred_time = (-1, (gps_state_done s0).1)) ∧
    (locosys_gps_cleanup (gps_state_done s0).1).1 = (gps_state_done s0).1 ∧
    (∀ cb : GpsCallbacks, sys.sem_init_ok = true → sys.property_get ≠ 0 →
      sys.socketpair_ok = true → sys.thread_ok = true →
      (locosys_gps_init sys cb (gps_state_done s0).1).2.1.state.init = STATE_INIT) := by
  have hq : (gps_state_done s0).1.state.init = 0 := rfl
  have hcb : (gps_state_done s0).1.g_gpscallback = none := rfl
  refine ⟨rfl, rfl, ?_, ?_, ?_, ?_, ?_⟩
  · unfold locosys_gps_start
    rw [checkstate_of_quit sys _ hq hcb]
    rfl
  · unfold locosys_gps_stop
    rw [checkstate_of_quit sys _ hq hcb]
    rfl
  · intro mode recurrence min_interval preferred_accuracy preferred_time
    unfold locosys_gps_set_position_mode
    rw [if_pos hq]
  · unfold locosys_gps_cleanup
    simp only [hq, ne_eq, not_true_eq_false, if_false]
  · intro cb h1 h2 h3 h4
    unfold locosys_gps_init gps_state_init
    simp [gps_state_done, STATE_QUIT, h1, h2, h3, h4, gps_state_thread_begin]

theorem quit_left_only_by_init_witness :
    (locosys_gps_cleanup startedSession).1 = (gps_state_done startedSession).1 ∧
    locosys_gps_start okSys (gps_state_done startedSession).1
      = (-1, (gps_state_done startedSession).1, []) ∧
    (locosys_gps_init okSys hostCallbacks (gps_state_done startedSession).1).2.1.state.init
      = STATE_INIT :=
  ⟨rfl, (quit_left_only_by_init okSys startedSession).2.2.1,
   (quit_left_only_by_init okSys startedSession).2.2.2.2.2.2 hostCallbacks rfl (by decide) rfl
     rfl⟩

/-! ## Lines the parser ignores -/

set_option maxRecDepth 1000000

/-- C33: for every line shorter than 9 bytes (terminator included), and for
every line whose first field has fewer than 5 characters, whatever the rest of
the line, `nmea_reader_parse` returns the reader as it was: the whole
accumulator is unchanged. -/
theorem short_line_unchanged (env : Env) (r : NmeaReader)
    (h : r.pos < 9 ∨ (lineTok r.inb r.pos 0).bytes.length < 5) :
    nmea_reader_parse env r = r := by
  unfold nmea_reader_parse
  by_cases h9 : r.pos < 9
  · rw [if_pos h9]
  · rw [if_neg h9]
    have h5 : (lineTok r.inb r.pos 0).bytes.length < 5 := by
      rcases h with c | c
      · exact absurd c h9
      · exact c
    unfold Token.bytes lineTok at h5
    rw [readSpan_length] at h5
    have e5 : (nmea_tokenizer_get (reader_tzer r) 0).p + 5
        > (nmea_tokenizer_get (reader_tzer r) 0).end_ := by
      unfold reader_tzer
      omega
    simp only [e5, if_true]

theorem short_line_unchanged_witness :
    shortLine.length = 8 ∧ (lineTok shortIdLine shortIdLine.length 0).bytes = bytes "GGA" ∧
    nmea_reader_parse stdEnv (datedReader.withLine shortLine) = datedReader.withLine shortLine ∧
    nmea_reader_parse stdEnv (datedReader.withLine shortIdLine)
      = datedReader.withLine shortIdLine :=
  ⟨by decide, by decide,
   short_line_unchanged stdEnv (datedReader.withLine shortLine) (Or.inl (by decide)),
   short_line_unchanged stdEnv (datedReader.withLine shortIdLine) (Or.inr (by decide))⟩

/-! ## The validity bits only grow -/

theorem bitsSubset_self (a : Nat) : bitsSubset a a := fun _ h => h

theorem bitsSubset_or (a c : Nat) : bitsSubset a (a ||| c) := by
  intro i h
  rw [Nat.testBit_or, h]
  rfl

theorem bitsSubset_chain {a b c : Nat} (h1 : bitsSubset a b) (h2 : bitsSubset b c) :
    bitsSubset a c := fun i h => h2 i (h1 i h)

/-- A bit-field that holds every bit of `a` gives `a` back under AND. -/
theorem bitsSubset_and {a b : Nat} (h : bitsSubset a b) : a &&& b = a := by
  apply Nat.eq_of_testBit_eq
  intro i
  rw [Nat.testBit_and]
  cases ha : a.testBit i with
  | false => rfl
  | true => rw [h i ha]; rfl

theorem update_time_flags (env : Env) (r : NmeaReader) (tok : Token) :
    (nmea_reader_update_time env r tok).2.fix.flags = r.fix.flags := by
  unfold nmea_reader_update_time nmea_reader_get_timestamp
  split_ifs <;> rfl

theorem update_cdate_flags (r : NmeaReader) (d m y : Token) :
    (nmea_reader_update_cdate r d m y).2.fix.flags = r.fix.flags := by
  unfold nmea_reader_update_cdate
  split_ifs <;> rfl

theorem update_date_flags (env : Env) (r : NmeaReader) (date mtime : Token) :
    (nmea_reader_update_date env r date mtime).2.fix.flags = r.fix.flags := by
  unfold nmea_reader_update_date
  simp only
  split_ifs
  · rfl
  · rw [update_time_flags]

theorem update_latlong_flags (env : Env) (r : NmeaReader) (a : Token) (ha : Nat) (o : Token)
    (ho : Nat) :
    bitsSubset r.fix.flags (nmea_reader_update_latlong env r a ha o ho).2.fix.flags := by
  unfold nmea_reader_update_latlong
  simp only
  split_ifs <;> first | exact bitsSubset_self _ | exact bitsSubset_or _ _

theorem update_altitude_flags (env : Env) (r : NmeaReader) (a u : Token) :
    bitsSubset r.fix.flags (nmea_reader_update_altitude env r a u).2.fix.flags := by
  unfold nmea_reader_update_altitude
  split_ifs <;> first | exact bitsSubset_self _ | exact bitsSubset_or _ _

theorem update_accuracy_flags (env : Env) (r : NmeaReader) (a : Token) :
    bitsSubset r.fix.flags (nmea_reader_update_accuracy env r a).2.fix.flags := by
  unfold nmea_reader_update_accuracy
  simp only
  split_ifs <;> first | exact bitsSubset_self _ | exact bitsSubset_or _ _

theorem update_bearing_flags (env : Env) (r : NmeaReader) (a : Token) :
    bitsSubset r.fix.flags (nmea_reader_update_bearing env r a).2.fix.flags := by
  unfold nmea_reader_update_bearing
  split_ifs <;> first | exact bitsSubset_self _ | exact bitsSubset_or _ _

theorem update_speed_flags (env : Env) (r : NmeaReader) (a : Token) :
    bitsSubset r.fix.flags (nmea_reader_update_speed env r a).2.fix.flags := by
  unfold nmea_reader_update_speed
  split_ifs <;> first | exact bitsSubset_self _ | exact bitsSubset_or _ _

theorem gsa_prn_step_fix (b : Bool) (tzer : NmeaTokenizer) (r : NmeaReader) (i : Nat) :
    (gsa_prn_step b tzer r i).fix = r.fix := by
  unfold gsa_prn_step
  simp only
  split_ifs <;> rfl

theorem gsa_prn_fold_fix (b : Bool) (tzer : NmeaTokenizer) (l : List Nat) :
    ∀ r : NmeaReader, (l.foldl (gsa_prn_step b tzer) r).fix = r.fix := by
  induction l with
  | nil => intro r; rfl
  | cons i l ih =>
    intro r
    rw [List.foldl_cons, ih, gsa_prn_step_fix]

theorem parse_gga_flags (env : Env) (tzer : NmeaTokenizer) (r : NmeaReader) :
    bitsSubset r.fix.flags (parse_gga env tzer r).fix.flags := by
  unfold parse_gga
  simp only
  split_ifs
  · refine bitsSubset_chain ?_ (update_altitude_flags env _ _ _)
    refine bitsSubset_chain ?_ (update_latlong_flags env _ _ _ _ _)
    rw [update_time_flags]
    exact bitsSubset_self _
  · exact bitsSubset_self _

theorem parse_gll_flags (env : Env) (tzer : NmeaTokenizer) (r : NmeaReader) :
    bitsSubset r.fix.flags (parse_gll env tzer r).fix.flags := by
  unfold parse_gll
  simp only
  split_ifs
  · refine bitsSubset_chain ?_ (update_latlong_flags env _ _ _ _ _)
    rw [update_time_flags]
    exact bitsSubset_self _
  · exact bitsSubset_self _

theorem parse_rmc_flags (env : Env) (tzer : NmeaTokenizer) (r : NmeaReader) :
    bitsSubset r.fix.flags (parse_rmc env tzer r).fix.flags := by
  unfold parse_rmc
  simp only
  split_ifs
  · refine bitsSubset_chain ?_ (update_speed_flags env _ _)
    refine bitsSubset_chain ?_ (update_bearing_flags env _ _)
    refine bitsSubset_chain ?_ (update_latlong_flags env _ _ _ _ _)
    rw [update_date_flags]
    exact bitsSubset_self _
  · exact bitsSubset_self _

theorem parse_vtg_flags (env : Env) (tzer : NmeaTokenizer) (r : NmeaReader) :
    bitsSubset r.fix.flags (parse_vtg env tzer r).fix.flags := by
  unfold parse_vtg
  simp only
  split_ifs
  · refine bitsSubset_chain ?_ (update_speed_flags env _ _)
    exact update_bearing_flags env _ _
  · exact bitsSubset_self _

theorem parse_zda_flags (env : Env) (tzer : NmeaTokenizer) (r : NmeaReader) :
    (parse_zda env tzer r).fix.flags = r.fix.flags := by
  unfold parse_zda
  simp only
  split_ifs <;> simp only [update_time_flags, update_cdate_flags]

theorem parse_gsa_flags (env : Env) (b : Bool) (tzer : NmeaTokenizer) (r : NmeaReader) :
    bitsSubset r.fix.flags (parse_gsa env b tzer r).fix.flags := by
  unfold parse_gsa
  simp only
  split_ifs
  · rw [gsa_prn_fold_fix]
    exact update_accuracy_flags env r _
  · rw [gsa_prn_fold_fix]
    exact update_accuracy_flags env r _
  · exact bitsSubset_self _
  · exact bitsSubset_self _
  · exact bitsSubset_self _

theorem parse_gsv_fix (env : Env) (b : Bool) (tzer : NmeaTokenizer) (r : NmeaReader) :
    (parse_gsv env b tzer r).fix = r.fix := by
  unfold parse_gsv parse_gsv_loop
  simp only
  split_ifs <;> rfl

/-- C32: for every accumulator state, every environment and every line in the
buffer, the validity bit-field `fix.flags` after `nmea_reader_parse` holds every
bit it held before (so `before AND after = before`): the parser sets validity
bits and never clears one. -/
theorem parse_flags_superset (env : Env) (r : NmeaReader) :
    bitsSubset r.fix.flags (nmea_reader_parse env r).fix.flags ∧
    r.fix.flags &&& (nmea_reader_parse env r).fix.flags = r.fix.flags := by
  have key : bitsSubset r.fix.flags (nmea_reader_parse env r).fix.flags := by
    unfold nmea_reader_parse
    simp only
    split_ifs
    · exact bitsSubset_self _
    · exact bitsSubset_self _
    · exact parse_gga_flags env _ r
    · exact parse_gll_flags env _ r
    · exact parse_gsa_flags env _ _ r
    · rw [parse_gsv_fix]; exact bitsSubset_self _
    · exact parse_rmc_flags env _ r
    · exact parse_vtg_flags env _ r
    · rw [parse_zda_flags]; exact bitsSubset_self _
    · exact bitsSubset_self _
  exact ⟨key, bitsSubset_and key⟩

/-- A parse that sets bits and keeps a bit set before: the GGA sentence on a
reader whose speed bit is set gives position, altitude and speed. -/
theorem parse_flags_example :
    (nmea_reader_parse stdEnv
      ({ datedReader with fix := { datedReader.fix with flags := 4 } }.withLine ggaLine)).fix.flags
      = 7 := by
  decide

/-! ## Streams of the primary talker -/

theorem gsa_prn_step_changed (tzer : NmeaTokenizer) (r : NmeaReader) (i : Nat) :
    (gsa_prn_step false tzer r i).sv_status_changed = r.sv_status_changed := by
  unfold gsa_prn_step
  simp only [Bool.false_eq_true, if_false]
  split_ifs <;> rfl

theorem gsa_prn_fold_changed (tzer : NmeaTokenizer) (l : List Nat) :
    ∀ r : NmeaReader,
      (l.foldl (gsa_prn_step false tzer) r).sv_status_changed = r.sv_status_changed := by
  induction l with
  | nil => intro r; rfl
  | cons i l ih =>
    intro r
    rw [List.foldl_cons, ih, gsa_prn_step_changed]

/-- A GSA sentence of a talker other than `BD` leaves the dirty flag of the
satellite status as it is. -/
theorem parse_gsa_primary (env : Env) (tzer : NmeaTokenizer) (r : NmeaReader) :
    (parse_gsa env false tzer r).sv_status_changed = r.sv_status_changed := by
  unfold parse_gsa
  simp only [Bool.not_false, if_true, Bool.false_eq_true, if_false]
  split_ifs
  · rw [gsa_prn_fold_changed]
    exact (update_accuracy_frame env r _).sv_status_changed
  · rfl
  · rfl

/-- A GSV sentence of a talker other than `BD` never sets the dirty flag of the
satellite status. -/
theorem parse_gsv_primary (env : Env) (tzer : NmeaTokenizer) (r : NmeaReader)
    (h : r.sv_status_changed = 0) : (parse_gsv env false tzer r).sv_status_changed = 0 := by
  unfold parse_gsv parse_gsv_loop
  simp only [Bool.not_false, Bool.false_eq_true, and_false, and_true, if_false]
  split_ifs <;> first | exact h | rfl

/-- One parse of a line whose talker ID is not `BD` leaves the dirty flag at 0. -/
theorem parse_primary (env : Env) (r : NmeaReader) (h : r.sv_status_changed = 0)
    (hbd : talkerIsBD r.inb r.pos = false) : (nmea_reader_parse env r).sv_status_changed = 0 := by
  have hbd1 : memcmp_eq (nmea_tokenizer_get (reader_tzer r) 0) 0 [66, 68] = false := hbd
  unfold nmea_reader_parse
  simp only [hbd1]
  split_ifs
  · exact h
  · exact h
  · rw [(parse_gga_frame env _ r).sv_status_changed]; exact h
  · rw [(parse_gll_frame env _ r).sv_status_changed]; exact h
  · rw [parse_gsa_primary]; exact h
  · exact parse_gsv_primary env _ r h
  · rw [(parse_rmc_frame env _ r).sv_status_changed]; exact h
  · rw [(parse_vtg_frame env _ r).sv_status_changed]; exact h
  · rw [(parse_zda_frame env _ r).sv_status_changed]; exact h
  · exact h

/-- The publisher's sample of a reader whose dirty flag is 0 hands no satellite
status to the host and leaves the flag at 0. -/
theorem timer_sample_clean (s : GpsState) (h : s.reader.sv_status_changed = 0) :
    svStatusCount (gps_timer_sample s).2 = 0 ∧
    (gps_timer_sample s).1.reader.sv_status_changed = 0 := by
  unfold gps_timer_sample
  by_cases c1 : s.reader.fix.flags &&& GPS_LOCATION_HAS_LAT_LONG ≠ 0
  · by_cases c2 : s.callbacks.location_cb = true
    · by_cases c3 : s.fix_freq = 0 <;> simp [c1, c2, c3, h, svStatusCount]
    · by_cases c3 : s.fix_freq = 0 <;> simp [c1, c2, c3, h, svStatusCount]
  · simp [c1, h, svStatusCount]

/-- In a session that parses no sentence of the talker `BD` and stores every
satellite record inside `sv_list`, the dirty flag of the satellite status is
0. -/
theorem primary_reachable_clean (r : NmeaReader) (h : PrimaryReachable r) :
    r.sv_status_changed = 0 := by
  induction h with
  | init env => rfl
  | line r buf pos overflow _ ih => exact ih
  | parse env r _ hbd _ ih => exact parse_primary env r ih hbd
  | sample s _ ih => exact (timer_sample_clean s ih).2

/-- C31 fails on the code: none of the nine sentences `gsvLine36 1 .. 9` has the
talker ID `BD`, and fed from `nmea_reader_init` up to the `'\n'` of the ninth
they leave `sv_status_changed` at 0; the parse of the ninth then stores its
records at index `GPS_MAX_SVS`, one past the last entry of `sv_list`, the last
of them with the satellite ID field `13` and the elevation field `06`. -/
theorem primary_stream_store_past_end :
    (∀ k ∈ [1, 2, 3, 4, 5, 6, 7, 8, 9], talkerIsBD (gsvLine36 k) (gsvLine36 k).length = false) ∧
    (nmea_reader_feed stdEnv (nmea_reader_init stdEnv) gsvStream36Open).1.sv_status_changed = 0 ∧
    (GPS_MAX_SVS : Int) ∈ parse_sv_writes stdEnv
      (addc_parse_state (nmea_reader_feed stdEnv (nmea_reader_init stdEnv) gsvStream36Open).1) ∧
    (lineTok (gsvLine36 9) (gsvLine36 9).length 16).bytes = [49, 51] ∧
    (lineTok (gsvLine36 9) (gsvLine36 9).length 17).bytes = [48, 54] := by
  decide

end LocosysGps
